import Mathlib

/-! Enhanced task manager: task query and mutation handlers.

A shallow embedding of `backend/utils/validation.js` and
`backend/controllers/taskControllers.js`.

* JavaScript numbers that the handlers compute with are integers or one of the
  special values `NaN`, `+Infinity`, `-Infinity`; they are embedded as `JSNum`.
  The two zeros `+0` and `-0` are both `JSNum.fin 0` (every operation used by
  the handlers treats them alike). Subtraction and multiplication round their
  exact result to the nearest double and overflow to an infinity.
* The document store (MongoDB through Mongoose) is a list of `Task` documents
  in natural order; what the store library decides on its own (pattern
  matching, the order of documents on a field, identifier parsing, date
  parsing) is collected in the structure `Engine`.
-/

namespace TaskManager

/-! ## JavaScript numbers -/

/-- The values of type `number` reachable in the handlers. -/
inductive JSNum where
  | nan : JSNum
  | fin (z : Int) : JSNum
  | inf (negative : Bool) : JSNum
  deriving DecidableEq, Repr

/-- The number of low bits that a non-negative integer loses when it is
rounded to the 53 bit significand of a double: the number of halvings that
bring it below `2^53`. The first argument bounds the recursion. -/
def excessBits : Nat → Nat → Nat
  | 0, _ => 0
  | fuel + 1, n => if n < 2 ^ 53 then 0 else excessBits fuel (n / 2) + 1

/-- The rounding of a non-negative integer to the nearest IEEE 754 double
(ties to even); `none` when the result overflows to `Infinity`, that is when
the rounded value needs more than 1024 bits. -/
def roundToDouble (n : Nat) : Option Nat :=
  let e := excessBits n n
  let q := n >>> e
  let r := n - (q <<< e)
  let half := (1 <<< e) / 2
  let q1 := if half < r ∨ (r = half ∧ 0 < e ∧ q % 2 = 1) then q + 1 else q
  let v := q1 <<< e
  if v >>> 1024 = 0 then some v else none

/-- The number denoted by a sign and a magnitude. -/
def signedNumber (negative : Bool) (n : Nat) : JSNum :=
  match roundToDouble n with
  | some v => JSNum.fin (if negative then -(v : Int) else (v : Int))
  | none => JSNum.inf negative

namespace JSNum

/-- Truthiness of a number: `NaN` and zero are falsy. -/
def truthy : JSNum → Bool
  | nan => false
  | fin z => z != 0
  | inf _ => true

/-- The expression `x || d` for a number `x`. -/
def orElse (x d : JSNum) : JSNum :=
  if x.truthy then x else d

/-- The comparison `x < y`; any comparison with `NaN` is false. -/
def lt : JSNum → JSNum → Bool
  | nan, _ => false
  | _, nan => false
  | fin a, fin b => decide (a < b)
  | fin _, inf negative => !negative
  | inf negative, fin _ => negative
  | inf a, inf b => a && !b

/-- The comparison `x > y`. -/
def gt (x y : JSNum) : Bool := lt y x

/-- The function `Math.max` on two arguments. -/
def max : JSNum → JSNum → JSNum
  | nan, _ => nan
  | _, nan => nan
  | x, y => if lt x y then y else x

/-- The function `Math.min` on two arguments. -/
def min : JSNum → JSNum → JSNum
  | nan, _ => nan
  | _, nan => nan
  | x, y => if lt y x then y else x

/-- The double nearest to the integer `z`: the result of an arithmetic
operation on doubles whose exact value is `z` (an infinity when `z` is beyond
the largest double). -/
def ofInt (z : Int) : JSNum :=
  signedNumber (decide (z < 0)) z.natAbs

/-- The subtraction `x - y` of doubles: the exact difference, rounded. -/
def sub : JSNum → JSNum → JSNum
  | nan, _ => nan
  | _, nan => nan
  | fin a, fin b => ofInt (a - b)
  | fin _, inf negative => inf (!negative)
  | inf negative, fin _ => inf negative
  | inf a, inf b => if a = b then nan else inf a

/-- The product `x * y` of doubles: the exact product, rounded. -/
def mul : JSNum → JSNum → JSNum
  | nan, _ => nan
  | _, nan => nan
  | fin a, fin b => ofInt (a * b)
  | fin a, inf negative => if a = 0 then nan else inf (negative != decide (a < 0))
  | inf negative, fin b => if b = 0 then nan else inf (negative != decide (b < 0))
  | inf a, inf b => inf (a != b)

/-- The expression `Math.ceil(total / d)` for a count `total` (a non-negative
integer), in exact arithmetic: the integer quotient, plus one when the division
leaves a remainder. Division by zero gives `NaN` for `0 / 0` and an infinity
otherwise; division by an infinity gives zero. -/
def ceilDiv (total : Nat) : JSNum → JSNum
  | nan => nan
  | inf _ => fin 0
  | fin d =>
    if d = 0 then (if total = 0 then nan else inf false)
    else if (total : Int) % d = 0 then fin ((total : Int) / d)
    else if 0 < d then fin ((total : Int) / d + 1)
    else fin (-((total : Int) / (-d)))

/-- The number is an integer (`Number.isInteger`). -/
def isInteger : JSNum → Bool
  | fin _ => true
  | _ => false

end JSNum

/-! ## JavaScript strings -/

/-- White space in the sense of `String.prototype.trim` and of the prefix
skipped by `parseInt`: the ECMAScript `WhiteSpace` and `LineTerminator` code
points. -/
def isWhiteSpace (c : Char) : Bool :=
  let n := c.toNat
  n == 0x09 || n == 0x0A || n == 0x0B || n == 0x0C || n == 0x0D || n == 0x20 ||
  n == 0xA0 || n == 0x1680 || (0x2000 ≤ n && n ≤ 0x200A) || n == 0x2028 ||
  n == 0x2029 || n == 0x202F || n == 0x205F || n == 0x3000 || n == 0xFEFF

/-- The method `String.prototype.trim` on the characters of a string. -/
def trimChars (s : List Char) : List Char :=
  ((s.dropWhile isWhiteSpace).reverse.dropWhile isWhiteSpace).reverse

/-- The method `String.prototype.trim`. -/
def jsTrim (s : String) : String :=
  String.mk (trimChars s.data)

/-- The value of a character as a digit: `0`-`9`, then letters of either case
from ten upwards. -/
def digitValue (c : Char) : Option Nat :=
  let n := c.toNat
  if 48 ≤ n ∧ n ≤ 57 then some (n - 48)
  else if 97 ≤ n ∧ n ≤ 122 then some (n - 97 + 10)
  else if 65 ≤ n ∧ n ≤ 90 then some (n - 65 + 10)
  else none

/-- The character is a digit of the given radix. -/
def isRadixDigit (radix : Nat) (c : Char) : Bool :=
  match digitValue c with
  | some v => decide (v < radix)
  | none => false

/-- The mathematical value of a digit sequence in the given radix. -/
def digitsValue (radix : Nat) (ds : List Char) : Nat :=
  ds.foldl (fun acc c => acc * radix + (digitValue c).getD 0) 0

/-- The global function `parseInt` with no radix argument, on the characters of
the string form of its argument: skip leading white space, read a sign, read a
`0x`/`0X` prefix (radix 16, otherwise radix 10), take the longest run of
digits; no digit gives `NaN`. -/
def parseIntChars (s : List Char) : JSNum :=
  let s1 := s.dropWhile isWhiteSpace
  let negative := s1.head? == some '-'
  let s2 := if s1.head? == some '-' || s1.head? == some '+' then s1.tail else s1
  let hex := s2.take 2 == ['0', 'x'] || s2.take 2 == ['0', 'X']
  let radix := if hex then 16 else 10
  let s3 := if hex then s2.drop 2 else s2
  let z := s3.takeWhile (isRadixDigit radix)
  if z.isEmpty then JSNum.nan else signedNumber negative (digitsValue radix z)

/-- A raw value handed to `validatePagination`: `undefined`, a number or a
string. Numbers are integer valued and of magnitude below `10^21`, so that
their string form is their decimal digit string; the handler passes the
literals `1` and `10` and the strings of the query. -/
inductive Raw where
  | undefined : Raw
  | num (z : Int) : Raw
  | str (s : String) : Raw
  deriving DecidableEq, Repr

/-- The string form (`ToString`) of a raw value. -/
def Raw.toChars : Raw → List Char
  | Raw.undefined => "undefined".data
  | Raw.num z => if z < 0 then '-' :: Nat.toDigits 10 z.natAbs else Nat.toDigits 10 z.natAbs
  | Raw.str s => s.data

/-- The global function `parseInt` applied to a raw value. -/
def parseInt (v : Raw) : JSNum :=
  parseIntChars v.toChars

/-! ## validation.js -/

/-- The pair returned by `validatePagination`. -/
structure PageLimit where
  page : JSNum
  limit : JSNum
  deriving DecidableEq, Repr

/-- The function `validatePagination`. -/
def validatePagination (page limit : Raw) : PageLimit :=
  let pageNum := (parseInt page).orElse (JSNum.fin 1)
  let limitNum := (parseInt limit).orElse (JSNum.fin 10)
  { page := JSNum.max (JSNum.fin 1) pageNum,
    limit := JSNum.min (JSNum.fin 100) (JSNum.max (JSNum.fin 1) limitNum) }

/-- The function `sanitizeSearchQuery`: a missing query and the empty string
are falsy and give the empty string, any other string is trimmed and then
loses every `<` and `>`. -/
def sanitizeSearchQuery : Option String → String
  | none => ""
  | some query =>
    if query.data.isEmpty then ""
    else String.mk ((trimChars query.data).filter (fun c => !(c == '<' || c == '>')))

/-! ## The task store -/

/-- An identifier of the store (an `ObjectId`), in its canonical string form. -/
abbrev ObjectId := String

/-- The identifier of an authenticated user (`req.user.id`). -/
abbrev UserId := String

/-- Modelled from the spec: the Task document (`models/Task.js` is not among
the sources). The fields are those of the data model: identifier, owner, title,
description, status, priority, category, optional due date, tags, creation
time and optional completion time. Times are instants on the clock of the
server. -/
structure Task where
  _id : ObjectId
  user : UserId
  title : String
  description : String
  status : String
  priority : String
  category : String
  dueDate : Option Nat
  tags : List String
  createdAt : Nat
  completedAt : Option Nat
  deriving DecidableEq, Repr

/-- The content of the task collection, in natural order. -/
abbrev Store := List Task

/-- What the store library decides on its own. The handlers are verified for
every engine.

* `regex p` compiles the pattern `p` with the flag `i` and gives its match
  test, or `none` when `p` is not a well-formed pattern;
* `order f` is the ascending order of documents on the sort key `f` (the first
  document does not come after the second), or `none` when the store rejects
  the key;
* `objectId s` is the identifier denoted by the string `s`, or `none` when `s`
  is not a well-formed identifier;
* `parseDate s` is the instant denoted by `new Date(s)`, or `none` for an
  invalid date;
* `clampsSkip` tells whether a skip of `Infinity` is clamped to the largest
  offset of the store (every document is skipped) or rejected;
* `ownerEq o v` tells whether the stored owner `o` equals the value `v` written
  in a stage of an aggregation pipeline. The filter of a query is cast by the
  schema before it reaches the store, a pipeline is sent as written, so this
  is the store's own comparison of the stored owner with the string `v`. -/
structure Engine where
  regex : String → Option (String → Bool)
  order : String → Option (Task → Task → Bool)
  objectId : String → Option ObjectId
  parseDate : String → Option Nat
  clampsSkip : Bool
  ownerEq : UserId → String → Bool

/-- A response of a handler: `res.status(code).json(...)` with the message
`msg`, and with a payload when the handler succeeds. -/
inductive Response (α : Type) where
  | ok (code : Nat) (msg : String) (data : α) : Response α
  | error (code : Nat) (msg : String) : Response α
  deriving DecidableEq, Repr

/-- The status code of a response. -/
def Response.code {α : Type} : Response α → Nat
  | Response.ok c _ _ => c
  | Response.error c _ => c

/-- The payload of a response, when it has one. -/
def Response.data? {α : Type} : Response α → Option α
  | Response.ok _ _ d => some d
  | Response.error _ _ => none

/-- The response of every `catch` branch. -/
def internalError {α : Type} : Response α :=
  Response.error 500 "Internal Server Error"

/-- The function `validateObjectId`, which delegates to the library. -/
def validateObjectId (eng : Engine) (id : String) : Bool :=
  (eng.objectId id).isSome

/-! ## getTasks -/

/-- The query string of a list request (`req.query`): each parameter is absent
or a string. -/
structure TaskQuery where
  status : Option String
  priority : Option String
  category : Option String
  search : Option String
  page : Option String
  limit : Option String
  sortBy : Option String
  sortOrder : Option String
  deriving DecidableEq, Repr

/-- The `filter` object built by `getTasks`: the owner, the exact-match keys
that were set, and the pattern of the `$or` clause when a search was given. -/
structure Filter where
  user : UserId
  status : Option String
  priority : Option String
  category : Option String
  search : Option String
  deriving DecidableEq, Repr

/-- Truthiness of an optional string parameter: present and not empty. -/
def truthyParam : Option String → Option String
  | some s => if s.data.isEmpty then none else some s
  | none => none

/-- The filter construction of `getTasks`. -/
def buildFilter (user : UserId) (q : TaskQuery) : Filter :=
  { user := user,
    status := truthyParam q.status,
    priority := truthyParam q.priority,
    category := truthyParam q.category,
    search := (truthyParam q.search).map (fun s => sanitizeSearchQuery (some s)) }

/-- The equality part of a filter on one document: owner, and each exact-match
key that is set. -/
def Filter.exact (f : Filter) (t : Task) : Bool :=
  t.user == f.user &&
  (match f.status with | some v => t.status == v | none => true) &&
  (match f.priority with | some v => t.priority == v | none => true) &&
  (match f.category with | some v => t.category == v | none => true)

/-- The `$or` clause on one document for a compiled pattern: the title matches,
the description matches, or some tag matches. -/
def searchHit (m : String → Bool) (t : Task) : Bool :=
  m t.title || m t.description || t.tags.any m

/-- The predicate denoted by a filter: all its keys are conjoined. It is `none`
when the pattern of the search is rejected. -/
def Filter.pred (eng : Engine) (f : Filter) : Option (Task → Bool) :=
  match f.search with
  | none => some (fun t => f.exact t)
  | some p =>
    match eng.regex p with
    | none => none
    | some m => some (fun t => f.exact t && searchHit m t)

/-- The documents of a collection in the order asked by the `sort` object
`{ [sortBy]: direction }`. Assigning the key `__proto__` leaves the object
without a key of its own, so nothing is sorted. The sort is an insertion
sort: documents that the order does not separate keep their store order. -/
def sortDocs (eng : Engine) (sortBy : String) (descending : Bool) (docs : List Task) :
    Option (List Task) :=
  if sortBy = "__proto__" then some docs
  else
    match eng.order sortBy with
    | none => none
    | some le =>
      if descending then some (docs.insertionSort (fun a b => le b a = true))
      else some (docs.insertionSort (fun a b => le a b = true))

/-- The cursor option `skip`: a non-negative integer drops that many
documents; `Infinity` drops all of them or is rejected, as the engine has it;
any other number is rejected. -/
def applySkip (eng : Engine) (skip : JSNum) (docs : List Task) : Option (List Task) :=
  match skip with
  | JSNum.fin k => if 0 ≤ k then some (docs.drop k.toNat) else none
  | JSNum.inf false => if eng.clampsSkip then some [] else none
  | _ => none

/-- The cursor option `limit`: a non-zero integer keeps that many documents
(a negative one is taken by magnitude), zero keeps all; any other number is
rejected. -/
def applyLimit (limit : JSNum) (docs : List Task) : Option (List Task) :=
  match limit with
  | JSNum.fin l => if l = 0 then some docs else some (docs.take l.natAbs)
  | _ => none

/-- The query `Task.find(filter).sort(sort).skip(skip).limit(limit)`. The
offsets and counts of the handler are doubles, which count documents exactly
below `2^53` only: the model covers result sets of fewer than `2^53` matching
documents and gives no answer on a larger one. -/
def find (eng : Engine) (store : Store) (f : Filter) (sortBy : String) (descending : Bool)
    (skip limit : JSNum) : Option (List Task) :=
  match f.pred eng with
  | none => none
  | some p =>
    if 2 ^ 53 ≤ (store.filter p).length then none
    else
      match sortDocs eng sortBy descending (store.filter p) with
      | none => none
      | some sorted =>
        match applySkip eng skip sorted with
        | none => none
        | some rest => applyLimit limit rest

/-- The query `Task.countDocuments(filter)`. -/
def countDocuments (eng : Engine) (store : Store) (f : Filter) : Option Nat :=
  match f.pred eng with
  | none => none
  | some p => some (store.filter p).length

/-- The `pagination` object of a list response. -/
structure Pagination where
  currentPage : JSNum
  totalPages : JSNum
  totalItems : Nat
  hasNextPage : Bool
  hasPrevPage : Bool
  limit : JSNum
  deriving DecidableEq, Repr

/-- The `data` object of a list response. -/
structure TaskPage where
  tasks : List Task
  pagination : Pagination
  deriving DecidableEq, Repr

/-- The raw `page` and `limit` of a query after the destructuring defaults
`page = 1` and `limit = 10`. -/
def rawParam (v : Option String) (dflt : Int) : Raw :=
  match v with
  | some s => Raw.str s
  | none => Raw.num dflt

/-- The handler `getTasks`. The two reads of the handler, `find` and
`countDocuments`, are separate: `found` is the content of the store at the
first and `counted` its content at the second. -/
def getTasks (eng : Engine) (found counted : Store) (user : UserId) (q : TaskQuery) :
    Response TaskPage :=
  let filter := buildFilter user q
  let pl := validatePagination (rawParam q.page 1) (rawParam q.limit 10)
  let pageNum := pl.page
  let limitNum := pl.limit
  let skip := (pageNum.sub (JSNum.fin 1)).mul limitNum
  let sortBy := q.sortBy.getD "createdAt"
  let descending := q.sortOrder.getD "desc" == "desc"
  match find eng found filter sortBy descending skip limitNum with
  | none => internalError
  | some tasks =>
    match countDocuments eng counted filter with
    | none => internalError
    | some total =>
      let totalPages := JSNum.ceilDiv total limitNum
      Response.ok 200 "Tasks retrieved successfully"
        { tasks := tasks,
          pagination :=
            { currentPage := pageNum,
              totalPages := totalPages,
              totalItems := total,
              hasNextPage := pageNum.lt totalPages,
              hasPrevPage := pageNum.gt (JSNum.fin 1),
              limit := limitNum } }

/-! ## getTask -/

/-- The handler `getTask`. -/
def getTask (eng : Engine) (store : Store) (user : UserId) (taskId : String) : Response Task :=
  if !validateObjectId eng taskId then Response.error 400 "Invalid task ID format"
  else
    match eng.objectId taskId with
    | none => internalError
    | some oid =>
      match store.find? (fun t => t.user == user && t._id == oid) with
      | none => Response.error 404 "Task not found"
      | some task => Response.ok 200 "Task retrieved successfully" task

/-! ## putTask -/

/-- The value of the key `tags` of a request body: an array of strings, or a
value that is not an array. -/
inductive TagsValue where
  | array (tags : List String) : TagsValue
  | other : TagsValue
  deriving DecidableEq, Repr

/-- The body of an update request (`req.body`): each key is absent
(`undefined`) or present. A present `dueDate` is `null` or a string. -/
structure TaskBody where
  title : Option String
  description : Option String
  status : Option String
  priority : Option String
  category : Option String
  dueDate : Option (Option String)
  tags : Option TagsValue
  deriving DecidableEq, Repr

/-- A value written to a date field: `null`, an instant, or the invalid date
that `new Date` gives for a string that is not a date. -/
inductive DateValue where
  | null : DateValue
  | at (t : Nat) : DateValue
  | invalid : DateValue
  deriving DecidableEq, Repr

/-- The object `updateData` of `putTask`: the keys that were set. -/
structure UpdateData where
  title : Option String
  description : Option String
  status : Option String
  priority : Option String
  category : Option String
  dueDate : Option DateValue
  tags : Option (List String)
  completedAt : Option DateValue
  deriving DecidableEq, Repr

/-- The expression `dueDate ? new Date(dueDate) : null`. -/
def dueDateValue (eng : Engine) : Option String → DateValue
  | none => DateValue.null
  | some s =>
    if s.data.isEmpty then DateValue.null
    else
      match eng.parseDate s with
      | some t => DateValue.at t
      | none => DateValue.invalid

/-- The expression `Array.isArray(tags) ? tags.filter(tag => tag.trim()) : []`. -/
def filterTags : TagsValue → List String
  | TagsValue.array tags => tags.filter (fun tag => !(jsTrim tag).data.isEmpty)
  | TagsValue.other => []

/-- The block "Handle completion status" of `putTask`: the value assigned to
`updateData.completedAt`, if any, for the incoming `status` and the stored
task. It is the current time when the incoming status is `completed` and the
stored one is not, and `null` when the incoming status is not `completed`
(absent included) and the stored one is. -/
def completionUpdate (now : Nat) (status : Option String) (task : Task) : Option DateValue :=
  if status == some "completed" && task.status != "completed" then some (DateValue.at now)
  else if status != some "completed" && task.status == "completed" then some DateValue.null
  else none

/-- The block "Prepare update data" of `putTask`, with the completion block. -/
def buildUpdate (eng : Engine) (now : Nat) (task : Task) (body : TaskBody) : UpdateData :=
  { title := body.title.map jsTrim,
    description := body.description.map jsTrim,
    status := body.status,
    priority := body.priority,
    category := body.category,
    dueDate := body.dueDate.map (dueDateValue eng),
    tags := body.tags.map filterTags,
    completedAt := completionUpdate now body.status task }

/-- The length of a string in UTF-16 code units (`String.prototype.length`). -/
def jsLength (s : String) : Nat :=
  (s.data.map (fun c => if c.toNat < 0x10000 then 1 else 2)).sum

/-- Modelled from the spec: the status values of the Task schema
(`models/Task.js` is not among the sources). -/
def statusValues : List String := ["pending", "in-progress", "completed", "cancelled"]

/-- Modelled from the spec: the priority values of the Task schema
(`models/Task.js` is not among the sources). -/
def priorityValues : List String := ["low", "medium", "high", "urgent"]

/-- Modelled from the spec: the category values of the Task schema
(`models/Task.js` is not among the sources). -/
def categoryValues : List String :=
  ["work", "personal", "shopping", "health", "education", "other"]

/-- A key that is absent passes; a present one is tested. -/
def presentAll {α : Type} (v : Option α) (p : α → Bool) : Bool :=
  match v with
  | some a => p a
  | none => true

/-- Modelled from the spec: the validators of the Task schema
(`models/Task.js` is not among the sources) as run on the keys of an update
(`runValidators: true`): a title of 1 to 100 characters, a description of 1 to
500 characters, status, priority and category within their values, and dates
that are valid. -/
def schemaAccepts (u : UpdateData) : Bool :=
  presentAll u.title (fun s => decide (1 ≤ jsLength s ∧ jsLength s ≤ 100)) &&
  presentAll u.description (fun s => decide (1 ≤ jsLength s ∧ jsLength s ≤ 500)) &&
  presentAll u.status (fun s => statusValues.contains s) &&
  presentAll u.priority (fun s => priorityValues.contains s) &&
  presentAll u.category (fun s => categoryValues.contains s) &&
  presentAll u.dueDate (fun d => d != DateValue.invalid) &&
  presentAll u.completedAt (fun d => d != DateValue.invalid)

/-- The stored form of a date value. -/
def DateValue.stored : DateValue → Option Nat
  | DateValue.at t => some t
  | _ => none

/-- Modelled from the spec: the stored form of the tags that are written to a
task (`models/Task.js` is not among the sources). The data model has `tags`
hold trimmed strings only: each tag is stored trimmed. -/
def storedTags (tags : List String) : List String :=
  tags.map jsTrim

/-- Modelled from the spec: the document after the keys of an update are set on
it (`models/Task.js` is not among the sources); the keys that are not in the
update keep their value, and tags are stored in their stored form. -/
def applyUpdate (t : Task) (u : UpdateData) : Task :=
  { t with
    title := u.title.getD t.title,
    description := u.description.getD t.description,
    status := u.status.getD t.status,
    priority := u.priority.getD t.priority,
    category := u.category.getD t.category,
    dueDate := match u.dueDate with | some d => d.stored | none => t.dueDate,
    tags := (u.tags.map storedTags).getD t.tags,
    completedAt := match u.completedAt with | some d => d.stored | none => t.completedAt }

/-- The store after the first document with the given identifier is replaced
by its update. -/
def updateFirst (oid : ObjectId) (u : UpdateData) : Store → Store
  | [] => []
  | t :: rest => if t._id == oid then applyUpdate t u :: rest else t :: updateFirst oid u rest

/-- The query `Task.findById(id)`. -/
def findById (store : Store) (oid : ObjectId) : Option Task :=
  store.find? (fun t => t._id == oid)

/-- The call `Task.findByIdAndUpdate(id, updateData, { new: true,
runValidators: true })`: `none` when a validator rejects the update (the call
throws and nothing is written), otherwise the updated document (`null` when no
document has the identifier) and the store after the write. -/
def findByIdAndUpdate (store : Store) (oid : ObjectId) (u : UpdateData) :
    Option (Option Task × Store) :=
  if schemaAccepts u then
    some ((findById store oid).map (fun t => applyUpdate t u), updateFirst oid u store)
  else none

/-- The handler `putTask`, at the time `now`: the response and the store after
the call. -/
def putTask (eng : Engine) (now : Nat) (store : Store) (user : UserId) (taskId : String)
    (body : TaskBody) : Response (Option Task) × Store :=
  if !validateObjectId eng taskId then (Response.error 400 "Invalid task ID format", store)
  else
    match eng.objectId taskId with
    | none => (internalError, store)
    | some oid =>
      match findById store oid with
      | none => (Response.error 404 "Task not found", store)
      | some task =>
        if task.user != user then
          (Response.error 403 "Access denied. You can only update your own tasks", store)
        else
          match findByIdAndUpdate store oid (buildUpdate eng now task body) with
          | none => (internalError, store)
          | some (updated, store1) =>
            (Response.ok 200 "Task updated successfully" updated, store1)

/-! ## postTask -/

/-- The object `taskData` of `postTask`: the document handed to
`Task.create`. The key `dueDate` is set only for a truthy `dueDate` of the
body. -/
structure TaskData where
  user : UserId
  title : String
  description : String
  status : String
  priority : String
  category : String
  tags : List String
  dueDate : Option DateValue
  deriving DecidableEq, Repr

/-- The block "Create task data object" of `postTask`, for a title and a
description that passed the check of the required fields: both are trimmed,
status, priority and category take their defaults `pending`, `medium` and
`other` when the body omits them, the tags default to the empty array and are
filtered. -/
def buildTaskData (eng : Engine) (user : UserId) (title description : String)
    (body : TaskBody) : TaskData :=
  { user := user,
    title := jsTrim title,
    description := jsTrim description,
    status := body.status.getD "pending",
    priority := body.priority.getD "medium",
    category := body.category.getD "other",
    tags := filterTags (body.tags.getD (TagsValue.array [])),
    dueDate :=
      match body.dueDate with
      | some (some s) => if s.data.isEmpty then none else some (dueDateValue eng (some s))
      | _ => none }

/-- The keys of a new document as seen by the validators of the schema. -/
def TaskData.toUpdate (d : TaskData) : UpdateData :=
  { title := some d.title,
    description := some d.description,
    status := some d.status,
    priority := some d.priority,
    category := some d.category,
    dueDate := d.dueDate,
    tags := some d.tags,
    completedAt := none }

/-- Modelled from the spec: the document that `Task.create` stores
(`models/Task.js` is not among the sources): the keys of `taskData` as given,
the tags in their stored form, the identifier assigned by the store, the
creation time, and no completion time (a task created with status `completed`
is not stamped). -/
def TaskData.toTask (d : TaskData) (newId : ObjectId) (now : Nat) : Task :=
  { _id := newId,
    user := d.user,
    title := d.title,
    description := d.description,
    status := d.status,
    priority := d.priority,
    category := d.category,
    dueDate := match d.dueDate with | some v => v.stored | none => none,
    tags := storedTags d.tags,
    createdAt := now,
    completedAt := none }

/-- The call `Task.create(taskData)`: `none` when a validator of the schema
rejects the document (the call throws and nothing is inserted), otherwise the
new document and the store with the document added at its end. -/
def create (store : Store) (newId : ObjectId) (now : Nat) (d : TaskData) :
    Option (Task × Store) :=
  if schemaAccepts d.toUpdate then
    some (d.toTask newId now, store ++ [d.toTask newId now])
  else none

/-- The handler `postTask`, at the time `now`, where `newId` is the identifier
that the store assigns to a new document: the response and the store after
the call. A title or description that is missing or the empty string is
falsy. -/
def postTask (eng : Engine) (now : Nat) (newId : ObjectId) (store : Store) (user : UserId)
    (body : TaskBody) : Response Task × Store :=
  match truthyParam body.title, truthyParam body.description with
  | some title, some description =>
    match create store newId now (buildTaskData eng user title description body) with
    | none => (internalError, store)
    | some (task, store1) => (Response.ok 201 "Task created successfully" task, store1)
  | _, _ => (Response.error 400 "Title and description are required", store)

/-! ## deleteTask -/

/-- The call `Task.findByIdAndDelete(id)`: the store without the first
document that has the identifier. -/
def findByIdAndDelete (store : Store) (oid : ObjectId) : Store :=
  store.eraseP (fun t => t._id == oid)

/-- The handler `deleteTask`: the response and the store after the call. -/
def deleteTask (eng : Engine) (store : Store) (user : UserId) (taskId : String) :
    Response Unit × Store :=
  if !validateObjectId eng taskId then (Response.error 400 "Invalid task ID format", store)
  else
    match eng.objectId taskId with
    | none => (internalError, store)
    | some oid =>
      match findById store oid with
      | none => (Response.error 404 "Task not found", store)
      | some task =>
        if task.user != user then
          (Response.error 403 "Access denied. You can only delete your own tasks", store)
        else (Response.ok 200 "Task deleted successfully" (), findByIdAndDelete store oid)

/-- The identifiers of the documents of a store are pairwise distinct, as the
store guarantees for `_id`. -/
def uniqueIds (store : Store) : Prop :=
  (store.map (fun t => t._id)).Nodup

/-! ## getTaskStats -/

/-- An entry of a grouped count: the document `{ _id, count }` that the stage
`$group` gives for one value of the grouping key. -/
structure GroupCount where
  _id : String
  count : Nat
  deriving DecidableEq, Repr

/-- The accumulator of `$group` with `count: { $sum: 1 }` after one more
document with the key `v`: the entry of `v` counts one more, or a new entry
with count 1 is added after the others. -/
def bumpCount (v : String) : List GroupCount → List GroupCount
  | [] => [{ _id := v, count := 1 }]
  | g :: rest =>
    if g._id == v then { g with count := g.count + 1 } :: rest else g :: bumpCount v rest

/-- The stage `{ $group: { _id: "$key", count: { $sum: 1 } } }` on a sequence of
documents. The entries come in the order in which their values first occur
(the store leaves the order of the groups unspecified). -/
def groupCount (key : Task → String) (docs : List Task) : List GroupCount :=
  docs.foldl (fun acc t => bumpCount (key t) acc) []

/-- The pipeline `Task.aggregate([{ $match: { user: userId } }, { $group: {
_id: "$key", count: { $sum: 1 } } }])`. -/
def aggregate (eng : Engine) (store : Store) (userId : String) (key : Task → String) :
    List GroupCount :=
  groupCount key (store.filter (fun t => eng.ownerEq t.user userId))

/-- The filter of the counting queries of `getTaskStats`: the owner, the bounds
on `dueDate` (`$lt`, `$gte`, `$lte`) that are set, and the statuses excluded by
`$nin`. -/
structure DueFilter where
  user : UserId
  dueLt : Option Nat
  dueGte : Option Nat
  dueLte : Option Nat
  statusNin : List String
  deriving DecidableEq, Repr

/-- A bound on `dueDate` on one document: a bound that is not set holds, a bound
that is set holds only of a document that has a due date, in the given
comparison with the bound. -/
def dueBound (bound : Option Nat) (cmp : Nat → Nat → Bool) (t : Task) : Bool :=
  match bound with
  | none => true
  | some b =>
    match t.dueDate with
    | some d => cmp d b
    | none => false

/-- The predicate denoted by a filter of a counting query: all its keys are
conjoined. -/
def DueFilter.holds (f : DueFilter) (t : Task) : Bool :=
  t.user == f.user &&
  dueBound f.dueLt (fun d b => decide (d < b)) t &&
  dueBound f.dueGte (fun d b => decide (b ≤ d)) t &&
  dueBound f.dueLte (fun d b => decide (d ≤ b)) t &&
  !(f.statusNin.contains t.status)

/-- The query `Task.countDocuments(filter)` for a filter of `getTaskStats`. -/
def countDue (store : Store) (f : DueFilter) : Nat :=
  (store.filter f.holds).length

/-- The contents of the store at the six reads of `getTaskStats`, in the order
of the handler. -/
structure StatsReads where
  atStatus : Store
  atPriority : Store
  atCategory : Store
  atOverdue : Store
  atDueToday : Store
  atTotal : Store

/-- The six reads of `getTaskStats` when they see one snapshot of the store. -/
def StatsReads.snapshot (store : Store) : StatsReads :=
  { atStatus := store, atPriority := store, atCategory := store, atOverdue := store,
    atDueToday := store, atTotal := store }

/-- The object `stats` of the statistics response. -/
structure Stats where
  total : Nat
  overdue : Nat
  dueToday : Nat
  byStatus : List GroupCount
  byPriority : List GroupCount
  byCategory : List GroupCount
  deriving DecidableEq, Repr

/-- The handler `getTaskStats`. `now` is the instant `new Date()` of the overdue
query, `today` and `tomorrow` are the instants `moment().startOf('day')` and
`moment().endOf('day')` of the due-today query. -/
def getTaskStats (eng : Engine) (now today tomorrow : Nat) (reads : StatsReads)
    (userId : UserId) : Response Stats :=
  let statusStats := aggregate eng reads.atStatus userId (fun t => t.status)
  let priorityStats := aggregate eng reads.atPriority userId (fun t => t.priority)
  let categoryStats := aggregate eng reads.atCategory userId (fun t => t.category)
  let overdueTasks := countDue reads.atOverdue
    { user := userId, dueLt := some now, dueGte := none, dueLte := none,
      statusNin := ["completed", "cancelled"] }
  let dueToday := countDue reads.atDueToday
    { user := userId, dueLt := none, dueGte := some today, dueLte := some tomorrow,
      statusNin := ["completed", "cancelled"] }
  let totalTasks := countDue reads.atTotal
    { user := userId, dueLt := none, dueGte := none, dueLte := none, statusNin := [] }
  Response.ok 200 "Task statistics retrieved successfully"
    { total := totalTasks,
      overdue := overdueTasks,
      dueToday := dueToday,
      byStatus := statusStats,
      byPriority := priorityStats,
      byCategory := categoryStats }

/-! ## validations/index.js -/

/-- A JavaScript value handed to a validator. `object` stands for an object
that is not an array and has no property `length`. -/
inductive JSValue where
  | undefined : JSValue
  | null : JSValue
  | bool (b : Bool) : JSValue
  | number (n : JSNum) : JSValue
  | string (s : String) : JSValue
  | array (items : List JSValue) : JSValue
  | object : JSValue

/-- Truthiness of a value: `undefined`, `null`, `false`, zero, `NaN` and the
empty string are falsy; every array and object is truthy. -/
def JSValue.truthy : JSValue → Bool
  | JSValue.undefined => false
  | JSValue.null => false
  | JSValue.bool b => b
  | JSValue.number n => n.truthy
  | JSValue.string s => !s.data.isEmpty
  | JSValue.array _ => true
  | JSValue.object => true

/-- The property `length` of a value: the number of UTF-16 code units of a
string, the number of elements of an array, `undefined` otherwise. -/
def JSValue.length? : JSValue → Option Nat
  | JSValue.string s => some (jsLength s)
  | JSValue.array items => some items.length
  | _ => none

/-- The comparison `value.length < n`; it is false when the length is
`undefined`. -/
def lengthLt (value : JSValue) (n : Nat) : Bool :=
  match value.length? with
  | some k => decide (k < n)
  | none => false

/-- The comparison `value.length > n`; it is false when the length is
`undefined`. -/
def lengthGt (value : JSValue) (n : Nat) : Bool :=
  match value.length? with
  | some k => decide (n < k)
  | none => false

/-- The test `Array.isArray(value)`. -/
def JSValue.isArray : JSValue → Bool
  | JSValue.array _ => true
  | _ => false

/-- The test `list.includes(value)` for a list of strings: the value is one of
the strings. -/
def includesValue (list : List String) : JSValue → Bool
  | JSValue.string s => list.contains s
  | _ => false

/-- The callback `tag => typeof tag !== 'string' || tag.length > 20`. -/
def badTag : JSValue → Bool
  | JSValue.string s => decide (20 < jsLength s)
  | _ => true

/-- The expression `value.some(tag => ...)` of the tags validator; it is
evaluated for arrays only. -/
def someBadTag : JSValue → Bool
  | JSValue.array items => items.any badTag
  | _ => false

/-- What the built-in objects decide for `validate`: the three pattern tests
on a value (the name pattern, `isValidEmail`, the password pattern), the time
value of `new Date(value)` (`none` when it is `NaN`), and the current time
`new Date()`. The validators are verified for every such environment. -/
structure ValidateEnv where
  nameOk : JSValue → Bool
  emailOk : JSValue → Bool
  passwordOk : JSValue → Bool
  toDate : JSValue → Option Int
  now : Int

/-- The block `case "name"` of the group `signup`. -/
def validateName (env : ValidateEnv) (value : JSValue) : Option String :=
  if !value.truthy then some "This field is required"
  else if lengthLt value 2 then some "Name must be at least 2 characters long"
  else if lengthGt value 50 then some "Name cannot exceed 50 characters"
  else if !env.nameOk value then some "Name can only contain letters and spaces"
  else none

/-- The block `case "email"` of the groups `signup` and `login`. -/
def validateEmail (env : ValidateEnv) (value : JSValue) : Option String :=
  if !value.truthy then some "This field is required"
  else if !env.emailOk value then some "Please enter valid email address"
  else none

/-- The block `case "password"` of the group `signup`. -/
def validateNewPassword (env : ValidateEnv) (value : JSValue) : Option String :=
  if !value.truthy then some "This field is required"
  else if lengthLt value 6 then some "Password should be at least 6 characters long"
  else if !env.passwordOk value then
    some "Password must contain at least one uppercase letter, one lowercase letter, and one number"
  else none

/-- The block `case "password"` of the group `login`. -/
def validatePassword (value : JSValue) : Option String :=
  if !value.truthy then some "This field is required" else none

/-- The block `case "title"` of the group `task`. -/
def validateTitle (value : JSValue) : Option String :=
  if !value.truthy then some "Title is required"
  else if lengthLt value 1 then some "Title cannot be empty"
  else if lengthGt value 100 then some "Title cannot exceed 100 characters"
  else none

/-- The block `case "description"` of the group `task`. -/
def validateDescription (value : JSValue) : Option String :=
  if !value.truthy then some "Description is required"
  else if lengthLt value 1 then some "Description cannot be empty"
  else if lengthGt value 500 then some "Description cannot exceed 500 characters"
  else none

/-- The blocks `case "status"`, `case "priority"` and `case "category"` of the
group `task`: a truthy value must be one of the listed strings. -/
def validateOneOf (valid : List String) (message : String) (value : JSValue) : Option String :=
  if value.truthy && !includesValue valid value then some message else none

/-- The block `case "dueDate"` of the group `task`. -/
def validateDueDate (env : ValidateEnv) (value : JSValue) : Option String :=
  if value.truthy then
    match env.toDate value with
    | none => some "Invalid date format"
    | some t => if t < env.now then some "Due date cannot be in the past" else none
  else none

/-- The block `case "tags"` of the group `task`. -/
def validateTags (value : JSValue) : Option String :=
  if value.truthy && !value.isArray then some "Tags must be an array"
  else if value.truthy && someBadTag value then
    some "Each tag must be a string and cannot exceed 20 characters"
  else none

/-- The function `validate`: the error message for one field of a group, or
`none` for `null`. The value lists of status, priority and category are those
written in the function. -/
def validate (env : ValidateEnv) (group name : String) (value : JSValue) : Option String :=
  if group = "signup" then
    if name = "name" then validateName env value
    else if name = "email" then validateEmail env value
    else if name = "password" then validateNewPassword env value
    else none
  else if group = "login" then
    if name = "email" then validateEmail env value
    else if name = "password" then validatePassword value
    else none
  else if group = "task" then
    if name = "title" then validateTitle value
    else if name = "description" then validateDescription value
    else if name = "status" then
      validateOneOf ["pending", "in-progress", "completed", "cancelled"]
        "Invalid status value" value
    else if name = "priority" then
      validateOneOf ["low", "medium", "high", "urgent"] "Invalid priority value" value
    else if name = "category" then
      validateOneOf ["work", "personal", "shopping", "health", "education", "other"]
        "Invalid category value" value
    else if name = "dueDate" then validateDueDate env value
    else if name = "tags" then validateTags value
    else none
  else none

/-- An entry `{ field, err }` of the list returned by `validateManyFields`. -/
structure FieldError where
  field : String
  err : String
  deriving DecidableEq, Repr

/-- The function `validateManyFields`. The submission `list` is given by its
fields and their values in the order in which `for ... in` visits them; an
error is pushed when it is truthy, that is a non-empty message. -/
def validateManyFields (env : ValidateEnv) (group : String) (list : List (String × JSValue)) :
    List FieldError :=
  list.foldl
    (fun errors fv =>
      match validate env group fv.1 fv.2 with
      | some err =>
        if err.data.isEmpty then errors else errors ++ [{ field := fv.1, err := err }]
      | none => errors)
    []

/-- An environment on which the validators can be evaluated: every pattern
test succeeds, a number is its own time value, the current time is 100. -/
def sampleEnv : ValidateEnv :=
  { nameOk := fun _ => true,
    emailOk := fun _ => true,
    passwordOk := fun _ => true,
    toDate := fun v => match v with
      | JSValue.number (JSNum.fin z) => some z
      | _ => none,
    now := 100 }

/-! ## A reference engine -/

/-- The character in lower case (ASCII letters). -/
def lowerChar (c : Char) : Char :=
  if 65 ≤ c.toNat ∧ c.toNat ≤ 90 then Char.ofNat (c.toNat + 32) else c

/-- A character that stands for itself in a pattern: a letter, a digit or a
space. -/
def isPlainChar (c : Char) : Bool :=
  (digitValue c).isSome || c == ' '

/-- The pattern language restricted to plain characters: such a pattern
matches a subject when it occurs in it, letter case apart. A pattern with any
other character is outside this fragment and is not compiled. -/
def plainRegex (p : String) : Option (String → Bool) :=
  if p.data.all isPlainChar then
    some (fun s => decide ((p.data.map lowerChar) <:+: (s.data.map lowerChar)))
  else none

/-- The order of documents on the keys `createdAt` and `title`; other keys are
not ordered by this engine. -/
def plainOrder (key : String) : Option (Task → Task → Bool) :=
  if key = "createdAt" then some (fun a b => decide (a.createdAt ≤ b.createdAt))
  else if key = "title" then some (fun a b => decide (a.title ≤ b.title))
  else none

/-- Identifiers of 24 hexadecimal digits, in lower case. -/
def plainObjectId (s : String) : Option ObjectId :=
  if s.data.length = 24 ∧ s.data.all (isRadixDigit 16) then some (String.mk (s.data.map lowerChar))
  else none

/-- Dates written as a number of milliseconds in decimal digits. -/
def plainDate (s : String) : Option Nat :=
  if !s.data.isEmpty ∧ s.data.all (isRadixDigit 10) then some (digitsValue 10 s.data) else none

/-- A small engine on which the handlers can be evaluated: plain patterns, two
sort keys, hexadecimal identifiers, numeric dates, owners compared as
strings. -/
def plainEngine : Engine :=
  { regex := plainRegex,
    order := plainOrder,
    objectId := plainObjectId,
    parseDate := plainDate,
    clampsSkip := true,
    ownerEq := fun o v => o == v }

/-- The reference engine with a store that rejects a skip of `Infinity`. -/
def strictEngine : Engine :=
  { plainEngine with clampsSkip := false }

/-- The reference engine with a store whose owners are identifiers of a type of
their own (`ObjectId`): the string written in a stage of a pipeline, which is
sent to the store as it is, equals none of them. -/
def uncastEngine : Engine :=
  { plainEngine with ownerEq := fun _ _ => false }

/-- A page number of 308 digits, `1` followed by 307 zeros. -/
def page1e307 : String :=
  String.mk ('1' :: List.replicate 307 '0')

/-- A page number of 309 digits, `1` followed by 308 zeros. -/
def page1e308 : String :=
  String.mk ('1' :: List.replicate 308 '0')

/-- The tasks of a list response; a response without payload has none. -/
def returnedTasks (r : Response TaskPage) : List Task :=
  match r with
  | Response.ok _ _ page => page.tasks
  | Response.error _ _ => []

/-! ## Sample data -/

/-- The identifier of the first sample task. -/
def idMilk : String := "aaaaaaaaaaaaaaaaaaaaaaaa"

/-- The identifier of the second sample task. -/
def idReport : String := "bbbbbbbbbbbbbbbbbbbbbbbb"

/-- A pending task of the user `u1`. -/
def taskMilk : Task :=
  { _id := idMilk, user := "u1", title := "Buy milk", description := "2% milk",
    status := "pending", priority := "low", category := "shopping", dueDate := none,
    tags := ["food"], createdAt := 5, completedAt := none }

/-- A completed task of the user `u2`. -/
def taskReport : Task :=
  { _id := idReport, user := "u2", title := "Report", description := "Quarterly report",
    status := "completed", priority := "low", category := "work", dueDate := none,
    tags := [], createdAt := 7, completedAt := some 3 }

/-- A second task of the user `u1`. -/
def taskWalk : Task :=
  { _id := "cccccccccccccccccccccccc", user := "u1", title := "Walk", description := "Evening walk",
    status := "pending", priority := "high", category := "health", dueDate := none,
    tags := [], createdAt := 9, completedAt := none }

/-- A store with tasks of two users. -/
def sampleStore : Store := [taskMilk, taskReport, taskWalk]

/-- The query with no parameter. -/
def emptyQuery : TaskQuery :=
  { status := none, priority := none, category := none, search := none, page := none,
    limit := none, sortBy := none, sortOrder := none }

/-- The body with no key. -/
def emptyBody : TaskBody :=
  { title := none, description := none, status := none, priority := none, category := none,
    dueDate := none, tags := none }

/-- The count recorded for the value `v`, zero when `v` has no entry. -/
def countOf (v : String) (acc : List GroupCount) : Nat :=
  match acc.find? (fun g => g._id == v) with
  | some g => g.count
  | none => 0

/-- A task of `u1` that was due at the instant 5 and is still pending. -/
def taskLate : Task :=
  { _id := "eeeeeeeeeeeeeeeeeeeeeeee", user := "u1", title := "Pay rent", description := "Rent",
    status := "pending", priority := "urgent", category := "personal", dueDate := some 5,
    tags := [], createdAt := 1, completedAt := none }

/-- A task of `u1` that was due at the instant 5 and is completed. -/
def taskDone : Task :=
  { _id := "ffffffffffffffffffffffff", user := "u1", title := "Call bank", description := "Bank",
    status := "completed", priority := "low", category := "personal", dueDate := some 5,
    tags := [], createdAt := 2, completedAt := some 4 }

/-- The value of the query parameter `page` for the page number `k`: its
decimal digits. -/
def pageParam (k : Nat) : String :=
  String.mk (Nat.toDigits 10 k)

/-- The query with the parameter `page` set to the page number `k`. -/
def withPage (q : TaskQuery) (k : Nat) : TaskQuery :=
  { q with page := some (pageParam k) }

/-- A character is a decimal digit. -/
def isDecimalDigit (c : Char) : Prop :=
  ∃ m, m < 10 ∧ c = Nat.digitChar m

/-! ## The route of task creation -/

/-- The count of characters by `isLength` of the validation library: a
surrogate pair counts once and the variation selectors `U+FE0E` and `U+FE0F`
are not counted. -/
def validatorLength (s : String) : Nat :=
  (s.data.filter (fun c => !(c.toNat == 0xFE0E || c.toNat == 0xFE0F))).length

/-- The string that a validation chain reads for a key of the body: the value
of a present key, the empty string for a missing one or for `null`. -/
def fieldString (v : Option String) : String :=
  v.getD ""

/-- The chain `validateTask` followed by `handleValidationErrors` on the body of
a request: `none` when a validator reports an error (the request is answered
400 `Validation failed`), otherwise the body that the handler receives, in
which the title and the description are replaced by their trims (`trim()` is a
sanitizer). A key under `optional()` is checked only when it is present.
`isISO8601` is the test of the library for a date string. -/
def validateTask (isISO8601 : String → Bool) (body : TaskBody) : Option TaskBody :=
  let title := jsTrim (fieldString body.title)
  let description := jsTrim (fieldString body.description)
  if decide (1 ≤ validatorLength title ∧ validatorLength title ≤ 100) &&
      decide (1 ≤ validatorLength description ∧ validatorLength description ≤ 500) &&
      presentAll body.status
        (fun s => ["pending", "in-progress", "completed", "cancelled"].contains s) &&
      presentAll body.priority (fun s => ["low", "medium", "high", "urgent"].contains s) &&
      presentAll body.category
        (fun s => ["work", "personal", "shopping", "health", "education", "other"].contains s) &&
      presentAll body.dueDate (fun d => isISO8601 (fieldString d)) &&
      presentAll body.tags (fun t => t != TagsValue.other)
  then some { body with title := some title, description := some description }
  else none

/-- The route `POST /api/tasks` after authentication: `validateTask`,
`handleValidationErrors`, then the handler `postTask`. -/
def postTaskRoute (isISO8601 : String → Bool) (eng : Engine) (now : Nat) (newId : ObjectId)
    (store : Store) (user : UserId) (body : TaskBody) : Response Task × Store :=
  match validateTask isISO8601 body with
  | none => (Response.error 400 "Validation failed", store)
  | some clean => postTask eng now newId store user clean

/-! ## Outcomes of the write handlers -/

/-- The outcome of the checks that `putTask` and `deleteTask` make on a
well-formed identifier, read off a response `r` and the store `s1` after the
call. -/
def ChecksInOrder {α : Type} (store : Store) (user : UserId) (oid : ObjectId)
    (r : Response α) (s1 : Store) (denied : String) : Prop :=
  (r.code = 404 ↔ ∀ t ∈ store, t._id ≠ oid) ∧
  ((∀ t ∈ store, t._id ≠ oid) → r = Response.error 404 "Task not found") ∧
  (r.code = 403 ↔ ∃ t, findById store oid = some t ∧ t.user ≠ user) ∧
  ((∃ t, findById store oid = some t ∧ t.user ≠ user) → r = Response.error 403 denied) ∧
  ((r.code = 200 ∨ s1 ≠ store) → ∃ t, findById store oid = some t ∧ t.user = user)

/-! ## Pagination arithmetic -/

open JSNum

theorem roundToDouble_small (k : Nat) (hk : k < 2 ^ 53) : roundToDouble k = some k := by
  have he : excessBits k k = 0 := by
    cases k with
    | zero => rfl
    | succ n =>
      unfold excessBits
      rw [if_pos hk]
  have hbig : k >>> 1024 = 0 := by
    have h53 : k >>> 53 = 0 := by
      rw [Nat.shiftRight_eq_div_pow]
      exact Nat.div_eq_of_lt hk
    have hsplit : k >>> 1024 = (k >>> 53) >>> 971 := by
      rw [← Nat.shiftRight_add]
    rw [hsplit, h53, Nat.zero_shiftRight]
  simp [roundToDouble, he, hbig]

theorem ofInt_small (z : Int) (h0 : 0 ≤ z) (hz : z < 2 ^ 53) : ofInt z = fin z := by
  unfold ofInt signedNumber
  have hneg : decide (z < 0) = false := by
    rw [decide_eq_false_iff_not]; omega
  have hk : z.natAbs < 2 ^ 53 := by omega
  rw [roundToDouble_small _ hk, hneg]
  simp only [Bool.false_eq_true, if_false]
  congr 1
  omega

theorem skip_exact (p l : Int) (hp : 1 ≤ p) (hl : 1 ≤ l) (hex : (p - 1) * l < 2 ^ 53) :
    ((fin p).sub (fin 1)).mul (fin l) = fin ((p - 1) * l) := by
  have h1 : p - 1 < 2 ^ 53 := by nlinarith
  have h0 : 0 ≤ (p - 1) * l := by nlinarith
  show JSNum.mul (ofInt (p - 1)) (fin l) = fin ((p - 1) * l)
  rw [ofInt_small (p - 1) (by omega) h1]
  show ofInt ((p - 1) * l) = fin ((p - 1) * l)
  exact ofInt_small _ h0 hex

theorem clamp_limit (x : JSNum) :
    ∃ l : Int, JSNum.min (fin 100) (JSNum.max (fin 1) (x.orElse (fin 10))) = fin l ∧
      1 ≤ l ∧ l ≤ 100 := by
  cases x with
  | nan => exact ⟨10, by decide, by decide, by decide⟩
  | fin z =>
    by_cases hz : z = 0
    · subst hz; exact ⟨10, by decide, by decide, by decide⟩
    · by_cases h1 : 1 < z
      · by_cases h2 : z < 100
        · exact ⟨z, by simp [JSNum.orElse, truthy, JSNum.max, JSNum.min, lt, hz, h1, h2], by omega, by omega⟩
        · exact ⟨100, by simp [JSNum.orElse, truthy, JSNum.max, JSNum.min, lt, hz, h1, h2], by omega, by omega⟩
      · exact ⟨1, by simp [JSNum.orElse, truthy, JSNum.max, JSNum.min, lt, hz, h1], by omega, by omega⟩
  | inf b =>
    cases b
    · exact ⟨100, by decide, by decide, by decide⟩
    · exact ⟨1, by decide, by decide, by decide⟩

theorem clamp_limit_value (n : Int) (hn : n ≠ 0) :
    JSNum.min (fin 100) (JSNum.max (fin 1) ((fin n).orElse (fin 10))) = fin (Min.min 100 (Max.max 1 n)) := by
  by_cases h1 : 1 < n
  · by_cases h2 : n < 100
    · simp [JSNum.orElse, truthy, JSNum.max, JSNum.min, lt, hn, h1, h2]; omega
    · simp [JSNum.orElse, truthy, JSNum.max, JSNum.min, lt, hn, h1, h2]; omega
  · simp [JSNum.orElse, truthy, JSNum.max, JSNum.min, lt, hn, h1]; omega

theorem clamp_page (x : JSNum) :
    (∃ p : Int, JSNum.max (fin 1) (x.orElse (fin 1)) = fin p ∧ 1 ≤ p) ∨
      JSNum.max (fin 1) (x.orElse (fin 1)) = inf false := by
  cases x with
  | nan => exact Or.inl ⟨1, by decide, by decide⟩
  | fin z =>
    by_cases hz : z = 0
    · subst hz; exact Or.inl ⟨1, by decide, by decide⟩
    · by_cases h1 : 1 < z
      · exact Or.inl ⟨z, by simp [JSNum.orElse, truthy, JSNum.max, lt, hz, h1], by omega⟩
      · exact Or.inl ⟨1, by simp [JSNum.orElse, truthy, JSNum.max, lt, hz, h1], by omega⟩
  | inf b =>
    cases b
    · exact Or.inr (by decide)
    · exact Or.inl ⟨1, by decide, by decide⟩

theorem ceil_bounds (t l : Int) (hl : 1 ≤ l) :
    let c := if t % l = 0 then t / l else t / l + 1
    t ≤ c * l ∧ (c - 1) * l < t := by
  have h := Int.ediv_add_emod t l
  have h0 : 0 ≤ t % l := Int.emod_nonneg t (by omega)
  have h1 : t % l < l := Int.emod_lt_of_pos t (by omega)
  by_cases hr : t % l = 0
  · simp only [hr, if_true]
    constructor
    · nlinarith
    · nlinarith
  · simp only [hr, if_false]
    have h2 : 0 < t % l := lt_of_le_of_ne h0 (Ne.symm hr)
    constructor
    · nlinarith
    · nlinarith

theorem ceilDiv_fin (total : Nat) (l : Int) (hl : 1 ≤ l) :
    ∃ n : Nat, JSNum.ceilDiv total (fin l) = fin n ∧
      IsLeast {k : Nat | (total : Int) ≤ k * l} n ∧
      (n : Int) = ⌈(total : ℚ) / (l : ℚ)⌉ := by
  have hb := ceil_bounds total l hl
  have hq : 0 ≤ (total : Int) / l := Int.ediv_nonneg (by omega) (by omega)
  set c : Int := if (total : Int) % l = 0 then (total : Int) / l else (total : Int) / l + 1 with hc
  have hc0 : 0 ≤ c := by
    rw [hc]; split <;> omega
  have hcd : JSNum.ceilDiv total (fin l) = fin c := by
    have hl0 : l ≠ 0 := by omega
    have hlp : 0 < l := by omega
    by_cases hr : (total : Int) % l = 0
    · simp [JSNum.ceilDiv, hl0, hr, hc]
    · simp [JSNum.ceilDiv, hl0, hr, hc, hlp]
  refine ⟨c.toNat, ?_, ?_, ?_⟩
  · rw [hcd, Int.toNat_of_nonneg hc0]
  · constructor
    · show (total : Int) ≤ (c.toNat : Int) * l
      rw [Int.toNat_of_nonneg hc0]; exact hb.1
    · intro k hk
      have hk' : (total : Int) ≤ (k : Int) * l := hk
      have : c ≤ k := by
        by_contra hlt
        push_neg at hlt
        have : (k : Int) ≤ c - 1 := by omega
        have h3 : (k : Int) * l ≤ (c - 1) * l := by nlinarith
        have := hb.2
        omega
      omega
  · rw [Int.toNat_of_nonneg hc0]
    symm
    rw [Int.ceil_eq_iff]
    have hlq : (0 : ℚ) < (l : ℚ) := by exact_mod_cast (by omega : (0 : Int) < l)
    constructor
    · rw [lt_div_iff₀ hlq]
      have := hb.2
      exact_mod_cast this
    · rw [div_le_iff₀ hlq]
      have := hb.1
      exact_mod_cast this

/-! ## The list query -/

theorem pred_exact {eng : Engine} {f : Filter} {p : Task → Bool}
    (h : f.pred eng = some p) (t : Task) (ht : p t = true) : f.exact t = true := by
  unfold Filter.pred at h
  split at h
  · cases h; exact ht
  · split at h
    · cases h
    · cases h
      simp only [Bool.and_eq_true] at ht
      exact ht.1

theorem exact_user {f : Filter} {t : Task} (h : f.exact t = true) : t.user = f.user := by
  unfold Filter.exact at h
  simp only [Bool.and_eq_true, beq_iff_eq] at h
  exact h.1.1.1

theorem sortDocs_perm {eng : Engine} {sortBy : String} {descending : Bool} {docs sorted : List Task}
    (h : sortDocs eng sortBy descending docs = some sorted) : sorted.Perm docs := by
  unfold sortDocs at h
  split at h
  · cases h; exact List.Perm.refl _
  · split at h
    · cases h
    · split at h
      · cases h; exact List.perm_insertionSort _ _
      · cases h; exact List.perm_insertionSort _ _

theorem applySkip_sublist {eng : Engine} {skip : JSNum} {docs rest : List Task}
    (h : applySkip eng skip docs = some rest) : rest.Sublist docs := by
  unfold applySkip at h
  split at h
  · split at h
    · cases h; exact List.drop_sublist _ _
    · cases h
  · split at h
    · cases h; exact List.nil_sublist _
    · cases h
  · cases h

theorem applyLimit_sublist {limit : JSNum} {docs rest : List Task}
    (h : applyLimit limit docs = some rest) : rest.Sublist docs := by
  unfold applyLimit at h
  split at h
  · split at h
    · cases h; exact List.Sublist.refl _
    · cases h; exact List.take_sublist _ _
  · cases h

theorem find_parts {eng : Engine} {store : Store} {f : Filter} {sortBy : String}
    {descending : Bool} {skip limit : JSNum} {l : List Task}
    (h : find eng store f sortBy descending skip limit = some l) :
    ∃ pr sorted rest, f.pred eng = some pr ∧ (store.filter pr).length < 2 ^ 53 ∧
      sortDocs eng sortBy descending (store.filter pr) = some sorted ∧
      applySkip eng skip sorted = some rest ∧ applyLimit limit rest = some l := by
  unfold find at h
  cases hp : f.pred eng with
  | none => rw [hp] at h; cases h
  | some pr =>
    rw [hp] at h
    simp only at h
    by_cases hbig : 2 ^ 53 ≤ (store.filter pr).length
    · rw [if_pos hbig] at h; cases h
    · rw [if_neg hbig] at h
      cases hs : sortDocs eng sortBy descending (store.filter pr) with
      | none => rw [hs] at h; cases h
      | some sorted =>
        rw [hs] at h
        simp only at h
        cases hr : applySkip eng skip sorted with
        | none => rw [hr] at h; cases h
        | some rest =>
          rw [hr] at h
          exact ⟨pr, sorted, rest, rfl, by omega, hs, hr, h⟩

theorem find_of_parts {eng : Engine} {store : Store} {f : Filter} {sortBy : String}
    {descending : Bool} {skip limit : JSNum} {pr : Task → Bool} {sorted rest : List Task}
    (hp : f.pred eng = some pr) (hsize : (store.filter pr).length < 2 ^ 53)
    (hs : sortDocs eng sortBy descending (store.filter pr) = some sorted)
    (hr : applySkip eng skip sorted = some rest) :
    find eng store f sortBy descending skip limit = applyLimit limit rest := by
  unfold find
  rw [hp]
  simp only
  rw [if_neg (by omega), hs]
  simp only
  rw [hr]

theorem find_mem {eng : Engine} {store : Store} {f : Filter} {sortBy : String}
    {descending : Bool} {skip limit : JSNum} {l : List Task}
    (h : find eng store f sortBy descending skip limit = some l) (t : Task) (ht : t ∈ l) :
    t ∈ store ∧ f.exact t = true := by
  obtain ⟨p, sorted, rest, hp, -, hs, hr, hl⟩ := find_parts h
  have h1 : t ∈ rest := (applyLimit_sublist hl).subset ht
  have h2 : t ∈ sorted := (applySkip_sublist hr).subset h1
  have h3 : t ∈ store.filter p := (sortDocs_perm hs).subset h2
  rw [List.mem_filter] at h3
  exact ⟨h3.1, pred_exact hp t h3.2⟩

theorem getTasks_tasks {eng : Engine} {found counted : Store} {user : UserId} {q : TaskQuery}
    (t : Task) (ht : t ∈ returnedTasks (getTasks eng found counted user q)) :
    ∃ l, find eng found (buildFilter user q) (q.sortBy.getD "createdAt")
        (q.sortOrder.getD "desc" == "desc")
        (((validatePagination (rawParam q.page 1) (rawParam q.limit 10)).page.sub (fin 1)).mul
          (validatePagination (rawParam q.page 1) (rawParam q.limit 10)).limit)
        (validatePagination (rawParam q.page 1) (rawParam q.limit 10)).limit = some l ∧ t ∈ l := by
  unfold getTasks at ht
  simp only at ht
  split at ht
  · simp [returnedTasks, internalError] at ht
  · rename_i tasks hf
    split at ht
    · simp [returnedTasks, internalError] at ht
    · exact ⟨tasks, hf, by simpa [returnedTasks] using ht⟩

/-! ## Claims -/

/-- C1 (ownership isolation of listing): whatever the store contents, the
requesting user and the query parameters, every task in the page returned by
`getTasks` is a task of the store whose owner is the requesting user; no task
of another user is returned. -/
theorem getTasks_ownership_isolation (eng : Engine) (found counted : Store) (user : UserId)
    (q : TaskQuery) (t : Task)
    (ht : t ∈ returnedTasks (getTasks eng found counted user q)) :
    t.user = user ∧ t ∈ found := by
  obtain ⟨l, hl, htl⟩ := getTasks_tasks t ht
  have := find_mem hl t htl
  exact ⟨exact_user this.2, this.1⟩

/-- Witness of C1 on the sample store: the listing of `u1` returns the task
`taskMilk`, which belongs to `u1`. -/
theorem getTasks_ownership_isolation_witness :
    taskMilk ∈ returnedTasks (getTasks plainEngine sampleStore sampleStore "u1" emptyQuery) ∧
      taskMilk.user = "u1" ∧ taskMilk ∈ sampleStore :=
  ⟨by decide,
   getTasks_ownership_isolation plainEngine sampleStore sampleStore "u1" emptyQuery taskMilk
     (by decide)⟩

theorem find?_own_filter (store : Store) (user : UserId) (oid : ObjectId) :
    (store.filter (fun t => t.user == user)).find? (fun t => t.user == user && t._id == oid) =
      store.find? (fun t => t.user == user && t._id == oid) := by
  induction store with
  | nil => rfl
  | cons a rest ih =>
    by_cases hu : a.user = user
    · by_cases hi : a._id = oid
      · simp [List.filter_cons, hu, hi]
      · simp [List.filter_cons, hu, hi, List.find?_cons]
        simpa [hu] using ih
    · have : (a.user == user) = false := by simpa using hu
      simp [List.filter_cons, this, List.find?_cons]
      simpa using ih

/-- C2 (no leakage of existence on Get): for a well-formed task id, the
response of `getTask` is the same on the store as on the store without the
tasks of other users; it is 404 `Task not found` whenever the requester owns
no task with that id, whether another user owns one or none exists; a task is
returned only if it is in the store, is owned by the requester and has the id,
and it is returned when the requester owns such a task. -/
theorem getTask_no_leak (eng : Engine) (store : Store) (user : UserId) (taskId : String)
    (hid : validateObjectId eng taskId = true) :
    getTask eng store user taskId =
        getTask eng (store.filter (fun t => t.user == user)) user taskId ∧
      ((∀ t ∈ store, t.user = user → eng.objectId taskId ≠ some t._id) →
        getTask eng store user taskId = Response.error 404 "Task not found") ∧
      (∀ code msg task, getTask eng store user taskId = Response.ok code msg task →
        task ∈ store ∧ task.user = user ∧ eng.objectId taskId = some task._id) ∧
      (∀ t ∈ store, t.user = user → eng.objectId taskId = some t._id →
        ∃ task, getTask eng store user taskId =
          Response.ok 200 "Task retrieved successfully" task) := by
  unfold validateObjectId at hid
  obtain ⟨oid, hoid⟩ := Option.isSome_iff_exists.mp hid
  have hg : ∀ s : Store, getTask eng s user taskId =
      match s.find? (fun t => t.user == user && t._id == oid) with
      | none => Response.error 404 "Task not found"
      | some task => Response.ok 200 "Task retrieved successfully" task := by
    intro s
    simp [getTask, validateObjectId, hoid]
  refine ⟨?_, ?_, ?_, ?_⟩
  · rw [hg, hg, find?_own_filter]
  · intro hno
    rw [hg]
    have : store.find? (fun t => t.user == user && t._id == oid) = none := by
      rw [List.find?_eq_none]
      intro t ht
      have := hno t ht
      rw [hoid] at this
      intro hc
      simp only [Bool.and_eq_true, beq_iff_eq] at hc
      exact this hc.1 (by rw [hc.2])
    rw [this]
  · intro code msg task h
    rw [hg] at h
    cases hf : store.find? (fun t => t.user == user && t._id == oid) with
    | none => rw [hf] at h; cases h
    | some t0 =>
      rw [hf] at h
      cases h
      have h1 := List.find?_some hf
      have h2 := List.mem_of_find?_eq_some hf
      simp only [Bool.and_eq_true, beq_iff_eq] at h1
      exact ⟨h2, h1.1, by rw [hoid, h1.2]⟩
  · intro t ht hu hi
    rw [hg]
    cases hf : store.find? (fun t => t.user == user && t._id == oid) with
    | none =>
      rw [List.find?_eq_none] at hf
      have := hf t ht
      rw [hoid] at hi
      cases hi
      simp [hu] at this
    | some t0 => exact ⟨t0, rfl⟩

/-- Witness of C2 on the sample store: `idReport` is the id of a task of `u2`;
asked by `u1` the handler answers 404, as on the store without that task. -/
theorem getTask_no_leak_witness :
    validateObjectId plainEngine idReport = true ∧
      getTask plainEngine sampleStore "u1" idReport =
        getTask plainEngine (sampleStore.filter (fun t => t.user == "u1")) "u1" idReport ∧
      getTask plainEngine sampleStore "u1" idReport = Response.error 404 "Task not found" :=
  ⟨by decide,
   (getTask_no_leak plainEngine sampleStore "u1" idReport (by decide)).1,
   (getTask_no_leak plainEngine sampleStore "u1" idReport (by decide)).2.1 (by decide)⟩

theorem data_isEmpty_iff (s : String) : s.data.isEmpty = true ↔ s = "" := by
  constructor
  · intro h
    have : s.data = [] := List.isEmpty_iff.mp h
    exact String.ext this
  · intro h; subst h; rfl

theorem exactKey_iff (v : Option String) (val : String) :
    (match truthyParam v with
      | some x => val == x
      | none => true) = true ↔ ∀ s, v = some s → s ≠ "" → val = s := by
  cases v with
  | none => simp [truthyParam]
  | some s0 =>
    by_cases he : s0 = ""
    · subst he
      simp [truthyParam]
    · have : s0.data.isEmpty = false := by
        cases h : s0.data.isEmpty with
        | false => rfl
        | true => exact absurd ((data_isEmpty_iff s0).mp h) he
      simp [truthyParam, this, he]

theorem getTasks_total {eng : Engine} {found counted : Store} {user : UserId} {q : TaskQuery}
    {code : Nat} {msg : String} {page : TaskPage}
    (h : getTasks eng found counted user q = Response.ok code msg page) :
    countDocuments eng counted (buildFilter user q) = some page.pagination.totalItems ∧
    page.pagination.limit = (validatePagination (rawParam q.page 1) (rawParam q.limit 10)).limit ∧
    page.pagination.currentPage = (validatePagination (rawParam q.page 1) (rawParam q.limit 10)).page ∧
    page.pagination.totalPages = JSNum.ceilDiv page.pagination.totalItems page.pagination.limit ∧
    page.pagination.hasNextPage = page.pagination.currentPage.lt page.pagination.totalPages ∧
    find eng found (buildFilter user q) (q.sortBy.getD "createdAt")
        (q.sortOrder.getD "desc" == "desc")
        (((validatePagination (rawParam q.page 1) (rawParam q.limit 10)).page.sub (fin 1)).mul
          (validatePagination (rawParam q.page 1) (rawParam q.limit 10)).limit)
        (validatePagination (rawParam q.page 1) (rawParam q.limit 10)).limit = some page.tasks := by
  unfold getTasks at h
  simp only at h
  split at h
  · cases h
  · rename_i tasks hf
    split at h
    · cases h
    · rename_i total hc
      cases h
      exact ⟨hc, rfl, rfl, rfl, rfl, hf⟩

/-- C3 (exact-match filters are AND-combined): when the search is absent (or
empty), the filter of `getTasks` denotes a predicate that holds exactly of the
requester's tasks whose status, priority and category equal each parameter
that is supplied and non-empty (an absent or empty parameter imposes no
constraint); `countDocuments` counts exactly these tasks, this count is the
`totalItems` of the response, and every returned task satisfies the
predicate. -/
theorem getTasks_exact_filters (eng : Engine) (found counted : Store) (user : UserId)
    (q : TaskQuery) (hs : truthyParam q.search = none) :
    ∃ p : Task → Bool, (buildFilter user q).pred eng = some p ∧
      (∀ t, p t = true ↔
        (t.user = user ∧ (∀ s, q.status = some s → s ≠ "" → t.status = s) ∧
          (∀ s, q.priority = some s → s ≠ "" → t.priority = s) ∧
          (∀ s, q.category = some s → s ≠ "" → t.category = s))) ∧
      countDocuments eng counted (buildFilter user q) = some (counted.filter p).length ∧
      (∀ code msg page, getTasks eng found counted user q = Response.ok code msg page →
        page.pagination.totalItems = (counted.filter p).length ∧
          ∀ t ∈ page.tasks, t ∈ found ∧ p t = true) := by
  have hp : (buildFilter user q).pred eng = some (fun t => (buildFilter user q).exact t) := by
    simp [Filter.pred, buildFilter, hs]
  refine ⟨fun t => (buildFilter user q).exact t, hp, ?_, ?_, ?_⟩
  · intro t
    simp only [Filter.exact, buildFilter, Bool.and_eq_true, exactKey_iff, beq_iff_eq]
    tauto
  · simp [countDocuments, hp]
  · intro code msg page h
    have ht := getTasks_total h
    constructor
    · have h1 := ht.1
      simp [countDocuments, hp] at h1
      exact h1.symm
    · intro t htm
      have := find_mem ht.2.2.2.2.2 t htm
      exact ⟨this.1, this.2⟩

/-- Witness of C3: for `u1`, with `status=pending` and an empty `priority`, the
filter keeps the pending task of `u1` and rejects the task of `u2`. -/
theorem getTasks_exact_filters_witness :
    truthyParam { emptyQuery with status := some "pending", priority := some "" }.search = none ∧
    ∃ p : Task → Bool,
      (buildFilter "u1" { emptyQuery with status := some "pending", priority := some "" }).pred
        plainEngine = some p ∧ p taskMilk = true ∧ p taskReport = false := by
  refine ⟨by decide, ?_⟩
  obtain ⟨p, hp, hiff, -, -⟩ := getTasks_exact_filters plainEngine sampleStore sampleStore "u1"
    { emptyQuery with status := some "pending", priority := some "" } (by decide)
  refine ⟨p, hp, ?_, ?_⟩
  · rw [hiff]; decide
  · cases h : p taskReport with
    | false => rfl
    | true => rw [hiff] at h; exact absurd h.1 (by decide)

theorem validatePagination_limit (page limit : Raw) :
    ∃ l : Int, (validatePagination page limit).limit = fin l ∧ 1 ≤ l ∧ l ≤ 100 :=
  clamp_limit (parseInt limit)

theorem validatePagination_page (page limit : Raw) :
    (∃ p : Int, (validatePagination page limit).page = fin p ∧ 1 ≤ p) ∨
      (validatePagination page limit).page = inf false :=
  clamp_page (parseInt page)

theorem find_slice {eng : Engine} (store : Store) {f : Filter} {sortBy : String}
    {descending : Bool} {pr : Task → Bool} {sorted : List Task} (p l : Int)
    (hp : 1 ≤ p) (hl : 1 ≤ l) (hex : (p - 1) * l < 2 ^ 53)
    (hpred : f.pred eng = some pr) (hsize : (store.filter pr).length < 2 ^ 53)
    (hsort : sortDocs eng sortBy descending (store.filter pr) = some sorted) :
    find eng store f sortBy descending (((fin p).sub (fin 1)).mul (fin l)) (fin l) =
      some ((sorted.drop ((p - 1) * l).toNat).take l.toNat) := by
  have h0 : 0 ≤ (p - 1) * l := by nlinarith
  have hl0 : l ≠ 0 := by omega
  have hn : l.natAbs = l.toNat := by omega
  have hskip : applySkip eng (((fin p).sub (fin 1)).mul (fin l)) sorted =
      some (sorted.drop ((p - 1) * l).toNat) := by
    rw [skip_exact p l hp hl hex]
    simp [applySkip, h0]
  rw [find_of_parts hpred hsize hsort hskip]
  simp [applyLimit, hl0, hn]

/-- The page slice where the arithmetic of the handler is exact: for a
normalised page `p` below `2^46` and fewer than `2^53` matching tasks, when the
engine accepts the pattern of the filter (predicate `pr`) and the sort key
(`sorted` is the sorted sequence of the matching tasks), `getTasks` answers 200
and its tasks are `sorted` from offset `(p-1)*l` on, `l` of them or all that
remain, in the order of `sorted`, where `l` is the normalised limit (an integer
from 1 to 100); when nothing matches, the tasks are the empty sequence and the
answer is still 200. -/
theorem getTasks_page_slice_exact (eng : Engine) (found counted : Store) (user : UserId)
    (q : TaskQuery) (p : Int) (pr : Task → Bool) (sorted : List Task)
    (hpage : (validatePagination (rawParam q.page 1) (rawParam q.limit 10)).page = fin p)
    (hsmall : p < 2 ^ 46)
    (hpred : (buildFilter user q).pred eng = some pr)
    (hsize : (found.filter pr).length < 2 ^ 53)
    (hsort : sortDocs eng (q.sortBy.getD "createdAt") (q.sortOrder.getD "desc" == "desc")
      (found.filter pr) = some sorted) :
    ∃ (l : Int) (page : TaskPage), 1 ≤ p ∧ 1 ≤ l ∧ l ≤ 100 ∧
      (validatePagination (rawParam q.page 1) (rawParam q.limit 10)).limit = fin l ∧
      getTasks eng found counted user q =
        Response.ok 200 "Tasks retrieved successfully" page ∧
      page.tasks = (sorted.drop ((p - 1) * l).toNat).take l.toNat ∧
      page.tasks.length = Min.min l.toNat (sorted.length - ((p - 1) * l).toNat) ∧
      (∀ i, i < l.toNat → page.tasks[i]? = sorted[((p - 1) * l).toNat + i]?) ∧
      sorted.Perm (found.filter pr) ∧
      (found.filter pr = [] → page.tasks = []) := by
  obtain ⟨l, hlim, hl1, hl100⟩ :=
    validatePagination_limit (rawParam q.page 1) (rawParam q.limit 10)
  have hp1 : 1 ≤ p := by
    rcases validatePagination_page (rawParam q.page 1) (rawParam q.limit 10) with
      ⟨p', hp', h1⟩ | hinf
    · rw [hpage] at hp'; cases hp'; exact h1
    · rw [hpage] at hinf; cases hinf
  have hex : (p - 1) * l < 2 ^ 53 := by
    have h46 : (2 : Int) ^ 53 = 2 ^ 46 * 128 := by norm_num
    nlinarith
  have hfind := find_slice found p l hp1 hl1 hex hpred hsize hsort
  have hperm := sortDocs_perm hsort
  refine ⟨l, ⟨(sorted.drop ((p - 1) * l).toNat).take l.toNat,
    { currentPage := fin p,
      totalPages := JSNum.ceilDiv (counted.filter pr).length (fin l),
      totalItems := (counted.filter pr).length,
      hasNextPage := (fin p).lt (JSNum.ceilDiv (counted.filter pr).length (fin l)),
      hasPrevPage := (fin p).gt (fin 1),
      limit := fin l }⟩, hp1, hl1, hl100, hlim, ?_, rfl, ?_, ?_, hperm, ?_⟩
  · unfold getTasks
    simp only [hpage, hlim, hfind, countDocuments, hpred]
  · simp [List.length_take, List.length_drop]
  · intro i hi
    simp only [List.getElem?_take, List.getElem?_drop, hi, if_true]
  · intro hempty
    have : sorted = [] := by
      rw [hempty] at hperm
      exact List.Perm.eq_nil hperm
    simp [this]

/-- Page 2 with limit 1 of the listing of `u1` on the sample store is the
second task in descending order of creation. -/
theorem getTasks_page_slice_exact_witness :
    ∃ page : TaskPage,
      getTasks plainEngine sampleStore sampleStore "u1"
          { emptyQuery with page := some "2", limit := some "1" } =
        Response.ok 200 "Tasks retrieved successfully" page ∧
      page.tasks = [taskMilk] := by
  obtain ⟨l, page, -, -, -, hlim, hget, htasks, -⟩ :=
    getTasks_page_slice_exact plainEngine sampleStore sampleStore "u1"
      { emptyQuery with page := some "2", limit := some "1" } 2
      (fun t => (buildFilter "u1" { emptyQuery with page := some "2", limit := some "1" }).exact t)
      [taskWalk, taskMilk] (by decide) (by norm_num) rfl (by decide) (by decide)
  have hl : l = 1 := by
    have h1 : (validatePagination (rawParam (some "2") 1) (rawParam (some "1") 10)).limit =
        fin 1 := by decide
    have h2 : fin l = fin 1 := hlim.symm.trans h1
    cases h2; rfl
  subst hl
  exact ⟨page, hget, by rw [htasks]; decide⟩

theorem find_some_parts {eng : Engine} {store : Store} {f : Filter} {sortBy : String}
    {descending : Bool} {skip limit : JSNum} {ts : List Task}
    (h : find eng store f sortBy descending skip limit = some ts) :
    ∃ pr sorted, f.pred eng = some pr ∧
      sortDocs eng sortBy descending (store.filter pr) = some sorted := by
  obtain ⟨pr, sorted, -, hp, -, hs, -, -⟩ := find_parts h
  exact ⟨pr, sorted, hp, hs⟩

theorem lt_inf_false (x : JSNum) : (inf false).lt x = false := by
  cases x <;> rfl

/-- C5 (total pages): the `totalPages` of a list response is the non-negative
integer `n` that is the ceiling of `totalItems / limit` in exact arithmetic,
that is the least `n` with `n * limit ≥ totalItems`; the limit of the response
is an integer from 1 to 100. -/
theorem getTasks_totalPages_ceil (eng : Engine) (found counted : Store) (user : UserId)
    (q : TaskQuery) (code : Nat) (msg : String) (page : TaskPage)
    (h : getTasks eng found counted user q = Response.ok code msg page) :
    ∃ (l : Int) (n : Nat), 1 ≤ l ∧ l ≤ 100 ∧ page.pagination.limit = fin l ∧
      page.pagination.totalPages = fin n ∧
      IsLeast {k : Nat | (page.pagination.totalItems : Int) ≤ k * l} n ∧
      (n : Int) = ⌈(page.pagination.totalItems : ℚ) / (l : ℚ)⌉ := by
  have ht := getTasks_total h
  obtain ⟨l, hlim, hl1, hl100⟩ :=
    validatePagination_limit (rawParam q.page 1) (rawParam q.limit 10)
  obtain ⟨n, hn, hleast, hceil⟩ := ceilDiv_fin page.pagination.totalItems l hl1
  have hl : page.pagination.limit = fin l := ht.2.1.trans hlim
  refine ⟨l, n, hl1, hl100, hl, ?_, hleast, hceil⟩
  rw [ht.2.2.2.1, hl, hn]

/-- Witness of C5: with limit 1 the two tasks of `u1` give two pages. -/
theorem getTasks_totalPages_ceil_witness :
    ∃ page : TaskPage,
      getTasks plainEngine sampleStore sampleStore "u1" { emptyQuery with limit := some "1" } =
        Response.ok 200 "Tasks retrieved successfully" page ∧
      page.pagination.totalItems = 2 ∧ page.pagination.limit = fin 1 ∧
      ∃ (l : Int) (n : Nat), 1 ≤ l ∧ l ≤ 100 ∧ page.pagination.limit = fin l ∧
        page.pagination.totalPages = fin n ∧
        IsLeast {k : Nat | (page.pagination.totalItems : Int) ≤ k * l} n ∧
        (n : Int) = ⌈(page.pagination.totalItems : ℚ) / (l : ℚ)⌉ :=
  ⟨{ tasks := [taskWalk],
     pagination := { currentPage := fin 1, totalPages := fin 2, totalItems := 2,
                     hasNextPage := true, hasPrevPage := false, limit := fin 1 } },
   by decide, rfl, rfl,
   getTasks_totalPages_ceil plainEngine sampleStore sampleStore "u1"
     { emptyQuery with limit := some "1" } 200 "Tasks retrieved successfully" _ (by decide)⟩

/-- C6 (a short page has no successor): when both reads of `getTasks` see the
same store and the response holds fewer tasks than its limit, `hasNextPage`
is false. -/
theorem getTasks_short_page (eng : Engine) (store : Store) (user : UserId) (q : TaskQuery)
    (code : Nat) (msg : String) (page : TaskPage)
    (h : getTasks eng store store user q = Response.ok code msg page)
    (hshort : (fin page.tasks.length).lt page.pagination.limit = true) :
    page.pagination.hasNextPage = false := by
  have ht := getTasks_total h
  obtain ⟨hcount, hlimEq, hcur, htp, hnext, hfind⟩ := ht
  rw [hnext, hcur]
  rcases validatePagination_page (rawParam q.page 1) (rawParam q.limit 10) with
    ⟨p, hp, hp1⟩ | hinf
  · obtain ⟨pr, sorted, rest, hpred, hsize, hsort, -, -⟩ := find_parts hfind
    obtain ⟨l, hlim, hl1, hl100⟩ :=
      validatePagination_limit (rawParam q.page 1) (rawParam q.limit 10)
    have hperm := (sortDocs_perm hsort).length_eq
    have htotal : page.pagination.totalItems = sorted.length := by
      have h1 : some (store.filter pr).length = some page.pagination.totalItems := by
        simpa [countDocuments, hpred] using hcount
      have h3 := Option.some.inj h1
      omega
    have hl : page.pagination.limit = fin l := hlimEq.trans hlim
    obtain ⟨n, hn, hleast, -⟩ := ceilDiv_fin page.pagination.totalItems l hl1
    rw [hl] at hshort htp
    rw [htp, hn, hp]
    by_cases hpn : p < (n : Int)
    · exfalso
      have hpl : p * l < (page.pagination.totalItems : Int) := by
        by_contra hc
        push_neg at hc
        have hmem : p.toNat ∈ {k : Nat | (page.pagination.totalItems : Int) ≤ k * l} := by
          show (page.pagination.totalItems : Int) ≤ (p.toNat : Int) * l
          rw [Int.toNat_of_nonneg (by omega)]
          exact hc
        have hnp : n ≤ p.toNat := hleast.2 hmem
        omega
      have hbound : (page.pagination.totalItems : Int) < 2 ^ 53 := by
        have : page.pagination.totalItems < 2 ^ 53 := by omega
        exact_mod_cast this
      have hex : (p - 1) * l < 2 ^ 53 := by nlinarith
      have hslice := find_slice store p l hp1 hl1 hex hpred hsize hsort
      rw [hp, hlim] at hfind
      rw [hslice] at hfind
      have htasks : page.tasks = (sorted.drop ((p - 1) * l).toNat).take l.toNat :=
        (Option.some.inj hfind).symm
      have hlen : (page.tasks.length : Int) < l := by
        simpa [JSNum.lt] using hshort
      have hlenN : page.tasks.length =
          Min.min l.toNat (sorted.length - ((p - 1) * l).toNat) := by
        rw [htasks]; simp [List.length_take, List.length_drop]
      have h0 : 0 ≤ (p - 1) * l := by nlinarith
      have hk : (((p - 1) * l).toNat : Int) = (p - 1) * l := Int.toNat_of_nonneg h0
      have hlt : (l.toNat : Int) = l := Int.toNat_of_nonneg (by omega)
      have hmin : sorted.length - ((p - 1) * l).toNat < l.toNat := by omega
      have hlt2 : (sorted.length : Int) < ((p - 1) * l).toNat + l.toNat := by omega
      rw [hk, hlt] at hlt2
      rw [htotal] at hpl
      nlinarith
    · simp [JSNum.lt, hpn]
  · rw [hinf]
    exact lt_inf_false _

/-- Witness of C6: page 1 with limit 10 for `u1` on the sample store holds two
tasks and reports no next page. -/
theorem getTasks_short_page_witness :
    ∃ page : TaskPage,
      getTasks plainEngine sampleStore sampleStore "u1" emptyQuery =
        Response.ok 200 "Tasks retrieved successfully" page ∧
      page.tasks.length = 2 ∧ page.pagination.limit = fin 10 ∧
      page.pagination.hasNextPage = false :=
  ⟨{ tasks := [taskWalk, taskMilk],
     pagination := { currentPage := fin 1, totalPages := fin 1, totalItems := 2,
                     hasNextPage := false, hasPrevPage := false, limit := fin 10 } },
   by decide, rfl, rfl,
   getTasks_short_page plainEngine sampleStore "u1" emptyQuery 200
     "Tasks retrieved successfully" _ (by decide) (by decide)⟩

theorem applyUpdate_id (t : Task) (u : UpdateData) : (applyUpdate t u)._id = t._id := rfl

theorem applyUpdate_user (t : Task) (u : UpdateData) : (applyUpdate t u).user = t.user := rfl

theorem findById_updateFirst (store : Store) (oid : ObjectId) (u : UpdateData) (t : Task)
    (h : findById store oid = some t) :
    findById (updateFirst oid u store) oid = some (applyUpdate t u) := by
  induction store with
  | nil => cases h
  | cons a rest ih =>
    unfold findById at h ih ⊢
    by_cases ha : a._id = oid
    · have hb : (a._id == oid) = true := by simpa using ha
      simp only [List.find?_cons, hb] at h
      cases h
      simp [updateFirst, hb, List.find?_cons, applyUpdate_id, ha]
    · have hb : (a._id == oid) = false := by simpa using ha
      simp only [List.find?_cons, hb] at h
      simp only [updateFirst, hb, List.find?_cons, Bool.false_eq_true, if_false]
      exact ih h

theorem schemaAccepts_buildUpdate (eng : Engine) (now now1 : Nat) (task task1 : Task)
    (body : TaskBody) :
    schemaAccepts (buildUpdate eng now1 task1 body) = schemaAccepts (buildUpdate eng now task body) := by
  have hc : ∀ (n : Nat) (t : Task),
      presentAll (completionUpdate n body.status t) (fun d => d != DateValue.invalid) = true := by
    intro n t
    unfold completionUpdate
    split
    · rfl
    · split <;> rfl
  simp only [schemaAccepts, buildUpdate, hc]

theorem applyUpdate_completedAt (eng : Engine) (now : Nat) (t : Task) (body : TaskBody) :
    (applyUpdate t (buildUpdate eng now t body)).completedAt =
      match completionUpdate now body.status t with
      | some d => d.stored
      | none => t.completedAt := rfl

theorem putTask_owned {eng : Engine} (now : Nat) {store : Store} {user : UserId}
    {taskId : String} {oid : ObjectId} {task : Task} (body : TaskBody)
    (hid : eng.objectId taskId = some oid) (hfind : findById store oid = some task)
    (howner : task.user = user)
    (hv : schemaAccepts (buildUpdate eng now task body) = true) :
    putTask eng now store user taskId body =
      (Response.ok 200 "Task updated successfully"
        (some (applyUpdate task (buildUpdate eng now task body))),
       updateFirst oid (buildUpdate eng now task body) store) := by
  simp [putTask, validateObjectId, hid, hfind, howner, findByIdAndUpdate, hv]

/-- C9 (completion stamping round trip): for a task owned by the requester
whose stored status is not `completed`, `putTask` with status `completed` (the
update passing the schema validators) answers 200 and stores the task with
status `completed` and `completedAt` equal to the current time; a following
`putTask` on that task with a status other than `completed` (accepted by the
validators, such as `pending`) answers 200 and stores the task with
`completedAt` null. -/
theorem putTask_completion_round_trip (eng : Engine) (now now1 : Nat) (store : Store)
    (user : UserId) (taskId : String) (oid : ObjectId) (task : Task) (body body1 : TaskBody)
    (s1 : String)
    (hid : eng.objectId taskId = some oid)
    (hfind : findById store oid = some task)
    (howner : task.user = user)
    (hstored : task.status ≠ "completed")
    (hbody : body.status = some "completed")
    (hv : schemaAccepts (buildUpdate eng now task body) = true)
    (hbody1 : body1.status = some s1) (hs1 : s1 ≠ "completed")
    (hv1 : schemaAccepts (buildUpdate eng now task body1) = true) :
    ∃ (done : Task) (store1 : Store) (undone : Task) (store2 : Store),
      putTask eng now store user taskId body =
        (Response.ok 200 "Task updated successfully" (some done), store1) ∧
      done.status = "completed" ∧ done.completedAt = some now ∧
      findById store1 oid = some done ∧
      putTask eng now1 store1 user taskId body1 =
        (Response.ok 200 "Task updated successfully" (some undone), store2) ∧
      undone.status = s1 ∧ undone.completedAt = none ∧
      findById store2 oid = some undone := by
  have hput := putTask_owned now body hid hfind howner hv
  have hfind1 := findById_updateFirst store oid (buildUpdate eng now task body) task hfind
  have hv1' : schemaAccepts (buildUpdate eng now1
      (applyUpdate task (buildUpdate eng now task body)) body1) = true := by
    rw [schemaAccepts_buildUpdate eng now now1 task _ body1]; exact hv1
  have hput1 := putTask_owned now1 body1 hid hfind1
    ((applyUpdate_user task _).trans howner) hv1'
  have hfind2 := findById_updateFirst _ oid (buildUpdate eng now1
      (applyUpdate task (buildUpdate eng now task body)) body1) _ hfind1
  have hdone_status : (applyUpdate task (buildUpdate eng now task body)).status = "completed" := by
    simp [applyUpdate, buildUpdate, hbody]
  have hdone_at : (applyUpdate task (buildUpdate eng now task body)).completedAt = some now := by
    rw [applyUpdate_completedAt, hbody]
    simp [completionUpdate, hstored, DateValue.stored]
  refine ⟨_, _, _, _, hput, hdone_status, hdone_at, hfind1, hput1, ?_, ?_, hfind2⟩
  · simp [applyUpdate, buildUpdate, hbody1]
  · have hc : completionUpdate now1 (some s1) (applyUpdate task (buildUpdate eng now task body)) =
        some DateValue.null := by
      simp [completionUpdate, hdone_status, hs1]
    rw [applyUpdate_completedAt, hbody1, hc]
    rfl


/-- Witness of C9: the pending task of `u1` is completed at time 50 and set
back to `pending` at time 60. -/
theorem putTask_completion_round_trip_witness :
    ∃ (done : Task) (store1 : Store) (undone : Task) (store2 : Store),
      putTask plainEngine 50 sampleStore "u1" idMilk
          { emptyBody with status := some "completed" } =
        (Response.ok 200 "Task updated successfully" (some done), store1) ∧
      done.completedAt = some 50 ∧
      putTask plainEngine 60 store1 "u1" idMilk { emptyBody with status := some "pending" } =
        (Response.ok 200 "Task updated successfully" (some undone), store2) ∧
      undone.completedAt = none := by
  obtain ⟨done, store1, undone, store2, h1, -, h2, -, h3, -, h4, -⟩ :=
    putTask_completion_round_trip plainEngine 50 60 sampleStore "u1" idMilk idMilk taskMilk
      { emptyBody with status := some "completed" } { emptyBody with status := some "pending" }
      "pending" (by decide) (by decide) (by decide) (by decide) rfl (by decide) rfl
      (by decide) (by decide)
  exact ⟨done, store1, undone, store2, h1, h2, h3, h4⟩

theorem validatePagination_limit_value (page limit : Raw) (n : Int)
    (hparse : parseInt limit = fin n) (hn : n ≠ 0) :
    (validatePagination page limit).limit = fin (Min.min 100 (Max.max 1 n)) := by
  unfold validatePagination
  simp only [hparse]
  exact clamp_limit_value n hn

theorem validatePagination_limit_default (page limit : Raw) (hparse : parseInt limit = nan) :
    (validatePagination page limit).limit = fin 10 := by
  unfold validatePagination
  simp only [hparse]
  decide

theorem validatePagination_page_value (page limit : Raw) (n : Int)
    (hparse : parseInt page = fin n) :
    (validatePagination page limit).page = fin (Max.max 1 n) := by
  unfold validatePagination
  simp only [hparse]
  by_cases hz : n = 0
  · subst hz; decide
  · by_cases h1 : 1 < n
    · simp [JSNum.orElse, truthy, JSNum.max, lt, hz, h1]; omega
    · simp [JSNum.orElse, truthy, JSNum.max, lt, hz, h1]; omega

set_option maxRecDepth 100000 in
/-- C7 (pagination is always bounded), evaluated at a failing input: for a
`page` of 309 digits `9` the value parsed by `parseInt` exceeds the largest
double, so `validatePagination` returns the page `Infinity`, which is not an
integer. (The limit is an integer from 1 to 100 for every input, see
`validatePagination_limit`, and every finite page is an integer at least 1,
see `validatePagination_page`.) -/
theorem validatePagination_page_overflow :
    parseInt (Raw.str (String.mk (List.replicate 309 '9'))) = inf false ∧
      (validatePagination (Raw.str (String.mk (List.replicate 309 '9'))) (Raw.num 10)).page =
        inf false ∧
      (validatePagination (Raw.str (String.mk (List.replicate 309 '9'))) (Raw.num 10)).page.isInteger
        = false := by
  decide

/-- C8 (limit clamping is exact), evaluated at a failing input: the limit `0`
has integer value 0, and `validatePagination` returns the default 10 for it
and not 1, because `parseInt(limit) || 10` takes 0 for a missing value before
the clamp is applied; `-1` is clamped to 1, `1000` to 100 and a non-numeric
limit gives 10. (For every non-zero integer value the clamp is exact, see
`validatePagination_limit_value`.) -/
theorem validatePagination_limit_zero :
    parseInt (Raw.str "0") = fin 0 ∧
      (validatePagination (Raw.num 1) (Raw.str "0")).limit = fin 10 ∧
      (validatePagination (Raw.num 1) (Raw.str "-1")).limit = fin 1 ∧
      (validatePagination (Raw.num 1) (Raw.str "1000")).limit = fin 100 ∧
      (validatePagination (Raw.num 1) (Raw.str "abc")).limit = fin 10 := by
  decide

theorem completionUpdate_status_omitted (now : Nat) (task : Task)
    (h : task.status = "completed") :
    completionUpdate now none task = some DateValue.null := by
  simp [completionUpdate, h]

theorem completionUpdate_none_iff (now : Nat) (status : Option String) (task : Task) :
    completionUpdate now status task = none ↔
      ((status = some "completed" ↔ task.status = "completed")) := by
  unfold completionUpdate
  by_cases h1 : status = some "completed" <;> by_cases h2 : task.status = "completed" <;>
    simp [h1, h2]

/-- C10 (completedAt is untouched outside a transition), evaluated at a
failing input: the stored task is `completed` with `completedAt` 3 and the
body has a title, a description and a priority but no status; `putTask`
answers 200 and stores the task with `completedAt` null, its status still
`completed`. -/
theorem putTask_priority_alone_clears_completedAt :
    taskReport.status = "completed" ∧ taskReport.completedAt = some 3 ∧
      putTask plainEngine 50 sampleStore "u2" idReport
          { emptyBody with title := some "Report", description := some "Quarterly report",
                           priority := some "high" } =
        (Response.ok 200 "Task updated successfully"
          (some { taskReport with priority := "high", completedAt := none }),
         [taskMilk, { taskReport with priority := "high", completedAt := none }, taskWalk]) := by
  decide

theorem findById_eq_none_iff (store : Store) (oid : ObjectId) :
    findById store oid = none ↔ ∀ t ∈ store, t._id ≠ oid := by
  unfold findById
  rw [List.find?_eq_none]
  constructor
  · intro h t ht; simpa using h t ht
  · intro h t ht; simpa using h t ht

theorem putTask_valid {eng : Engine} (now : Nat) (store : Store) (user : UserId)
    {taskId : String} {oid : ObjectId} (body : TaskBody)
    (hid : eng.objectId taskId = some oid) :
    putTask eng now store user taskId body =
      match findById store oid with
      | none => (Response.error 404 "Task not found", store)
      | some task =>
        if task.user != user then
          (Response.error 403 "Access denied. You can only update your own tasks", store)
        else
          match findByIdAndUpdate store oid (buildUpdate eng now task body) with
          | none => (internalError, store)
          | some (updated, store1) =>
            (Response.ok 200 "Task updated successfully" updated, store1) := by
  simp [putTask, validateObjectId, hid]

theorem deleteTask_valid {eng : Engine} (store : Store) (user : UserId)
    {taskId : String} {oid : ObjectId} (hid : eng.objectId taskId = some oid) :
    deleteTask eng store user taskId =
      match findById store oid with
      | none => (Response.error 404 "Task not found", store)
      | some task =>
        if task.user != user then
          (Response.error 403 "Access denied. You can only delete your own tasks", store)
        else (Response.ok 200 "Task deleted successfully" (), findByIdAndDelete store oid) := by
  simp [deleteTask, validateObjectId, hid]

theorem putTask_checks {eng : Engine} (now : Nat) (store : Store) (user : UserId)
    {taskId : String} {oid : ObjectId} (body : TaskBody)
    (hid : eng.objectId taskId = some oid) :
    ChecksInOrder store user oid (putTask eng now store user taskId body).1
      (putTask eng now store user taskId body).2
      "Access denied. You can only update your own tasks" := by
  rw [putTask_valid now store user body hid]
  unfold ChecksInOrder
  cases hf : findById store oid with
  | none =>
    have hno := (findById_eq_none_iff store oid).mp hf
    simpa [Response.code] using hno
  | some task =>
    have hex : ¬ ∀ t ∈ store, t._id ≠ oid := by
      rw [← findById_eq_none_iff, hf]; simp
    by_cases hu : task.user = user
    · cases hupd : findByIdAndUpdate store oid (buildUpdate eng now task body) with
      | none => simp [hu, hupd, Response.code, hex, internalError]
      | some res =>
        obtain ⟨updated, store1⟩ := res
        simp [hu, hupd, Response.code, hex]
    · simp [hu, Response.code, hex]

theorem deleteTask_checks {eng : Engine} (store : Store) (user : UserId)
    {taskId : String} {oid : ObjectId} (hid : eng.objectId taskId = some oid) :
    ChecksInOrder store user oid (deleteTask eng store user taskId).1
      (deleteTask eng store user taskId).2
      "Access denied. You can only delete your own tasks" := by
  rw [deleteTask_valid store user hid]
  unfold ChecksInOrder
  cases hf : findById store oid with
  | none =>
    have hno := (findById_eq_none_iff store oid).mp hf
    simpa [Response.code] using hno
  | some task =>
    have hex : ¬ ∀ t ∈ store, t._id ≠ oid := by
      rw [← findById_eq_none_iff, hf]; simp
    by_cases hu : task.user = user
    · simp [hu, Response.code, hex]
    · simp [hu, Response.code, hex]


/-- C11 (existence is checked before ownership on writes): for a well-formed
task id, with `oid` the identifier it denotes, `putTask` and `deleteTask` each
answer 404 exactly when no task of the store has the identifier (the response
is then `Task not found`), answer 403 exactly when the task with the
identifier has an owner other than the requester (the response is then the
access-denied message of the handler), and answer 200 or change the store only
when the task with the identifier exists and is owned by the requester. -/
theorem writes_check_existence_before_ownership (eng : Engine) (now : Nat) (store : Store)
    (user : UserId) (taskId : String) (body : TaskBody)
    (hvalid : validateObjectId eng taskId = true) :
    ∃ oid, eng.objectId taskId = some oid ∧
      (((putTask eng now store user taskId body).1.code = 404 ↔ ∀ t ∈ store, t._id ≠ oid) ∧
        ((∀ t ∈ store, t._id ≠ oid) →
          (putTask eng now store user taskId body).1 = Response.error 404 "Task not found") ∧
        ((putTask eng now store user taskId body).1.code = 403 ↔
          ∃ t, findById store oid = some t ∧ t.user ≠ user) ∧
        ((∃ t, findById store oid = some t ∧ t.user ≠ user) →
          (putTask eng now store user taskId body).1 =
            Response.error 403 "Access denied. You can only update your own tasks") ∧
        (((putTask eng now store user taskId body).1.code = 200 ∨
            (putTask eng now store user taskId body).2 ≠ store) →
          ∃ t, findById store oid = some t ∧ t.user = user)) ∧
      (((deleteTask eng store user taskId).1.code = 404 ↔ ∀ t ∈ store, t._id ≠ oid) ∧
        ((∀ t ∈ store, t._id ≠ oid) →
          (deleteTask eng store user taskId).1 = Response.error 404 "Task not found") ∧
        ((deleteTask eng store user taskId).1.code = 403 ↔
          ∃ t, findById store oid = some t ∧ t.user ≠ user) ∧
        ((∃ t, findById store oid = some t ∧ t.user ≠ user) →
          (deleteTask eng store user taskId).1 =
            Response.error 403 "Access denied. You can only delete your own tasks") ∧
        (((deleteTask eng store user taskId).1.code = 200 ∨
            (deleteTask eng store user taskId).2 ≠ store) →
          ∃ t, findById store oid = some t ∧ t.user = user)) := by
  unfold validateObjectId at hvalid
  obtain ⟨oid, hoid⟩ := Option.isSome_iff_exists.mp hvalid
  exact ⟨oid, hoid, putTask_checks now store user body hoid, deleteTask_checks store user hoid⟩

/-- Witness of C11: `idReport` is well formed and names a task of `u2`; asked
by `u1`, both handlers answer 403. -/
theorem writes_check_existence_before_ownership_witness :
    validateObjectId plainEngine idReport = true ∧
      (putTask plainEngine 50 sampleStore "u1" idReport emptyBody).1 =
        Response.error 403 "Access denied. You can only update your own tasks" ∧
      (deleteTask plainEngine sampleStore "u1" idReport).1 =
        Response.error 403 "Access denied. You can only delete your own tasks" := by
  obtain ⟨oid, hoid, hput, hdel⟩ :=
    writes_check_existence_before_ownership plainEngine 50 sampleStore "u1" idReport emptyBody
      (by decide)
  have ho : oid = idReport := by
    have h1 : plainEngine.objectId idReport = some idReport := by decide
    rw [h1] at hoid
    exact (Option.some.inj hoid).symm
  subst ho
  have hex : ∃ t, findById sampleStore idReport = some t ∧ t.user ≠ "u1" :=
    ⟨taskReport, by decide, by decide⟩
  exact ⟨by decide, hput.2.2.2.1 hex, hdel.2.2.2.1 hex⟩

/-- C12 (atomicity of rejection): whenever `postTask` answers with a code
other than 201, and whenever `putTask` or `deleteTask` answers with a code
other than 200 (the rejections 400, 403 and 404, and also 500), the store
after the call is the store before the call. -/
theorem rejection_leaves_store_unchanged (eng : Engine) (now : Nat) (newId : ObjectId)
    (store : Store) (user : UserId) (taskId : String) (body : TaskBody) :
    ((postTask eng now newId store user body).1.code ≠ 201 →
        (postTask eng now newId store user body).2 = store) ∧
      ((putTask eng now store user taskId body).1.code ≠ 200 →
        (putTask eng now store user taskId body).2 = store) ∧
      ((deleteTask eng store user taskId).1.code ≠ 200 →
        (deleteTask eng store user taskId).2 = store) := by
  refine ⟨?_, ?_, ?_⟩
  · unfold postTask
    split
    · split
      · intro _; rfl
      · intro h; simp [Response.code] at h
    · intro _; rfl
  · unfold putTask
    split
    · intro _; rfl
    · split
      · intro _; rfl
      · split
        · intro _; rfl
        · split
          · intro _; rfl
          · split
            · intro _; rfl
            · intro h; simp [Response.code] at h
  · unfold deleteTask
    split
    · intro _; rfl
    · split
      · intro _; rfl
      · split
        · intro _; rfl
        · split
          · intro _; rfl
          · intro h; simp [Response.code] at h

/-- Witness of C12 on the sample store: a body without title (400), an update
of a task of another user (403) and the deletion of an unknown id (404) leave
the store as it was. -/
theorem rejection_leaves_store_unchanged_witness :
    (postTask plainEngine 50 "dddddddddddddddddddddddd" sampleStore "u1" emptyBody).1 =
        Response.error 400 "Title and description are required" ∧
      (putTask plainEngine 50 sampleStore "u1" idReport emptyBody).1.code = 403 ∧
      (deleteTask plainEngine sampleStore "u1" "dddddddddddddddddddddddd").1.code = 404 ∧
      (postTask plainEngine 50 "dddddddddddddddddddddddd" sampleStore "u1" emptyBody).2 =
        sampleStore ∧
      (putTask plainEngine 50 sampleStore "u1" idReport emptyBody).2 = sampleStore ∧
      (deleteTask plainEngine sampleStore "u1" "dddddddddddddddddddddddd").2 = sampleStore :=
  ⟨by decide, by decide, by decide,
   (rejection_leaves_store_unchanged plainEngine 50 "dddddddddddddddddddddddd" sampleStore "u1"
     idReport emptyBody).1 (by decide),
   (rejection_leaves_store_unchanged plainEngine 50 "dddddddddddddddddddddddd" sampleStore "u1"
     idReport emptyBody).2.1 (by decide),
   (rejection_leaves_store_unchanged plainEngine 50 "dddddddddddddddddddddddd" sampleStore "u1"
     "dddddddddddddddddddddddd" emptyBody).2.2 (by decide)⟩

/-- C13 (malformed ids are rejected before the store is touched): when
`validateObjectId` is false for the task id, `getTask`, `putTask` and
`deleteTask` each answer 400 `Invalid task ID format`, a code other than 404;
the store is unchanged and the response is the same whatever the store
contains. -/
theorem malformed_id_rejected (eng : Engine) (now : Nat) (store other : Store) (user : UserId)
    (taskId : String) (body : TaskBody) (hbad : validateObjectId eng taskId = false) :
    getTask eng store user taskId = Response.error 400 "Invalid task ID format" ∧
      putTask eng now store user taskId body =
        (Response.error 400 "Invalid task ID format", store) ∧
      deleteTask eng store user taskId =
        (Response.error 400 "Invalid task ID format", store) ∧
      getTask eng other user taskId = getTask eng store user taskId ∧
      (putTask eng now other user taskId body).1 = (putTask eng now store user taskId body).1 ∧
      (deleteTask eng other user taskId).1 = (deleteTask eng store user taskId).1 ∧
      (getTask eng store user taskId).code ≠ 404 ∧
      (putTask eng now store user taskId body).1.code ≠ 404 ∧
      (deleteTask eng store user taskId).1.code ≠ 404 := by
  have hg : ∀ s : Store, getTask eng s user taskId =
      Response.error 400 "Invalid task ID format" := by
    intro s; simp [getTask, hbad]
  have hp : ∀ s : Store, putTask eng now s user taskId body =
      (Response.error 400 "Invalid task ID format", s) := by
    intro s; simp [putTask, hbad]
  have hd : ∀ s : Store, deleteTask eng s user taskId =
      (Response.error 400 "Invalid task ID format", s) := by
    intro s; simp [deleteTask, hbad]
  refine ⟨hg store, hp store, hd store, ?_, ?_, ?_, ?_, ?_, ?_⟩
  · rw [hg, hg]
  · rw [hp, hp]
  · rw [hd, hd]
  · rw [hg]; simp [Response.code]
  · rw [hp]; simp [Response.code]
  · rw [hd]; simp [Response.code]

/-- Witness of C13: `not-an-id` is not a well-formed identifier. -/
theorem malformed_id_rejected_witness :
    validateObjectId plainEngine "not-an-id" = false ∧
      getTask plainEngine sampleStore "u1" "not-an-id" =
        Response.error 400 "Invalid task ID format" ∧
      putTask plainEngine 50 sampleStore "u1" "not-an-id" emptyBody =
        (Response.error 400 "Invalid task ID format", sampleStore) ∧
      deleteTask plainEngine sampleStore "u1" "not-an-id" =
        (Response.error 400 "Invalid task ID format", sampleStore) :=
  ⟨by decide,
   (malformed_id_rejected plainEngine 50 sampleStore [] "u1" "not-an-id" emptyBody
     (by decide)).1,
   (malformed_id_rejected plainEngine 50 sampleStore [] "u1" "not-an-id" emptyBody
     (by decide)).2.1,
   (malformed_id_rejected plainEngine 50 sampleStore [] "u1" "not-an-id" emptyBody
     (by decide)).2.2.1⟩

theorem updateFirst_others (oid : ObjectId) (u : UpdateData) (store : Store) :
    (updateFirst oid u store).filter (fun t => t._id != oid) =
      store.filter (fun t => t._id != oid) := by
  induction store with
  | nil => rfl
  | cons a rest ih =>
    by_cases ha : a._id = oid
    · simp [updateFirst, ha, List.filter_cons, applyUpdate_id]
    · have hb : (a._id == oid) = false := by simpa using ha
      simp [updateFirst, hb, List.filter_cons, ih]

theorem updateFirst_length (oid : ObjectId) (u : UpdateData) (store : Store) :
    (updateFirst oid u store).length = store.length := by
  induction store with
  | nil => rfl
  | cons a rest ih =>
    by_cases ha : a._id = oid
    · simp [updateFirst, ha]
    · have hb : (a._id == oid) = false := by simpa using ha
      simp [updateFirst, hb, ih]

/-- C14 (partial update frame): for a well-formed id of a task owned by the
requester and a body whose update passes the validators, `putTask` answers 200
and stores the task with the keys of the update set; each of title,
description, status, priority, category, dueDate and tags that the body omits
is absent from the update and keeps its stored value; identifier, owner and
creation time are unchanged whatever the body contains; the store keeps its
length and every task with another identifier is unchanged. -/
theorem putTask_partial_update_frame (eng : Engine) (now : Nat) (store : Store)
    (user : UserId) (taskId : String) (oid : ObjectId) (task : Task) (body : TaskBody)
    (hid : eng.objectId taskId = some oid)
    (hfind : findById store oid = some task)
    (howner : task.user = user)
    (hv : schemaAccepts (buildUpdate eng now task body) = true) :
    ∃ (u : UpdateData) (t1 : Task) (store1 : Store),
      u = buildUpdate eng now task body ∧
      putTask eng now store user taskId body =
        (Response.ok 200 "Task updated successfully" (some t1), store1) ∧
      t1 = applyUpdate task u ∧ store1 = updateFirst oid u store ∧
      findById store1 oid = some t1 ∧
      (body.title = none → u.title = none ∧ t1.title = task.title) ∧
      (body.description = none → u.description = none ∧ t1.description = task.description) ∧
      (body.status = none → u.status = none ∧ t1.status = task.status) ∧
      (body.priority = none → u.priority = none ∧ t1.priority = task.priority) ∧
      (body.category = none → u.category = none ∧ t1.category = task.category) ∧
      (body.dueDate = none → u.dueDate = none ∧ t1.dueDate = task.dueDate) ∧
      (body.tags = none → u.tags = none ∧ t1.tags = task.tags) ∧
      t1._id = task._id ∧ t1.user = task.user ∧ t1.createdAt = task.createdAt ∧
      store1.length = store.length ∧
      store1.filter (fun t => t._id != oid) = store.filter (fun t => t._id != oid) := by
  refine ⟨buildUpdate eng now task body, applyUpdate task (buildUpdate eng now task body),
    updateFirst oid (buildUpdate eng now task body) store, rfl,
    putTask_owned now body hid hfind howner hv, rfl, rfl,
    findById_updateFirst store oid _ task hfind, ?_, ?_, ?_, ?_, ?_, ?_, ?_, rfl, rfl, rfl,
    updateFirst_length _ _ _, updateFirst_others _ _ _⟩
  all_goals
    intro h
    simp [buildUpdate, applyUpdate, h]

/-- Witness of C14: an update of the priority alone of the pending task of
`u1` keeps its title, status, tags, owner and creation time, and the other
tasks. -/
theorem putTask_partial_update_frame_witness :
    ∃ (t1 : Task) (store1 : Store),
      putTask plainEngine 50 sampleStore "u1" idMilk { emptyBody with priority := some "high" } =
        (Response.ok 200 "Task updated successfully" (some t1), store1) ∧
      t1.title = taskMilk.title ∧ t1.status = taskMilk.status ∧ t1.tags = taskMilk.tags ∧
      t1.user = taskMilk.user ∧ t1.createdAt = taskMilk.createdAt ∧
      store1.filter (fun t => t._id != idMilk) = sampleStore.filter (fun t => t._id != idMilk) := by
  obtain ⟨u, t1, store1, -, hput, -, -, -, htitle, -, hstatus, -, -, -, htags, -, huser,
      hcreated, -, hothers⟩ :=
    putTask_partial_update_frame plainEngine 50 sampleStore "u1" idMilk idMilk taskMilk
      { emptyBody with priority := some "high" } (by decide) (by decide) (by decide) (by decide)
  exact ⟨t1, store1, hput, (htitle rfl).2, (hstatus rfl).2, (htags rfl).2, huser, hcreated,
    hothers⟩

theorem eraseP_unique (oid : ObjectId) (store : Store) (h : uniqueIds store) :
    store.eraseP (fun t => t._id == oid) = store.filter (fun t => t._id != oid) := by
  induction store with
  | nil => rfl
  | cons a rest ih =>
    unfold uniqueIds at h ih
    simp only [List.map_cons, List.nodup_cons] at h
    by_cases ha : a._id = oid
    · have hb : (a._id == oid) = true := by simpa using ha
      have hrest : rest.filter (fun t => t._id != oid) = rest := by
        rw [List.filter_eq_self]
        intro t ht
        have : t._id ≠ oid := by
          intro e
          apply h.1
          rw [ha, ← e]
          exact List.mem_map_of_mem _ ht
        simpa using this
      simp [List.eraseP_cons, hb, List.filter_cons, ha, hrest]
    · have hb : (a._id == oid) = false := by simpa using ha
      simp [List.eraseP_cons, hb, List.filter_cons, ha, ih h.2]

/-- C15 (delete removes exactly the target): on a store whose identifiers are
pairwise distinct, for a well-formed id of a task owned by the requester,
`deleteTask` answers 200 and the store after the call is the store before it
without the task of that id: no task with the id remains, every other task is
present, no task is added, and the store has one task less. -/
theorem deleteTask_removes_exactly_target (eng : Engine) (store : Store) (user : UserId)
    (taskId : String) (oid : ObjectId) (task : Task)
    (hid : eng.objectId taskId = some oid)
    (hfind : findById store oid = some task)
    (howner : task.user = user)
    (huniq : uniqueIds store) :
    ∃ store1 : Store,
      deleteTask eng store user taskId =
        (Response.ok 200 "Task deleted successfully" (), store1) ∧
      (∀ t ∈ store1, t._id ≠ oid) ∧ findById store1 oid = none ∧
      store1 = store.filter (fun t => t._id != oid) ∧
      (∀ t ∈ store, t._id ≠ oid → t ∈ store1) ∧
      (∀ t ∈ store1, t ∈ store) ∧
      store1.length + 1 = store.length := by
  have hdel : deleteTask eng store user taskId =
      (Response.ok 200 "Task deleted successfully" (), findByIdAndDelete store oid) := by
    rw [deleteTask_valid store user hid, hfind]
    simp [howner]
  have hfilter : findByIdAndDelete store oid = store.filter (fun t => t._id != oid) :=
    eraseP_unique oid store huniq
  have hno : ∀ t ∈ store.filter (fun t => t._id != oid), t._id ≠ oid := by
    intro t ht
    have := (List.mem_filter.mp ht).2
    simpa using this
  refine ⟨store.filter (fun t => t._id != oid), by rw [hdel, hfilter], hno,
    (findById_eq_none_iff _ _).mpr hno, rfl, ?_, ?_, ?_⟩
  · intro t ht hne
    exact List.mem_filter.mpr ⟨ht, by simpa using hne⟩
  · intro t ht
    exact (List.mem_filter.mp ht).1
  · rw [← hfilter]
    unfold findByIdAndDelete
    unfold findById at hfind
    have ha : task ∈ store := List.mem_of_find?_eq_some hfind
    have hpa : (fun t : Task => t._id == oid) task = true := by
      have h0 := List.find?_some hfind
      exact h0
    have hlen : (store.eraseP (fun t => t._id == oid)).length = store.length - 1 :=
      List.length_eraseP_of_mem ha hpa
    have hpos : 0 < store.length := List.length_pos_of_mem ha
    omega

/-- Witness of C15: deleting the first task of the sample store leaves the two
others. -/
theorem deleteTask_removes_exactly_target_witness :
    uniqueIds sampleStore ∧
      deleteTask plainEngine sampleStore "u1" idMilk =
        (Response.ok 200 "Task deleted successfully" (), [taskReport, taskWalk]) := by
  obtain ⟨store1, hdel, -, -, hfilter, -⟩ :=
    deleteTask_removes_exactly_target plainEngine sampleStore "u1" idMilk idMilk taskMilk
      (by decide) (by decide) (by decide) (by unfold uniqueIds; decide)
  have hs : store1 = [taskReport, taskWalk] := by rw [hfilter]; decide
  rw [hs] at hdel
  exact ⟨by unfold uniqueIds; decide, hdel⟩

theorem filterTags_array (ts : List String) :
    filterTags (TagsValue.array ts) = ts.filter (fun t => decide (jsTrim t ≠ "")) := by
  show ts.filter (fun tag => !(jsTrim tag).data.isEmpty) = _
  congr 1
  funext t
  by_cases h : jsTrim t = ""
  · simp [h]
  · have : (jsTrim t).data.isEmpty = false := by
      cases hd : (jsTrim t).data.isEmpty with
      | false => rfl
      | true => exact absurd ((data_isEmpty_iff _).mp hd) h
    simp [this, h]

theorem postTask_accepted {eng : Engine} (now : Nat) (newId : ObjectId) (store : Store)
    (user : UserId) {body : TaskBody} {title description : String}
    (ht : truthyParam body.title = some title)
    (hd : truthyParam body.description = some description)
    (hv : schemaAccepts (buildTaskData eng user title description body).toUpdate = true) :
    postTask eng now newId store user body =
      (Response.ok 201 "Task created successfully"
        ((buildTaskData eng user title description body).toTask newId now),
       store ++ [(buildTaskData eng user title description body).toTask newId now]) := by
  simp [postTask, ht, hd, create, hv]

theorem trimChars_idem (s : List Char) : trimChars (trimChars s) = trimChars s := by
  have ht : trimChars s = List.rdropWhile isWhiteSpace (s.dropWhile isWhiteSpace) := rfl
  have h1 : (trimChars s).dropWhile isWhiteSpace = trimChars s := by
    cases hts : trimChars s with
    | nil => rfl
    | cons x xs =>
      have hpre : (x :: xs) <+: s.dropWhile isWhiteSpace := by
        rw [← hts, ht]; exact List.rdropWhile_prefix _ _
      obtain ⟨r, hr⟩ := hpre
      have hne : s.dropWhile isWhiteSpace ≠ [] := by rw [← hr]; simp
      have hx : isWhiteSpace x = false := by
        have h0 := List.head_dropWhile_not isWhiteSpace s hne
        have hhead : (s.dropWhile isWhiteSpace).head hne = x := by
          simp only [← hr, List.cons_append, List.head_cons]
        rw [hhead] at h0
        exact h0
      simp [List.dropWhile, hx]
  show List.rdropWhile isWhiteSpace ((trimChars s).dropWhile isWhiteSpace) = trimChars s
  rw [h1, ht]
  exact List.rdropWhile_idempotent _ _

theorem jsTrim_idem (s : String) : jsTrim (jsTrim s) = jsTrim s := by
  show String.mk (trimChars (trimChars s.data)) = String.mk (trimChars s.data)
  rw [trimChars_idem]

/-- C16, counterexample: given the tags `[" work "]`, whose element is not
empty after trimming, `postTask` hands the store the tag ` work ` and the task
that is stored has the tag `work`, which is not the input element. -/
theorem stored_tag_differs_from_input :
    (buildTaskData plainEngine "u1" "Buy milk" "2% milk"
        { emptyBody with title := some "Buy milk", description := some "2% milk",
                         tags := some (TagsValue.array [" work "]) }).tags = [" work "] ∧
      postTask plainEngine 50 "dddddddddddddddddddddddd" sampleStore "u1"
          { emptyBody with title := some "Buy milk", description := some "2% milk",
                           tags := some (TagsValue.array [" work "]) } =
        (Response.ok 201 "Task created successfully"
          { _id := "dddddddddddddddddddddddd", user := "u1", title := "Buy milk",
            description := "2% milk", status := "pending", priority := "medium",
            category := "other", dueDate := none, tags := ["work"], createdAt := 50,
            completedAt := none },
         sampleStore ++
           [{ _id := "dddddddddddddddddddddddd", user := "u1", title := "Buy milk",
              description := "2% milk", status := "pending", priority := "medium",
              category := "other", dueDate := none, tags := ["work"], createdAt := 50,
              completedAt := none }]) ∧
      [" work "].filter (fun t => decide (jsTrim t ≠ "")) ≠ ["work"] := by
  decide

/-- C16, amended (tag filtering on write): for a body whose tags are the array
`ts` of strings, `postTask` and `putTask` hand the store the elements of `ts`
that are non-empty after trimming, in their order and with their duplicates,
and the task inserted by an accepted `postTask` and the task stored by an
accepted `putTask` have as tags the trimmed forms of these elements, in the
same order and with the duplicates; `["  ", "work", "work"]` is stored as
`["work", "work"]`. -/
theorem tags_filtered_on_write (eng : Engine) (now : Nat) (body : TaskBody) (ts : List String)
    (htags : body.tags = some (TagsValue.array ts)) :
    (∀ (newId : ObjectId) (store : Store) (user : UserId) (title description : String),
      truthyParam body.title = some title →
      truthyParam body.description = some description →
      schemaAccepts (buildTaskData eng user title description body).toUpdate = true →
      ∃ created : Task,
        (buildTaskData eng user title description body).tags =
          ts.filter (fun t => decide (jsTrim t ≠ "")) ∧
        postTask eng now newId store user body =
          (Response.ok 201 "Task created successfully" created, store ++ [created]) ∧
        created.tags = (ts.filter (fun t => decide (jsTrim t ≠ ""))).map jsTrim) ∧
    (∀ (store : Store) (user : UserId) (taskId : String) (oid : ObjectId) (task : Task),
      eng.objectId taskId = some oid →
      findById store oid = some task →
      task.user = user →
      schemaAccepts (buildUpdate eng now task body) = true →
      ∃ (updated : Task) (store1 : Store),
        (buildUpdate eng now task body).tags =
          some (ts.filter (fun t => decide (jsTrim t ≠ ""))) ∧
        putTask eng now store user taskId body =
          (Response.ok 200 "Task updated successfully" (some updated), store1) ∧
        findById store1 oid = some updated ∧
        updated.tags = (ts.filter (fun t => decide (jsTrim t ≠ ""))).map jsTrim) ∧
    (["  ", "work", "work"].filter (fun t => decide (jsTrim t ≠ ""))).map jsTrim =
      ["work", "work"] := by
  refine ⟨?_, ?_, by decide⟩
  · intro newId store user title description ht hd hcreate
    refine ⟨_, ?_, postTask_accepted now newId store user ht hd hcreate, ?_⟩
    · simp only [buildTaskData, htags, Option.getD_some]
      exact filterTags_array ts
    · simp only [TaskData.toTask, buildTaskData, htags, Option.getD_some, storedTags]
      rw [filterTags_array ts]
  · intro store user taskId oid task hid hfind howner hupdate
    refine ⟨_, _, ?_, putTask_owned now body hid hfind howner hupdate,
      findById_updateFirst store oid _ task hfind, ?_⟩
    · simp only [buildUpdate, htags, Option.map_some']
      rw [filterTags_array ts]
    · simp only [applyUpdate, buildUpdate, htags, Option.map_some', Option.getD_some,
        storedTags]
      rw [filterTags_array ts]

/-- Witness of C16: the tags `["  ", "work", "work"]` are stored as
`["work", "work"]` by both handlers. -/
theorem tags_filtered_on_write_witness :
    (∃ (created : Task),
      postTask plainEngine 50 "dddddddddddddddddddddddd" sampleStore "u1"
          { emptyBody with title := some "Buy milk", description := some "2% milk",
                           tags := some (TagsValue.array ["  ", "work", "work"]) } =
        (Response.ok 201 "Task created successfully" created, sampleStore ++ [created]) ∧
      created.tags = ["work", "work"]) ∧
    (∃ (updated : Task) (store1 : Store),
      putTask plainEngine 50 sampleStore "u1" idMilk
          { emptyBody with title := some "Buy milk", description := some "2% milk",
                           tags := some (TagsValue.array ["  ", "work", "work"]) } =
        (Response.ok 200 "Task updated successfully" (some updated), store1) ∧
      updated.tags = ["work", "work"]) := by
  obtain ⟨hpostAll, hputAll, hf⟩ :=
    tags_filtered_on_write plainEngine 50
      { emptyBody with title := some "Buy milk", description := some "2% milk",
                       tags := some (TagsValue.array ["  ", "work", "work"]) }
      ["  ", "work", "work"] rfl
  obtain ⟨created, -, hpost, hct⟩ :=
    hpostAll "dddddddddddddddddddddddd" sampleStore "u1" "Buy milk" "2% milk"
      (by decide) (by decide) (by decide)
  obtain ⟨updated, store1, -, hput, -, hut⟩ :=
    hputAll sampleStore "u1" idMilk idMilk taskMilk (by decide) (by decide) (by decide)
      (by decide)
  exact ⟨⟨created, hpost, hct.trans hf⟩, ⟨updated, store1, hput, hut.trans hf⟩⟩

/-- C17 (stored tags are trimmed): for a body whose tags are the array `ts` of
strings, every tag of the task inserted by an accepted `postTask` and of the
task stored by an accepted `putTask` equals its own trim, is not empty, and is
the trim of an element of `ts`. -/
theorem stored_tags_trimmed (eng : Engine) (now : Nat) (body : TaskBody) (ts : List String)
    (htags : body.tags = some (TagsValue.array ts)) :
    (∀ (newId : ObjectId) (store : Store) (user : UserId) (title description : String),
      truthyParam body.title = some title →
      truthyParam body.description = some description →
      schemaAccepts (buildTaskData eng user title description body).toUpdate = true →
      ∃ created : Task,
        postTask eng now newId store user body =
          (Response.ok 201 "Task created successfully" created, store ++ [created]) ∧
        ∀ t ∈ created.tags, jsTrim t = t ∧ t ≠ "" ∧ ∃ s ∈ ts, t = jsTrim s) ∧
    (∀ (store : Store) (user : UserId) (taskId : String) (oid : ObjectId) (task : Task),
      eng.objectId taskId = some oid →
      findById store oid = some task →
      task.user = user →
      schemaAccepts (buildUpdate eng now task body) = true →
      ∃ (updated : Task) (store1 : Store),
        putTask eng now store user taskId body =
          (Response.ok 200 "Task updated successfully" (some updated), store1) ∧
        findById store1 oid = some updated ∧
        ∀ t ∈ updated.tags, jsTrim t = t ∧ t ≠ "" ∧ ∃ s ∈ ts, t = jsTrim s) := by
  have hmem : ∀ t ∈ storedTags (filterTags (TagsValue.array ts)),
      jsTrim t = t ∧ t ≠ "" ∧ ∃ s ∈ ts, t = jsTrim s := by
    intro t ht
    rw [filterTags_array] at ht
    obtain ⟨s0, hs0, rfl⟩ := List.mem_map.mp ht
    rw [List.mem_filter] at hs0
    exact ⟨jsTrim_idem s0, by simpa using hs0.2, s0, hs0.1, rfl⟩
  constructor
  · intro newId store user title description ht hd hcreate
    refine ⟨_, postTask_accepted now newId store user ht hd hcreate, ?_⟩
    simp only [TaskData.toTask, buildTaskData, htags, Option.getD_some]
    exact hmem
  · intro store user taskId oid task hid hfind howner hupdate
    refine ⟨_, _, putTask_owned now body hid hfind howner hupdate,
      findById_updateFirst store oid _ task hfind, ?_⟩
    simp only [applyUpdate, buildUpdate, htags, Option.map_some', Option.getD_some]
    exact hmem

/-- Witness of C17: of the tags `["  ", " work "]` the handlers store the one
tag `work`. -/
theorem stored_tags_trimmed_witness :
    (∃ created : Task,
      postTask plainEngine 50 "dddddddddddddddddddddddd" sampleStore "u1"
          { emptyBody with title := some "Buy milk", description := some "2% milk",
                           tags := some (TagsValue.array ["  ", " work "]) } =
        (Response.ok 201 "Task created successfully" created, sampleStore ++ [created]) ∧
      ∀ t ∈ created.tags, jsTrim t = t ∧ t ≠ "" ∧ ∃ s ∈ ["  ", " work "], t = jsTrim s) ∧
    (putTask plainEngine 50 sampleStore "u1" idMilk
        { emptyBody with title := some "Buy milk", description := some "2% milk",
                         tags := some (TagsValue.array ["  ", " work "]) }).2 =
      [{ taskMilk with tags := ["work"] }, taskReport, taskWalk] :=
  ⟨(stored_tags_trimmed plainEngine 50
      { emptyBody with title := some "Buy milk", description := some "2% milk",
                       tags := some (TagsValue.array ["  ", " work "]) }
      ["  ", " work "] rfl).1
    "dddddddddddddddddddddddd" sampleStore "u1" "Buy milk" "2% milk"
    (by decide) (by decide) (by decide), by decide⟩

theorem truthyParam_some {v : Option String} {s : String} (h : truthyParam v = some s) :
    v = some s ∧ s ≠ "" := by
  cases v with
  | none => simp [truthyParam] at h
  | some s0 =>
    by_cases he : s0.data.isEmpty = true
    · simp [truthyParam, he] at h
    · have h1 : s0 = s := by simpa [truthyParam, he] using h
      subst h1
      exact ⟨rfl, fun e => he ((data_isEmpty_iff s0).mpr e)⟩

theorem truthyParam_none {v : Option String} (h : truthyParam v = none) :
    v = none ∨ v = some "" := by
  cases v with
  | none => exact Or.inl rfl
  | some s0 =>
    by_cases he : s0.data.isEmpty = true
    · exact Or.inr (congrArg some ((data_isEmpty_iff s0).mp he))
    · simp [truthyParam, he] at h

theorem jsLength_pos_ne_empty {s : String} (h : 1 ≤ jsLength s) : s ≠ "" := by
  intro he
  subst he
  simp [jsLength] at h

/-- The outcomes of the handler `postTask` on a body: it answers 400 `Title and
description are required` (exactly when the title or the description is
missing or the empty string) and inserts nothing, or answers 500 and inserts
nothing (`Task.create` throws), or answers 201 and adds to the store one task
of the requester whose title and description are the trimmed inputs and are
not empty. -/
theorem postTask_handler_outcomes (eng : Engine) (now : Nat) (newId : ObjectId)
    (store : Store) (user : UserId) (body : TaskBody) :
    (postTask eng now newId store user body =
        (Response.error 400 "Title and description are required", store) ∧
      (body.title = none ∨ body.title = some "" ∨
        body.description = none ∨ body.description = some "")) ∨
    (postTask eng now newId store user body =
        (Response.error 500 "Internal Server Error", store) ∧
      ∃ title description, body.title = some title ∧ title ≠ "" ∧
        body.description = some description ∧ description ≠ "" ∧
        schemaAccepts (buildTaskData eng user title description body).toUpdate = false) ∨
    (∃ title description created, body.title = some title ∧
      body.description = some description ∧
      postTask eng now newId store user body =
        (Response.ok 201 "Task created successfully" created, store ++ [created]) ∧
      created.title = jsTrim title ∧ created.description = jsTrim description ∧
      created.title ≠ "" ∧ created.description ≠ "" ∧ created.user = user) := by
  cases ht : truthyParam body.title with
  | none =>
    left
    refine ⟨by simp [postTask, ht], ?_⟩
    rcases truthyParam_none ht with h | h
    · exact Or.inl h
    · exact Or.inr (Or.inl h)
  | some title =>
    cases hd : truthyParam body.description with
    | none =>
      left
      refine ⟨by simp [postTask, ht, hd], ?_⟩
      rcases truthyParam_none hd with h | h
      · exact Or.inr (Or.inr (Or.inl h))
      · exact Or.inr (Or.inr (Or.inr h))
    | some description =>
      obtain ⟨ht1, ht2⟩ := truthyParam_some ht
      obtain ⟨hd1, hd2⟩ := truthyParam_some hd
      right
      cases hv : schemaAccepts (buildTaskData eng user title description body).toUpdate with
      | false =>
        left
        refine ⟨by simp [postTask, ht, hd, create, hv, internalError], title, description,
          ht1, ht2, hd1, hd2, hv⟩
      | true =>
        right
        refine ⟨title, description, _, ht1, hd1,
          postTask_accepted now newId store user ht hd hv, rfl, rfl, ?_, ?_, rfl⟩
        · simp only [schemaAccepts, TaskData.toUpdate, presentAll, buildTaskData,
            Bool.and_eq_true, decide_eq_true_eq] at hv
          exact jsLength_pos_ne_empty hv.1.1.1.1.1.1.1
        · simp only [schemaAccepts, TaskData.toUpdate, presentAll, buildTaskData,
            Bool.and_eq_true, decide_eq_true_eq] at hv
          exact jsLength_pos_ne_empty hv.1.1.1.1.1.2.1

/-- C19 (search sanitising): the result of `sanitizeSearchQuery` on a string
contains neither `<` nor `>`, and is the trimmed input without these two
characters, the other characters kept in order; a missing query and the empty
string give the empty string. -/
theorem sanitizeSearchQuery_strips (s : String) :
    '<' ∉ (sanitizeSearchQuery (some s)).data ∧ '>' ∉ (sanitizeSearchQuery (some s)).data ∧
      (sanitizeSearchQuery (some s)).data =
        (trimChars s.data).filter (fun c => decide (c ≠ '<' ∧ c ≠ '>')) ∧
      (sanitizeSearchQuery (some s)).data.Sublist (trimChars s.data) ∧
      sanitizeSearchQuery none = "" ∧ sanitizeSearchQuery (some "") = "" := by
  have hfun : (fun c : Char => !(c == '<' || c == '>')) =
      (fun c : Char => decide (c ≠ '<' ∧ c ≠ '>')) := by
    funext c
    by_cases h1 : c = '<' <;> by_cases h2 : c = '>' <;> simp [h1, h2]
  have heq : (sanitizeSearchQuery (some s)).data =
      (trimChars s.data).filter (fun c => decide (c ≠ '<' ∧ c ≠ '>')) := by
    by_cases he : s.data.isEmpty = true
    · have hs : s.data = [] := List.isEmpty_iff.mp he
      simp only [sanitizeSearchQuery, he, if_true, hs]
      rfl
    · simp only [sanitizeSearchQuery, he, if_false, hfun, Bool.false_eq_true]
  refine ⟨?_, ?_, heq, ?_, rfl, rfl⟩
  · rw [heq]
    intro h
    have := (List.mem_filter.mp h).2
    simp at this
  · rw [heq]
    intro h
    have := (List.mem_filter.mp h).2
    simp at this
  · rw [heq]
    exact List.filter_sublist _

/-- C20 (the sanitised search is trimmed), evaluated at a failing input: the
query `< a >` is trimmed first and loses `<` and `>` afterwards, so the result
is ` a `, with a leading and a trailing space; sanitising the result again
gives `a`, a different string. -/
theorem sanitizeSearchQuery_not_trimmed :
    sanitizeSearchQuery (some "< a >") = " a " ∧
      jsTrim (sanitizeSearchQuery (some "< a >")) = "a" ∧
      jsTrim (sanitizeSearchQuery (some "< a >")) ≠ sanitizeSearchQuery (some "< a >") ∧
      sanitizeSearchQuery (some (sanitizeSearchQuery (some "< a >"))) ≠
        sanitizeSearchQuery (some "< a >") := by
  decide

theorem sanitizeSearchQuery_no_angle (s : String) (hne : s ≠ "")
    (h : ∀ c ∈ s.data, c ≠ '<' ∧ c ≠ '>') :
    sanitizeSearchQuery (some s) = jsTrim s := by
  have hemp : s.data.isEmpty = false := by
    cases hd : s.data.isEmpty with
    | false => rfl
    | true => exact absurd ((data_isEmpty_iff s).mp hd) hne
  have hsub : ∀ c ∈ trimChars s.data, c ∈ s.data := by
    intro c hc
    unfold trimChars at hc
    rw [List.mem_reverse] at hc
    have h1 := (List.dropWhile_sublist _).subset hc
    rw [List.mem_reverse] at h1
    exact (List.dropWhile_sublist _).subset h1
  have hfilter : (trimChars s.data).filter (fun c => !(c == '<' || c == '>')) =
      trimChars s.data := by
    rw [List.filter_eq_self]
    intro c hc
    have := h c (hsub c hc)
    simp [this.1, this.2]
  simp only [sanitizeSearchQuery, hemp, jsTrim, hfilter, Bool.false_eq_true, if_false]

theorem countOf_nil (v : String) : countOf v [] = 0 := rfl

theorem countOf_cons (v : String) (g : GroupCount) (rest : List GroupCount) :
    countOf v (g :: rest) = if g._id = v then g.count else countOf v rest := by
  unfold countOf
  by_cases h : g._id = v
  · simp [List.find?_cons, h]
  · have hb : (g._id == v) = false := by simpa using h
    simp [List.find?_cons, hb, h]

theorem countOf_bumpCount (w v : String) (acc : List GroupCount) :
    countOf w (bumpCount v acc) = countOf w acc + (if w = v then 1 else 0) := by
  induction acc with
  | nil =>
    by_cases h : v = w
    · subst h; simp [bumpCount, countOf_cons, countOf_nil]
    · have h' : ¬ w = v := fun e => h e.symm
      simp [bumpCount, countOf_cons, countOf_nil, h, h']
  | cons g rest ih =>
    by_cases hg : g._id = v
    · have hb : (g._id == v) = true := by simpa using hg
      simp only [bumpCount, hb, if_true, countOf_cons]
      by_cases hw : w = v
      · subst hw; simp [hg]
      · have h1 : ¬ g._id = w := by rw [hg]; exact fun e => hw e.symm
        have h2 : ¬ v = w := fun e => hw e.symm
        simp [hw, h1, h2]
    · have hb : (g._id == v) = false := by simpa using hg
      simp only [bumpCount, hb, countOf_cons, Bool.false_eq_true, if_false]
      by_cases hgw : g._id = w
      · have : ¬ w = v := by rw [← hgw]; exact hg
        simp [hgw, this]
      · simp [hgw, ih]

theorem keys_bumpCount (v : String) (acc : List GroupCount) :
    (bumpCount v acc).map (fun g => g._id) =
      if v ∈ acc.map (fun g => g._id) then acc.map (fun g => g._id)
      else acc.map (fun g => g._id) ++ [v] := by
  induction acc with
  | nil => simp [bumpCount]
  | cons g rest ih =>
    by_cases hg : g._id = v
    · have hb : (g._id == v) = true := by simpa using hg
      simp [bumpCount, hb, hg]
    · have hb : (g._id == v) = false := by simpa using hg
      have hne : ¬ v = g._id := fun e => hg e.symm
      simp only [bumpCount, hb, Bool.false_eq_true, if_false, List.map_cons, ih,
        List.mem_cons, hne, false_or]
      split <;> simp

theorem sum_bumpCount (v : String) (acc : List GroupCount) :
    ((bumpCount v acc).map (fun g => g.count)).sum = (acc.map (fun g => g.count)).sum + 1 := by
  induction acc with
  | nil => simp [bumpCount]
  | cons g rest ih =>
    by_cases hg : g._id = v
    · have hb : (g._id == v) = true := by simpa using hg
      simp [bumpCount, hb]; omega
    · have hb : (g._id == v) = false := by simpa using hg
      simp [bumpCount, hb, ih]; omega

theorem pos_bumpCount (v : String) (acc : List GroupCount)
    (h : ∀ g ∈ acc, 0 < g.count) : ∀ g ∈ bumpCount v acc, 0 < g.count := by
  induction acc with
  | nil =>
    intro g hg
    simp [bumpCount] at hg
    subst hg; exact Nat.one_pos
  | cons a rest ih =>
    intro g hg
    by_cases ha : a._id = v
    · have hb : (a._id == v) = true := by simpa using ha
      simp only [bumpCount, hb, if_true, List.mem_cons] at hg
      rcases hg with hg | hg
      · subst hg; simp
      · exact h g (List.mem_cons_of_mem _ hg)
    · have hb : (a._id == v) = false := by simpa using ha
      simp only [bumpCount, hb, Bool.false_eq_true, if_false, List.mem_cons] at hg
      rcases hg with hg | hg
      · subst hg; exact h _ (List.mem_cons_self _ _)
      · exact ih (fun g hg => h g (List.mem_cons_of_mem _ hg)) g hg

theorem groupCount_append (key : Task → String) (docs : List Task) (t : Task) :
    groupCount key (docs ++ [t]) = bumpCount (key t) (groupCount key docs) := by
  simp [groupCount, List.foldl_append]

theorem countOf_of_mem (acc : List GroupCount) (hnd : (acc.map (fun g => g._id)).Nodup)
    (g : GroupCount) (hg : g ∈ acc) : countOf g._id acc = g.count := by
  induction acc with
  | nil => cases hg
  | cons a rest ih =>
    simp only [List.map_cons, List.nodup_cons] at hnd
    rw [countOf_cons]
    rcases List.mem_cons.mp hg with h | h
    · subst h; simp
    · have hne : ¬ a._id = g._id := by
        intro e
        apply hnd.1
        rw [e]
        exact List.mem_map_of_mem (fun g => g._id) h
      simp [hne, ih hnd.2 h]

theorem countOf_pos_mem (v : String) (acc : List GroupCount) (h : 0 < countOf v acc) :
    v ∈ acc.map (fun g => g._id) := by
  induction acc with
  | nil => simp [countOf_nil] at h
  | cons a rest ih =>
    rw [countOf_cons] at h
    by_cases ha : a._id = v
    · simp [ha]
    · simp only [ha, if_false] at h
      exact List.mem_cons_of_mem _ (ih h)

theorem groupCount_spec (key : Task → String) (docs : List Task) :
    ((groupCount key docs).map (fun g => g._id)).Nodup ∧
      (∀ g ∈ groupCount key docs, 0 < g.count) ∧
      (∀ v, countOf v (groupCount key docs) = docs.countP (fun t => key t == v)) ∧
      ((groupCount key docs).map (fun g => g.count)).sum = docs.length := by
  induction docs using List.reverseRecOn with
  | nil =>
    refine ⟨by simp [groupCount], by simp [groupCount], ?_, by simp [groupCount]⟩
    intro v; simp [groupCount, countOf_nil]
  | append_singleton docs t ih =>
    obtain ⟨hnd, hpos, hcount, hsum⟩ := ih
    rw [groupCount_append]
    refine ⟨?_, pos_bumpCount _ _ hpos, ?_, ?_⟩
    · rw [keys_bumpCount]
      split
      · exact hnd
      · rename_i hnot
        rw [List.nodup_append]
        refine ⟨hnd, List.nodup_singleton _, ?_⟩
        intro a ha hb
        simp only [List.mem_singleton] at hb
        subst hb
        exact hnot ha
    · intro v
      rw [countOf_bumpCount, hcount, List.countP_append]
      by_cases h : v = key t
      · subst h; simp
      · have h' : ¬ key t = v := fun e => h e.symm
        simp [h, h']
    · rw [sum_bumpCount, hsum]; simp

theorem aggregate_spec (eng : Engine) (store : Store) (userId : UserId) (key : Task → String)
    (hown : ∀ o v, eng.ownerEq o v = (o == v)) :
    ((aggregate eng store userId key).map (fun g => g._id)).Nodup ∧
      (∀ v, v ∈ (aggregate eng store userId key).map (fun g => g._id) ↔
        ∃ t ∈ store, t.user = userId ∧ key t = v) ∧
      (∀ g ∈ aggregate eng store userId key,
        g.count = (store.filter (fun t => t.user == userId && key t == g._id)).length ∧
          0 < g.count) ∧
      ((aggregate eng store userId key).map (fun g => g.count)).sum =
        (store.filter (fun t => t.user == userId)).length := by
  have hf : store.filter (fun t => eng.ownerEq t.user userId) =
      store.filter (fun t => t.user == userId) := by
    congr 1; funext t; exact hown _ _
  unfold aggregate
  rw [hf]
  obtain ⟨hnd, hpos, hcount, hsum⟩ := groupCount_spec key (store.filter (fun t => t.user == userId))
  have hlen : ∀ v, (store.filter (fun t => t.user == userId)).countP (fun t => key t == v) =
      (store.filter (fun t => t.user == userId && key t == v)).length := by
    intro v
    rw [List.countP_eq_length_filter, List.filter_filter]
    congr 1
    congr 1
    funext t
    exact Bool.and_comm _ _
  refine ⟨hnd, ?_, ?_, hsum⟩
  · intro v
    constructor
    · intro hv
      obtain ⟨g, hg, hgv⟩ := List.mem_map.mp hv
      have h1 := countOf_of_mem _ hnd g hg
      have h2 := hpos g hg
      rw [hcount] at h1
      have h3 : 0 < (store.filter (fun t => t.user == userId)).countP
          (fun t => key t == g._id) := by omega
      obtain ⟨t, ht, hk⟩ := List.countP_pos_iff.mp h3
      rw [List.mem_filter] at ht
      exact ⟨t, ht.1, by simpa using ht.2, by rw [← hgv]; simpa using hk⟩
    · rintro ⟨t, ht, hu, hk⟩
      apply countOf_pos_mem
      rw [hcount]
      apply List.countP_pos_iff.mpr
      exact ⟨t, List.mem_filter.mpr ⟨ht, by simpa using hu⟩, by simpa using hk⟩
  · intro g hg
    have h1 := countOf_of_mem _ hnd g hg
    rw [hcount, hlen] at h1
    exact ⟨h1.symm, hpos g hg⟩

/-- C23 (overdue count): `getTaskStats` answers 200 and its `overdue` is the
number of tasks, in the store as read by the overdue query, that are owned by
the requester, have a due date strictly before `now` and have a status that is
neither `completed` nor `cancelled`; with two tasks of the owner that were due
before `now`, one pending and one completed, `overdue` is 1. -/
theorem getTaskStats_overdue (eng : Engine) (now today tomorrow : Nat) (reads : StatsReads)
    (userId : UserId) :
    ∃ (stats : Stats) (p : Task → Bool),
      getTaskStats eng now today tomorrow reads userId =
        Response.ok 200 "Task statistics retrieved successfully" stats ∧
      stats.overdue = (reads.atOverdue.filter p).length ∧
      (∀ t, p t = true ↔
        (t.user = userId ∧ (∃ d, t.dueDate = some d ∧ d < now) ∧
          t.status ≠ "completed" ∧ t.status ≠ "cancelled")) ∧
      ((getTaskStats plainEngine 10 100 200 (StatsReads.snapshot [taskLate, taskDone]) "u1").data?.map
        (fun s => s.overdue)) = some 1 := by
  refine ⟨_, _, rfl, rfl, ?_, by decide⟩
  intro t
  simp only [DueFilter.holds, dueBound, Bool.and_eq_true, beq_iff_eq, Bool.and_true,
    Bool.not_eq_true', List.contains_eq_any_beq, List.any_cons, List.any_nil, Bool.or_false,
    Bool.or_eq_false_iff, beq_eq_false_iff_ne, ne_eq]
  constructor
  · rintro ⟨⟨hu, hd⟩, hs1, hs2⟩
    refine ⟨hu, ?_, hs1, hs2⟩
    cases hdd : t.dueDate with
    | none => rw [hdd] at hd; simp at hd
    | some d => rw [hdd] at hd; exact ⟨d, rfl, by simpa using hd⟩
  · rintro ⟨hu, ⟨d, hd, hlt⟩, hs1, hs2⟩
    refine ⟨⟨hu, ?_⟩, hs1, hs2⟩
    rw [hd]; simpa using hlt

/-- The grouped counts on a store that compares the owner written in the
pipeline with stored owners as equality of identifiers: `byStatus` has
pairwise distinct values, its values are exactly the statuses
that occur among the requester's tasks, and each entry counts the requester's
tasks with its value, a count that is not zero; likewise `byPriority` and
`byCategory`. -/
theorem getTaskStats_grouped_counts_cast (eng : Engine) (now today tomorrow : Nat)
    (reads : StatsReads) (userId : UserId)
    (hown : ∀ o v, eng.ownerEq o v = (o == v)) :
    ∃ stats : Stats,
      getTaskStats eng now today tomorrow reads userId =
        Response.ok 200 "Task statistics retrieved successfully" stats ∧
      ((stats.byStatus.map (fun g => g._id)).Nodup ∧
        (∀ v, v ∈ stats.byStatus.map (fun g => g._id) ↔
          ∃ t ∈ reads.atStatus, t.user = userId ∧ t.status = v) ∧
        (∀ g ∈ stats.byStatus,
          g.count =
              (reads.atStatus.filter (fun t => t.user == userId && t.status == g._id)).length ∧
            0 < g.count)) ∧
      ((stats.byPriority.map (fun g => g._id)).Nodup ∧
        (∀ v, v ∈ stats.byPriority.map (fun g => g._id) ↔
          ∃ t ∈ reads.atPriority, t.user = userId ∧ t.priority = v) ∧
        (∀ g ∈ stats.byPriority,
          g.count =
              (reads.atPriority.filter
                (fun t => t.user == userId && t.priority == g._id)).length ∧
            0 < g.count)) ∧
      ((stats.byCategory.map (fun g => g._id)).Nodup ∧
        (∀ v, v ∈ stats.byCategory.map (fun g => g._id) ↔
          ∃ t ∈ reads.atCategory, t.user = userId ∧ t.category = v) ∧
        (∀ g ∈ stats.byCategory,
          g.count =
              (reads.atCategory.filter
                (fun t => t.user == userId && t.category == g._id)).length ∧
            0 < g.count)) := by
  have h1 := aggregate_spec eng reads.atStatus userId (fun t => t.status) hown
  have h2 := aggregate_spec eng reads.atPriority userId (fun t => t.priority) hown
  have h3 := aggregate_spec eng reads.atCategory userId (fun t => t.category) hown
  exact ⟨_, rfl, ⟨h1.1, h1.2.1, h1.2.2.1⟩, ⟨h2.1, h2.2.1, h2.2.2.1⟩, ⟨h3.1, h3.2.1, h3.2.2.1⟩⟩

/-- On the sample store with the reference engine the two tasks of `u1` are
pending, and `byStatus` has the single entry `pending` with count 2; the
status of the task of `u2` has no entry. -/
theorem getTaskStats_grouped_counts_cast_witness :
    (∀ o v, plainEngine.ownerEq o v = (o == v)) ∧
      ∃ stats : Stats,
        getTaskStats plainEngine 10 100 200 (StatsReads.snapshot sampleStore) "u1" =
          Response.ok 200 "Task statistics retrieved successfully" stats ∧
        stats.byStatus = [{ _id := "pending", count := 2 }] ∧
        (∀ v, v ∈ stats.byStatus.map (fun g => g._id) ↔
          ∃ t ∈ sampleStore, t.user = "u1" ∧ t.status = v) := by
  refine ⟨fun _ _ => rfl, ?_⟩
  obtain ⟨stats, hget, hstatus, -, -⟩ :=
    getTaskStats_grouped_counts_cast plainEngine 10 100 200 (StatsReads.snapshot sampleStore) "u1"
      (fun _ _ => rfl)
  refine ⟨stats, hget, ?_, hstatus.2.1⟩
  have hd : getTaskStats plainEngine 10 100 200 (StatsReads.snapshot sampleStore) "u1" =
      Response.ok 200 "Task statistics retrieved successfully"
        { total := 2, overdue := 0, dueToday := 0,
          byStatus := [{ _id := "pending", count := 2 }],
          byPriority := [{ _id := "low", count := 1 }, { _id := "high", count := 1 }],
          byCategory := [{ _id := "shopping", count := 1 }, { _id := "health", count := 1 }] } := by
    decide
  rw [hd] at hget
  cases hget
  rfl

theorem countDue_le_total (store : Store) (f : DueFilter) :
    countDue store f ≤
      countDue store
        { user := f.user, dueLt := none, dueGte := none, dueLte := none, statusNin := [] } := by
  unfold countDue
  rw [← List.countP_eq_length_filter, ← List.countP_eq_length_filter]
  apply List.countP_mono_left
  intro t _ ht
  simp only [DueFilter.holds, Bool.and_eq_true] at ht
  simp [DueFilter.holds, dueBound, ht.1.1.1.1]

/-- The sums of the grouped counts when the six reads see one snapshot of the
store and the store compares the owner written in the pipeline with stored
owners as equality of identifiers: the counts of `byStatus`, of
`byPriority` and of `byCategory` each sum to `total`, the number of the
requester's tasks, and `overdue` and `dueToday` are at most `total`. -/
theorem getTaskStats_sums_cast (eng : Engine) (now today tomorrow : Nat) (store : Store)
    (userId : UserId)
    (hown : ∀ o v, eng.ownerEq o v = (o == v)) :
    ∃ stats : Stats,
      getTaskStats eng now today tomorrow (StatsReads.snapshot store) userId =
        Response.ok 200 "Task statistics retrieved successfully" stats ∧
      stats.total = (store.filter (fun t => t.user == userId)).length ∧
      (stats.byStatus.map (fun g => g.count)).sum = stats.total ∧
      (stats.byPriority.map (fun g => g.count)).sum = stats.total ∧
      (stats.byCategory.map (fun g => g.count)).sum = stats.total ∧
      stats.overdue ≤ stats.total ∧ stats.dueToday ≤ stats.total := by
  have htotal : countDue store
      { user := userId, dueLt := none, dueGte := none, dueLte := none, statusNin := [] } =
      (store.filter (fun t => t.user == userId)).length := by
    unfold countDue
    congr 1
    congr 1
    funext t
    simp [DueFilter.holds, dueBound]
  have h1 := (aggregate_spec eng store userId (fun t => t.status) hown).2.2.2
  have h2 := (aggregate_spec eng store userId (fun t => t.priority) hown).2.2.2
  have h3 := (aggregate_spec eng store userId (fun t => t.category) hown).2.2.2
  refine ⟨_, rfl, htotal, ?_, ?_, ?_, ?_, ?_⟩
  · exact h1.trans htotal.symm
  · exact h2.trans htotal.symm
  · exact h3.trans htotal.symm
  · exact countDue_le_total store
      { user := userId, dueLt := some now, dueGte := none, dueLte := none,
        statusNin := ["completed", "cancelled"] }
  · exact countDue_le_total store
      { user := userId, dueLt := none, dueGte := some today, dueLte := some tomorrow,
        statusNin := ["completed", "cancelled"] }

/-- On the sample store with the reference engine `u1` has 2 tasks and each
grouped count sums to 2. -/
theorem getTaskStats_sums_cast_witness :
    (∀ o v, plainEngine.ownerEq o v = (o == v)) ∧
      ∃ stats : Stats,
        getTaskStats plainEngine 10 100 200 (StatsReads.snapshot sampleStore) "u1" =
          Response.ok 200 "Task statistics retrieved successfully" stats ∧
        stats.total = 2 ∧
        (stats.byStatus.map (fun g => g.count)).sum = stats.total ∧
        (stats.byPriority.map (fun g => g.count)).sum = stats.total ∧
        (stats.byCategory.map (fun g => g.count)).sum = stats.total := by
  refine ⟨fun _ _ => rfl, ?_⟩
  obtain ⟨stats, hget, htotal, hs, hp, hc, -, -⟩ :=
    getTaskStats_sums_cast plainEngine 10 100 200 sampleStore "u1" (fun _ _ => rfl)
  exact ⟨stats, hget, htotal.trans (by decide), hs, hp, hc⟩


/-- C21 (query building never errors), at its failing inputs: when the search
text is truthy and its sanitized form is not a well-formed pattern for the
engine, `getTasks` answers 500 `Internal Server Error`, whatever the other
parameters and the store. -/
theorem getTasks_malformed_search (eng : Engine) (found counted : Store) (user : UserId)
    (q : TaskQuery) (s : String)
    (hs : truthyParam q.search = some s)
    (hbad : eng.regex (sanitizeSearchQuery (some s)) = none) :
    getTasks eng found counted user q = Response.error 500 "Internal Server Error" := by
  have hp : (buildFilter user q).pred eng = none := by
    simp [Filter.pred, buildFilter, hs, hbad]
  simp [getTasks, find, hp, internalError]

/-- Witness of C21: the search text `(`, an unbalanced parenthesis, is left as
it is by the sanitizer and drives `getTasks` into its 500 branch. -/
theorem getTasks_malformed_search_witness :
    truthyParam ({ emptyQuery with search := some "(" } : TaskQuery).search = some "(" ∧
      sanitizeSearchQuery (some "(") = "(" ∧
      getTasks plainEngine sampleStore sampleStore "u1" { emptyQuery with search := some "(" } =
        Response.error 500 "Internal Server Error" :=
  ⟨by decide, by decide,
   getTasks_malformed_search plainEngine sampleStore sampleStore "u1"
     { emptyQuery with search := some "(" } "(" (by decide) rfl⟩

theorem find_mem_pred {eng : Engine} {store : Store} {f : Filter} {sortBy : String}
    {descending : Bool} {skip limit : JSNum} {l : List Task} {pr : Task → Bool}
    (h : find eng store f sortBy descending skip limit = some l)
    (hpred : f.pred eng = some pr) (t : Task) (ht : t ∈ l) :
    t ∈ store ∧ pr t = true := by
  obtain ⟨p, sorted, rest, hp, -, hs, hr, hl⟩ := find_parts h
  rw [hpred] at hp
  cases hp
  have h1 : t ∈ rest := (applyLimit_sublist hl).subset ht
  have h2 : t ∈ sorted := (applySkip_sublist hr).subset h1
  have h3 : t ∈ store.filter pr := (sortDocs_perm hs).subset h2
  exact List.mem_filter.mp h3

theorem trimChars_subset (cs : List Char) : ∀ c ∈ trimChars cs, c ∈ cs := by
  intro c hc
  unfold trimChars at hc
  rw [List.mem_reverse] at hc
  have h1 := (List.dropWhile_sublist _).subset hc
  rw [List.mem_reverse] at h1
  exact (List.dropWhile_sublist _).subset h1

theorem plain_no_angle (s : String) (hplain : s.data.all isPlainChar = true) :
    ∀ c ∈ s.data, c ≠ '<' ∧ c ≠ '>' := by
  intro c hc
  have h := List.all_eq_true.mp hplain c hc
  constructor
  · intro e; subst e; revert h; decide
  · intro e; subst e; revert h; decide

/-- C22 (search semantics): for a non-empty search text `s` made of letters,
digits and spaces, on an engine that compiles such a text to the test "occurs
as a substring, characters compared after the case folding `fold`", the
sanitized text is the trimmed text and the filter of `getTasks` holds of a
task exactly when the task is the requester's, satisfies the exact-match
parameters, and the sanitized text occurs, letter case apart, in its title, in
its description or in one of its tags; `countDocuments` counts these tasks and
every returned task is one of them. -/
theorem getTasks_search_semantics (eng : Engine) (fold : Char → Char) (found counted : Store)
    (user : UserId) (q : TaskQuery) (s : String)
    (hs : q.search = some s) (hne : s ≠ "")
    (hplain : s.data.all isPlainChar = true)
    (heng : ∀ p : String, p.data.all isPlainChar = true →
      ∃ m, eng.regex p = some m ∧
        ∀ x : String, m x = true ↔ (p.data.map fold) <:+: (x.data.map fold)) :
    ∃ pr : Task → Bool,
      sanitizeSearchQuery (some s) = jsTrim s ∧
      (buildFilter user q).pred eng = some pr ∧
      (∀ t, pr t = true ↔
        ((t.user = user ∧ (∀ v, q.status = some v → v ≠ "" → t.status = v) ∧
            (∀ v, q.priority = some v → v ≠ "" → t.priority = v) ∧
            (∀ v, q.category = some v → v ≠ "" → t.category = v)) ∧
          (((jsTrim s).data.map fold) <:+: (t.title.data.map fold) ∨
            ((jsTrim s).data.map fold) <:+: (t.description.data.map fold) ∨
            ∃ tag ∈ t.tags, ((jsTrim s).data.map fold) <:+: (tag.data.map fold)))) ∧
      countDocuments eng counted (buildFilter user q) = some (counted.filter pr).length ∧
      (∀ t ∈ returnedTasks (getTasks eng found counted user q), t ∈ found ∧ pr t = true) := by
  have hsan : sanitizeSearchQuery (some s) = jsTrim s :=
    sanitizeSearchQuery_no_angle s hne (plain_no_angle s hplain)
  have htrimPlain : (jsTrim s).data.all isPlainChar = true := by
    rw [List.all_eq_true]
    intro c hc
    exact List.all_eq_true.mp hplain c (trimChars_subset s.data c hc)
  obtain ⟨m, hm, hmatch⟩ := heng (jsTrim s) htrimPlain
  have htruthy : truthyParam q.search = some s := by
    have hemp : s.data.isEmpty = false := by
      cases hd : s.data.isEmpty with
      | false => rfl
      | true => exact absurd ((data_isEmpty_iff s).mp hd) hne
    simp [hs, truthyParam, hemp]
  have hp : (buildFilter user q).pred eng =
      some (fun t => (buildFilter user q).exact t && searchHit m t) := by
    simp [Filter.pred, buildFilter, htruthy, hsan, hm]
  refine ⟨_, hsan, hp, ?_, by simp [countDocuments, hp], ?_⟩
  · intro t
    simp only [Bool.and_eq_true, searchHit, Bool.or_eq_true, List.any_eq_true, hmatch]
    have hex : (buildFilter user q).exact t = true ↔
        (t.user = user ∧ (∀ v, q.status = some v → v ≠ "" → t.status = v) ∧
          (∀ v, q.priority = some v → v ≠ "" → t.priority = v) ∧
          (∀ v, q.category = some v → v ≠ "" → t.category = v)) := by
      simp only [Filter.exact, buildFilter, Bool.and_eq_true, exactKey_iff, beq_iff_eq]
      tauto
    rw [hex]
    constructor
    · rintro ⟨h1, h2⟩
      refine ⟨h1, ?_⟩
      rcases h2 with (h | h) | h
      · exact Or.inl h
      · exact Or.inr (Or.inl h)
      · exact Or.inr (Or.inr h)
    · rintro ⟨h1, h2⟩
      refine ⟨h1, ?_⟩
      rcases h2 with h | h | h
      · exact Or.inl (Or.inl h)
      · exact Or.inl (Or.inr h)
      · exact Or.inr h
  · intro t ht
    obtain ⟨l, hl, htl⟩ := getTasks_tasks t ht
    exact find_mem_pred hl hp t htl

theorem plainEngine_regex (p : String) (hp : p.data.all isPlainChar = true) :
    ∃ m, plainEngine.regex p = some m ∧
      ∀ x : String, m x = true ↔ (p.data.map lowerChar) <:+: (x.data.map lowerChar) := by
  refine ⟨fun x => decide ((p.data.map lowerChar) <:+: (x.data.map lowerChar)), ?_, ?_⟩
  · show plainRegex p = _
    simp [plainRegex, hp]
  · intro x; simp

/-- Witness of C22: for `u1` on the sample store, the task titled `Buy milk`
with description `2% milk` is returned for the search `milk` and not for the
search `bread`. -/
theorem getTasks_search_semantics_witness :
    returnedTasks (getTasks plainEngine sampleStore sampleStore "u1"
        { emptyQuery with search := some "milk" }) = [taskMilk] ∧
      returnedTasks (getTasks plainEngine sampleStore sampleStore "u1"
        { emptyQuery with search := some "bread" }) = [] ∧
      ∃ pr : Task → Bool,
        (buildFilter "u1" { emptyQuery with search := some "milk" }).pred plainEngine = some pr ∧
        pr taskMilk = true ∧ pr taskWalk = false := by
  refine ⟨by decide, by decide, ?_⟩
  obtain ⟨pr, -, hp, hiff, -, -⟩ :=
    getTasks_search_semantics plainEngine lowerChar sampleStore sampleStore "u1"
      { emptyQuery with search := some "milk" } "milk" rfl (by decide) (by decide)
      plainEngine_regex
  refine ⟨pr, hp, ?_, ?_⟩
  · rw [hiff]
    refine ⟨⟨by decide, by simp [emptyQuery], by simp [emptyQuery], by simp [emptyQuery]⟩, ?_⟩
    exact Or.inl (by decide)
  · cases h : pr taskWalk with
    | false => rfl
    | true =>
      rw [hiff] at h
      rcases h.2 with h1 | h1 | ⟨tag, htag, -⟩
      · exact absurd h1 (by decide)
      · exact absurd h1 (by decide)
      · exact absurd htag (List.not_mem_nil tag)


theorem digitChar_facts (m : Nat) (hm : m < 10) :
    digitValue (Nat.digitChar m) = some m ∧ isRadixDigit 10 (Nat.digitChar m) = true ∧
      isWhiteSpace (Nat.digitChar m) = false ∧ Nat.digitChar m ≠ '-' ∧
      Nat.digitChar m ≠ '+' ∧ Nat.digitChar m ≠ 'x' ∧ Nat.digitChar m ≠ 'X' := by
  interval_cases m <;> decide

theorem digitsValue_append_one (xs : List Char) (d : Char) :
    digitsValue 10 (xs ++ [d]) = digitsValue 10 xs * 10 + (digitValue d).getD 0 := by
  simp [digitsValue, List.foldl_append]

theorem toDigitsCore_spec (fuel : Nat) : ∀ (n : Nat) (ds : List Char), n < fuel →
    ∃ xs, Nat.toDigitsCore 10 fuel n ds = xs ++ ds ∧ xs ≠ [] ∧
      (∀ c ∈ xs, isDecimalDigit c) ∧ digitsValue 10 xs = n := by
  induction fuel with
  | zero => intro n ds h; omega
  | succ fuel ih =>
    intro n ds hn
    have hd : n % 10 < 10 := Nat.mod_lt _ (by decide)
    have hval := (digitChar_facts (n % 10) hd).1
    by_cases h0 : n / 10 = 0
    · refine ⟨[Nat.digitChar (n % 10)], by simp [Nat.toDigitsCore, h0], by simp, ?_, ?_⟩
      · intro c hc
        simp only [List.mem_singleton] at hc
        exact ⟨n % 10, hd, hc⟩
      · simp only [digitsValue, List.foldl_cons, List.foldl_nil, hval, Option.getD_some]
        omega
    · have hlt : n / 10 < fuel := by omega
      obtain ⟨xs, hxs, -, hdig, hv⟩ := ih (n / 10) (Nat.digitChar (n % 10) :: ds) hlt
      refine ⟨xs ++ [Nat.digitChar (n % 10)], ?_, by simp, ?_, ?_⟩
      · simp [Nat.toDigitsCore, h0, hxs]
      · intro c hc
        rcases List.mem_append.mp hc with h | h
        · exact hdig c h
        · simp only [List.mem_singleton] at h
          exact ⟨n % 10, hd, h⟩
      · rw [digitsValue_append_one, hv, hval]
        simp only [Option.getD_some]
        omega

theorem toDigits_spec (k : Nat) :
    Nat.toDigits 10 k ≠ [] ∧ (∀ c ∈ Nat.toDigits 10 k, isDecimalDigit c) ∧
      digitsValue 10 (Nat.toDigits 10 k) = k := by
  obtain ⟨xs, hxs, hne, hdig, hv⟩ := toDigitsCore_spec (k + 1) k [] (by omega)
  have : Nat.toDigits 10 k = xs := by
    unfold Nat.toDigits
    rw [hxs]; simp
  rw [this]
  exact ⟨hne, hdig, hv⟩

theorem parseIntChars_digits (ds : List Char) (hne : ds ≠ [])
    (hdig : ∀ c ∈ ds, isDecimalDigit c) :
    parseIntChars ds = signedNumber false (digitsValue 10 ds) := by
  have hfacts : ∀ c ∈ ds, isRadixDigit 10 c = true ∧ isWhiteSpace c = false ∧ c ≠ '-' ∧
      c ≠ '+' ∧ c ≠ 'x' ∧ c ≠ 'X' := by
    intro c hc
    obtain ⟨m, hm, rfl⟩ := hdig c hc
    have := digitChar_facts m hm
    exact ⟨this.2.1, this.2.2.1, this.2.2.2.1, this.2.2.2.2.1, this.2.2.2.2.2.1,
      this.2.2.2.2.2.2⟩
  obtain ⟨a, rest, rfl⟩ := List.exists_cons_of_ne_nil hne
  have ha := hfacts a (List.mem_cons_self _ _)
  have hdrop : (a :: rest).dropWhile isWhiteSpace = a :: rest := by
    simp [List.dropWhile_cons, ha.2.1]
  have htake : (a :: rest).takeWhile (isRadixDigit 10) = a :: rest := by
    rw [List.takeWhile_eq_self_iff]
    intro c hc
    exact (hfacts c hc).1
  have hhex : ((a :: rest).take 2 == ['0', 'x'] || (a :: rest).take 2 == ['0', 'X']) = false := by
    cases rest with
    | nil => simp
    | cons b rest2 =>
      have hb := hfacts b (List.mem_cons_of_mem _ (List.mem_cons_self _ _))
      simp [hb.2.2.2.2.1, hb.2.2.2.2.2]
  unfold parseIntChars
  simp only [hdrop, List.head?_cons]
  have hneg : (some a == some '-') = false := by simp [ha.2.2.1]
  have hpos : (some a == some '+') = false := by simp [ha.2.2.2.1]
  simp only [hneg, hpos, Bool.or_false, Bool.false_eq_true, if_false, hhex, htake]
  simp

theorem parseInt_pageParam_chars (k : Nat) :
    parseInt (Raw.str (pageParam k)) = parseIntChars (Nat.toDigits 10 k) := rfl

theorem parseInt_pageParam (k : Nat) (hk : k < 2 ^ 53) :
    parseInt (Raw.str (pageParam k)) = fin k := by
  obtain ⟨hne, hdig, hv⟩ := toDigits_spec k
  rw [parseInt_pageParam_chars, parseIntChars_digits _ hne hdig, hv]
  unfold signedNumber
  rw [roundToDouble_small k hk]
  rfl

theorem validatePagination_pageParam (k : Nat) (hk1 : 1 ≤ k) (hk : k < 2 ^ 53) (limit : Raw) :
    (validatePagination (Raw.str (pageParam k)) limit).page = fin k := by
  rw [validatePagination_page_value _ _ k (parseInt_pageParam k hk)]
  congr 1
  omega

theorem chunks_flatten {α : Type} (l : Nat) : ∀ (n : Nat) (xs : List α), xs.length ≤ n * l →
    ((List.range n).map (fun i => (xs.drop (i * l)).take l)).flatten = xs := by
  intro n
  induction n with
  | zero =>
    intro xs h
    have : xs = [] := List.length_eq_zero.mp (by omega)
    simp [this]
  | succ n ih =>
    intro xs h
    rw [List.range_succ_eq_map, List.map_cons, List.flatten_cons, List.map_map]
    have hrest : (List.range n).map ((fun i => (xs.drop (i * l)).take l) ∘ Nat.succ) =
        (List.range n).map (fun i => ((xs.drop l).drop (i * l)).take l) := by
      apply List.map_congr_left
      intro i _
      simp only [Function.comp, List.drop_drop]
      congr 2
      rw [Nat.succ_mul]; omega
    rw [hrest, ih (xs.drop l) (by rw [List.length_drop, Nat.succ_mul] at *; omega)]
    simp

theorem getTasks_fin_page {eng : Engine} (found counted : Store) {user : UserId}
    {q : TaskQuery} {pr : Task → Bool} {sorted : List Task} (p l : Int)
    (hp : 1 ≤ p) (hl : 1 ≤ l) (hex : (p - 1) * l < 2 ^ 53)
    (hpage : (validatePagination (rawParam q.page 1) (rawParam q.limit 10)).page = fin p)
    (hlim : (validatePagination (rawParam q.page 1) (rawParam q.limit 10)).limit = fin l)
    (hpred : (buildFilter user q).pred eng = some pr)
    (hsize : (found.filter pr).length < 2 ^ 53)
    (hsort : sortDocs eng (q.sortBy.getD "createdAt") (q.sortOrder.getD "desc" == "desc")
      (found.filter pr) = some sorted) :
    getTasks eng found counted user q =
      Response.ok 200 "Tasks retrieved successfully"
        { tasks := (sorted.drop ((p - 1) * l).toNat).take l.toNat,
          pagination :=
            { currentPage := fin p,
              totalPages := JSNum.ceilDiv (counted.filter pr).length (fin l),
              totalItems := (counted.filter pr).length,
              hasNextPage := (fin p).lt (JSNum.ceilDiv (counted.filter pr).length (fin l)),
              hasPrevPage := (fin p).gt (fin 1),
              limit := fin l } } := by
  have hfind := find_slice found p l hp hl hex hpred hsize hsort
  unfold getTasks
  simp only [hpage, hlim, hfind, countDocuments, hpred]

theorem withPage_limit (q : TaskQuery) (k : Nat) :
    (validatePagination (rawParam (withPage q k).page 1) (rawParam (withPage q k).limit 10)).limit =
      (validatePagination (rawParam q.page 1) (rawParam q.limit 10)).limit := rfl

/-- The pages partition the result where the arithmetic of the handler is
exact: on one snapshot of a store of fewer than `2^53` tasks, for an engine that
accepts the pattern of the filter (predicate `pr`) and the sort key (`sorted`
is the sorted sequence of the matching tasks), with `l` the normalised limit
and `n` the least number with `n * l ≥` the number of matches: the request for
page `k` (from 1, with `k` and the offset `(k-1)*l` below `2^53`) answers 200
with `totalPages = n` and the tasks of `sorted` from offset `(k-1)*l`, `l` of
them or all that remain; a page before the last holds exactly `l` tasks; such
a page beyond `n` is empty and has `hasNextPage` false; and the tasks of the
pages 1 to `n`, put one after the other, are exactly `sorted`, a rearrangement
of the matching tasks. -/
theorem getTasks_pages_partition_exact (eng : Engine) (store : Store) (user : UserId)
    (q : TaskQuery) (pr : Task → Bool) (sorted : List Task)
    (hpred : (buildFilter user q).pred eng = some pr)
    (hsort : sortDocs eng (q.sortBy.getD "createdAt") (q.sortOrder.getD "desc" == "desc")
      (store.filter pr) = some sorted)
    (hsize : store.length < 2 ^ 53) :
    ∃ (l n : Nat), 1 ≤ l ∧ l ≤ 100 ∧
      (validatePagination (rawParam q.page 1) (rawParam q.limit 10)).limit = fin (l : Int) ∧
      IsLeast {m : Nat | sorted.length ≤ m * l} n ∧
      (∀ k, 1 ≤ k → k < 2 ^ 53 → (k - 1) * l < 2 ^ 53 →
        ∃ page : TaskPage,
          getTasks eng store store user (withPage q k) =
            Response.ok 200 "Tasks retrieved successfully" page ∧
          page.pagination.currentPage = fin (k : Int) ∧
          page.pagination.totalPages = fin (n : Int) ∧
          page.tasks = (sorted.drop ((k - 1) * l)).take l ∧
          page.pagination.hasNextPage = decide (k < n) ∧
          (k < n → page.tasks.length = l) ∧
          (n < k → page.tasks = [] ∧ page.pagination.hasNextPage = false)) ∧
      ((List.range n).map
        (fun i => returnedTasks (getTasks eng store store user (withPage q (i + 1))))).flatten =
        sorted ∧
      sorted.Perm (store.filter pr) := by
  obtain ⟨l, hlim, hl1, hl100⟩ :=
    validatePagination_limit (rawParam q.page 1) (rawParam q.limit 10)
  lift l to Nat using (by omega)
  have hl1' : 1 ≤ l := by exact_mod_cast hl1
  have hl100' : l ≤ 100 := by exact_mod_cast hl100
  have hperm := sortDocs_perm hsort
  have htotal : (store.filter pr).length = sorted.length := hperm.length_eq.symm
  obtain ⟨n, hn, hleast, -⟩ := ceilDiv_fin sorted.length (l : Int) hl1
  have hleastN : IsLeast {m : Nat | sorted.length ≤ m * l} n := by
    constructor
    · have := hleast.1
      show sorted.length ≤ n * l
      exact_mod_cast this
    · intro m hm
      apply hleast.2
      show (sorted.length : Int) ≤ (m : Int) * (l : Int)
      exact_mod_cast hm
  have hnle : n ≤ sorted.length := by
    apply hleastN.2
    show sorted.length ≤ sorted.length * l
    exact Nat.le_mul_of_pos_right _ hl1'
  have hlen_store : sorted.length ≤ store.length := by
    rw [← htotal]; exact List.length_filter_le _ _
  have hsizeF : (store.filter pr).length < 2 ^ 53 := by omega
  have hpageK : ∀ k, 1 ≤ k → k < 2 ^ 53 → (k - 1) * l < 2 ^ 53 →
      getTasks eng store store user (withPage q k) =
        Response.ok 200 "Tasks retrieved successfully"
          { tasks := (sorted.drop ((k - 1) * l)).take l,
            pagination :=
              { currentPage := fin (k : Int),
                totalPages := fin (n : Int),
                totalItems := sorted.length,
                hasNextPage := decide (k < n),
                hasPrevPage := (fin (k : Int)).gt (fin 1),
                limit := fin (l : Int) } } := by
    intro k hk1 hk hkl
    have hpage : (validatePagination (rawParam (withPage q k).page 1)
        (rawParam (withPage q k).limit 10)).page = fin (k : Int) :=
      validatePagination_pageParam k hk1 hk _
    have hlimK : (validatePagination (rawParam (withPage q k).page 1)
        (rawParam (withPage q k).limit 10)).limit = fin (l : Int) :=
      (withPage_limit q k).trans hlim
    have hexK : ((k : Int) - 1) * (l : Int) < 2 ^ 53 := by
      have : (((k - 1) * l : Nat) : Int) < 2 ^ 53 := by exact_mod_cast hkl
      push_cast [Nat.cast_sub hk1] at this
      exact this
    have hget := getTasks_fin_page store store (k : Int) (l : Int) (by exact_mod_cast hk1) hl1
      hexK hpage hlimK hpred hsizeF hsort
    rw [hget, htotal, hn]
    have hoff : (((k : Int) - 1) * (l : Int)).toNat = (k - 1) * l := by
      have : ((k : Int) - 1) * (l : Int) = (((k - 1) * l : Nat) : Int) := by
        push_cast [Nat.cast_sub hk1]; ring
      rw [this, Int.toNat_natCast]
    have hlt : (fin (k : Int)).lt (fin (n : Int)) = decide (k < n) := by
      simp [JSNum.lt]
    simp only [hoff, Int.toNat_natCast, hlt]
  refine ⟨l, n, hl1', hl100', hlim, hleastN, ?_, ?_, hperm⟩
  · intro k hk1 hk hkl
    refine ⟨_, hpageK k hk1 hk hkl, rfl, rfl, rfl, rfl, ?_, ?_⟩
    · intro hkn
      have hfail : ¬ sorted.length ≤ (n - 1) * l := by
        intro hle
        have := hleastN.2 hle
        omega
      have hkl : k * l ≤ (n - 1) * l := Nat.mul_le_mul_right l (by omega)
      have hk1l : (k - 1) * l + l = k * l := by
        rw [← Nat.succ_mul]; congr 1; omega
      simp only [List.length_take, List.length_drop]
      omega
    · intro hnk
      have hle : sorted.length ≤ (k - 1) * l := by
        calc sorted.length ≤ n * l := hleastN.1
          _ ≤ (k - 1) * l := Nat.mul_le_mul_right l (by omega)
      refine ⟨?_, ?_⟩
      · simp only
        rw [List.drop_eq_nil_of_le hle]
        simp
      · simp only [decide_eq_false_iff_not]
        omega
  · have hmap : (List.range n).map
        (fun i => returnedTasks (getTasks eng store store user (withPage q (i + 1)))) =
        (List.range n).map (fun i => (sorted.drop (i * l)).take l) := by
      apply List.map_congr_left
      intro i hi
      have hi' : i < n := List.mem_range.mp hi
      have hil : i * l < sorted.length := by
        by_contra hc
        have := hleastN.2 (show sorted.length ≤ i * l by omega)
        omega
      rw [hpageK (i + 1) (by omega) (by omega) (by simpa using by omega)]
      simp [returnedTasks]
    rw [hmap]
    exact chunks_flatten l n sorted hleastN.1

/-- With limit 1 the pages of the listing of `u1` on the sample store, put one
after the other, are its two tasks in descending order of creation, and page 3
is empty. -/
theorem getTasks_pages_partition_exact_witness :
    ∃ n : Nat,
      ((List.range n).map
        (fun i => returnedTasks (getTasks plainEngine sampleStore sampleStore "u1"
          (withPage { emptyQuery with limit := some "1" } (i + 1))))).flatten =
        [taskWalk, taskMilk] ∧
      returnedTasks (getTasks plainEngine sampleStore sampleStore "u1"
        (withPage { emptyQuery with limit := some "1" } 3)) = [] := by
  obtain ⟨l, n, hl1, hl100, -, hleast, hpages, hflat, -⟩ :=
    getTasks_pages_partition_exact plainEngine sampleStore "u1"
      { emptyQuery with limit := some "1" }
      (fun t => (buildFilter "u1" { emptyQuery with limit := some "1" }).exact t)
      [taskWalk, taskMilk] rfl (by decide) (by decide)
  refine ⟨n, hflat, ?_⟩
  have hn : n ≤ 2 := by
    apply hleast.2
    show [taskWalk, taskMilk].length ≤ 2 * l
    simp only [List.length_cons, List.length_nil]
    omega
  obtain ⟨page, hget, -, -, -, -, -, hbeyond⟩ :=
    hpages 3 (by decide) (by decide) (by norm_num; omega)
  rw [hget]
  exact (hbeyond (by omega)).1


theorem validate_message_nonempty (env : ValidateEnv) (group name : String) (value : JSValue)
    (err : String) (h : validate env group name value = some err) :
    err.data.isEmpty = false := by
  have hName : ∀ e, validateName env value = some e → e.data.isEmpty = false := by
    intro e he
    unfold validateName at he
    split_ifs at he <;> cases he <;> rfl
  have hEmail : ∀ e, validateEmail env value = some e → e.data.isEmpty = false := by
    intro e he
    unfold validateEmail at he
    split_ifs at he <;> cases he <;> rfl
  have hNew : ∀ e, validateNewPassword env value = some e → e.data.isEmpty = false := by
    intro e he
    unfold validateNewPassword at he
    split_ifs at he <;> cases he <;> rfl
  have hPass : ∀ e, validatePassword value = some e → e.data.isEmpty = false := by
    intro e he
    unfold validatePassword at he
    split_ifs at he
    cases he
    rfl
  have hTitle : ∀ e, validateTitle value = some e → e.data.isEmpty = false := by
    intro e he
    unfold validateTitle at he
    split_ifs at he <;> cases he <;> rfl
  have hDesc : ∀ e, validateDescription value = some e → e.data.isEmpty = false := by
    intro e he
    unfold validateDescription at he
    split_ifs at he <;> cases he <;> rfl
  have hOne : ∀ (valid : List String) (m e : String),
      validateOneOf valid m value = some e → m.data.isEmpty = false →
      e.data.isEmpty = false := by
    intro valid m e he hm
    unfold validateOneOf at he
    split_ifs at he
    cases he
    exact hm
  have hDue : ∀ e, validateDueDate env value = some e → e.data.isEmpty = false := by
    intro e he
    unfold validateDueDate at he
    split_ifs at he
    split at he
    · cases he; rfl
    · split_ifs at he
      cases he; rfl
  have hTags : ∀ e, validateTags value = some e → e.data.isEmpty = false := by
    intro e he
    unfold validateTags at he
    split_ifs at he <;> cases he <;> rfl
  unfold validate at h
  by_cases hg1 : group = "signup"
  · rw [if_pos hg1] at h
    by_cases h1 : name = "name"
    · rw [if_pos h1] at h; exact hName _ h
    · rw [if_neg h1] at h
      by_cases h2 : name = "email"
      · rw [if_pos h2] at h; exact hEmail _ h
      · rw [if_neg h2] at h
        by_cases h3 : name = "password"
        · rw [if_pos h3] at h; exact hNew _ h
        · rw [if_neg h3] at h; cases h
  · rw [if_neg hg1] at h
    by_cases hg2 : group = "login"
    · rw [if_pos hg2] at h
      by_cases h1 : name = "email"
      · rw [if_pos h1] at h; exact hEmail _ h
      · rw [if_neg h1] at h
        by_cases h2 : name = "password"
        · rw [if_pos h2] at h; exact hPass _ h
        · rw [if_neg h2] at h; cases h
    · rw [if_neg hg2] at h
      by_cases hg3 : group = "task"
      · rw [if_pos hg3] at h
        by_cases h1 : name = "title"
        · rw [if_pos h1] at h; exact hTitle _ h
        · rw [if_neg h1] at h
          by_cases h2 : name = "description"
          · rw [if_pos h2] at h; exact hDesc _ h
          · rw [if_neg h2] at h
            by_cases h3 : name = "status"
            · rw [if_pos h3] at h; exact hOne _ _ _ h rfl
            · rw [if_neg h3] at h
              by_cases h4 : name = "priority"
              · rw [if_pos h4] at h; exact hOne _ _ _ h rfl
              · rw [if_neg h4] at h
                by_cases h5 : name = "category"
                · rw [if_pos h5] at h; exact hOne _ _ _ h rfl
                · rw [if_neg h5] at h
                  by_cases h6 : name = "dueDate"
                  · rw [if_pos h6] at h; exact hDue _ h
                  · rw [if_neg h6] at h
                    by_cases h7 : name = "tags"
                    · rw [if_pos h7] at h; exact hTags _ h
                    · rw [if_neg h7] at h; cases h
      · rw [if_neg hg3] at h; cases h

theorem validateManyFields_append (env : ValidateEnv) (group : String)
    (list : List (String × JSValue)) (fv : String × JSValue) :
    validateManyFields env group (list ++ [fv]) =
      validateManyFields env group list ++
        (match validate env group fv.1 fv.2 with
          | some err => [{ field := fv.1, err := err }]
          | none => []) := by
  unfold validateManyFields
  rw [List.foldl_append]
  simp only [List.foldl_cons, List.foldl_nil]
  cases hv : validate env group fv.1 fv.2 with
  | none => simp
  | some err =>
    have := validate_message_nonempty env group fv.1 fv.2 err hv
    simp [this]

theorem validateManyFields_eq_filterMap (env : ValidateEnv) (group : String)
    (list : List (String × JSValue)) :
    validateManyFields env group list =
      list.filterMap (fun fv =>
        (validate env group fv.1 fv.2).map (fun err => { field := fv.1, err := err })) := by
  induction list using List.reverseRecOn with
  | nil => rfl
  | append_singleton list fv ih =>
    rw [validateManyFields_append, ih, List.filterMap_append]
    congr 1
    cases hv : validate env group fv.1 fv.2 with
    | none => simp [List.filterMap_cons, hv]
    | some err => simp [List.filterMap_cons, hv]

/-- C25 (error aggregation does not fail fast): for every group and every
submission, given as its fields with their values in enumeration order,
`validateManyFields` returns the list obtained by keeping, in that order, one
entry `{ field, err }` for each field whose `validate` result is a message and
nothing for the other fields. Hence the number of entries is the number of
invalid fields, the fields of the entries are the invalid fields in submission
order, an entry is in the list exactly when its field was submitted with a
value that `validate` rejects with that message, and the list is empty if and
only if every submitted field is valid. -/
theorem validateManyFields_collects_all (env : ValidateEnv) (group : String)
    (list : List (String × JSValue)) :
    validateManyFields env group list =
        list.filterMap (fun fv =>
          (validate env group fv.1 fv.2).map (fun err => { field := fv.1, err := err })) ∧
      (validateManyFields env group list).length =
        list.countP (fun fv => (validate env group fv.1 fv.2).isSome) ∧
      ((validateManyFields env group list).map (fun e => e.field)) =
        (list.filter (fun fv => (validate env group fv.1 fv.2).isSome)).map (fun fv => fv.1) ∧
      (∀ e, e ∈ validateManyFields env group list ↔
        ∃ fv ∈ list, fv.1 = e.field ∧ validate env group fv.1 fv.2 = some e.err) ∧
      (validateManyFields env group list = [] ↔
        ∀ fv ∈ list, validate env group fv.1 fv.2 = none) := by
  have heq := validateManyFields_eq_filterMap env group list
  refine ⟨heq, ?_, ?_, ?_, ?_⟩
  · rw [heq]
    clear heq
    induction list with
    | nil => rfl
    | cons fv rest ih =>
      cases hv : validate env group fv.1 fv.2 with
      | none => simp [List.filterMap_cons, List.countP_cons, hv, ih]
      | some err => simp [List.filterMap_cons, List.countP_cons, hv, ih]
  · rw [heq]
    clear heq
    induction list with
    | nil => rfl
    | cons fv rest ih =>
      cases hv : validate env group fv.1 fv.2 with
      | none => simp [List.filterMap_cons, List.filter_cons, hv, ih]
      | some err => simp [List.filterMap_cons, List.filter_cons, hv, ih]
  · intro e
    rw [heq, List.mem_filterMap]
    constructor
    · rintro ⟨fv, hfv, hm⟩
      cases hv : validate env group fv.1 fv.2 with
      | none => rw [hv] at hm; simp at hm
      | some err =>
        rw [hv] at hm
        simp only [Option.map_some', Option.some.injEq] at hm
        subst hm
        exact ⟨fv, hfv, rfl, hv⟩
    · rintro ⟨fv, hfv, hf, hv⟩
      refine ⟨fv, hfv, ?_⟩
      rw [hv]
      simp only [Option.map_some', Option.some.injEq]
      cases e
      simp only at hf
      subst hf
      rfl
  · rw [heq, List.filterMap_eq_nil_iff]
    constructor
    · intro h fv hfv
      have := h fv hfv
      cases hv : validate env group fv.1 fv.2 with
      | none => rfl
      | some err => rw [hv] at this; simp at this
    · intro h fv hfv
      rw [h fv hfv]; rfl

theorem validate_task_tags (env : ValidateEnv) (value : JSValue) :
    validate env "task" "tags" value = validateTags value := by
  unfold validate
  rw [if_neg (by decide), if_neg (by decide), if_pos rfl, if_neg (by decide),
    if_neg (by decide), if_neg (by decide), if_neg (by decide), if_neg (by decide),
    if_neg (by decide), if_pos rfl]

/-- C26, counterexample: an array whose only element is a string of 21
characters is rejected by the tags validator although every element is a
string, and the present values `0`, `false` and `''`, none of them an array,
are accepted. -/
theorem validate_tags_not_only_shape :
    validate sampleEnv "task" "tags"
        (JSValue.array [JSValue.string (String.mk (List.replicate 21 'a'))]) =
      some "Each tag must be a string and cannot exceed 20 characters" ∧
    validate sampleEnv "task" "tags" (JSValue.number (JSNum.fin 0)) = none ∧
    validate sampleEnv "task" "tags" (JSValue.bool false) = none ∧
    validate sampleEnv "task" "tags" (JSValue.string "") = none := by
  decide

/-- C26, amended (tag-shape validator): `validate('task', 'tags', v)` returns
no error if and only if `v` is falsy or `v` is an array every element of which
is a string of at most 20 characters; it returns `Tags must be an array`
exactly when `v` is truthy and not an array, and the per-tag message exactly
when `v` is an array with an element that is not a string of at most 20
characters. -/
theorem validate_tags_shape (env : ValidateEnv) (value : JSValue) :
    (validate env "task" "tags" value = none ↔
      (value.truthy = false ∨
        ∃ items, value = JSValue.array items ∧
          ∀ x ∈ items, ∃ s, x = JSValue.string s ∧ jsLength s ≤ 20)) ∧
    (validate env "task" "tags" value = some "Tags must be an array" ↔
      (value.truthy = true ∧ value.isArray = false)) ∧
    (validate env "task" "tags" value =
        some "Each tag must be a string and cannot exceed 20 characters" ↔
      ∃ items, value = JSValue.array items ∧
        ∃ x ∈ items, ∀ s, x = JSValue.string s → 20 < jsLength s) := by
  rw [validate_task_tags]
  have hbad : ∀ x : JSValue, badTag x = true ↔ ∀ s, x = JSValue.string s → 20 < jsLength s := by
    intro x
    cases x <;> simp [badTag]
  have hgood : ∀ x : JSValue, badTag x = false ↔ ∃ s, x = JSValue.string s ∧ jsLength s ≤ 20 := by
    intro x
    cases x <;> simp [badTag]
  cases value with
  | array items =>
    have hany : (items.any badTag = false) ↔
        ∀ x ∈ items, ∃ s, x = JSValue.string s ∧ jsLength s ≤ 20 := by
      rw [List.any_eq_false]
      constructor
      · intro h x hx
        exact (hgood x).mp (by simpa using h x hx)
      · intro h x hx
        simpa using (hgood x).mpr (h x hx)
    have hany' : (items.any badTag = true) ↔
        ∃ x ∈ items, ∀ s, x = JSValue.string s → 20 < jsLength s := by
      rw [List.any_eq_true]
      constructor
      · rintro ⟨x, hx, hb⟩; exact ⟨x, hx, (hbad x).mp hb⟩
      · rintro ⟨x, hx, hb⟩; exact ⟨x, hx, (hbad x).mpr hb⟩
    cases hb : items.any badTag with
    | false =>
      have h1 := hany.mp hb
      have h2 : ¬ ∃ x ∈ items, ∀ s, x = JSValue.string s → 20 < jsLength s := by
        rw [← hany', hb]; simp
      have hv : validateTags (JSValue.array items) = none := by
        simp [validateTags, JSValue.truthy, JSValue.isArray, someBadTag, hb]
      rw [hv]
      refine ⟨⟨fun _ => Or.inr ⟨items, rfl, h1⟩, fun _ => rfl⟩, ?_, ?_⟩
      · simp [JSValue.truthy, JSValue.isArray]
      · constructor
        · intro h; cases h
        · rintro ⟨its, he, hx⟩
          cases he
          exact absurd hx h2
    | true =>
      have h1 := hany'.mp hb
      have h2 : ¬ ∀ x ∈ items, ∃ s, x = JSValue.string s ∧ jsLength s ≤ 20 := by
        rw [← hany, hb]; simp
      have hv : validateTags (JSValue.array items) =
          some "Each tag must be a string and cannot exceed 20 characters" := by
        simp [validateTags, JSValue.truthy, JSValue.isArray, someBadTag, hb]
      rw [hv]
      refine ⟨?_, ?_, ⟨fun _ => ⟨items, rfl, h1⟩, fun _ => rfl⟩⟩
      · constructor
        · intro h; cases h
        · rintro (h | ⟨its, he, hx⟩)
          · simp [JSValue.truthy] at h
          · cases he
            exact absurd hx h2
      · constructor
        · intro h
          exact absurd (Option.some.inj h) (by decide)
        · rintro ⟨_, h⟩
          simp [JSValue.isArray] at h
  | undefined => simp [validateTags, JSValue.truthy, JSValue.isArray, someBadTag]
  | null => simp [validateTags, JSValue.truthy, JSValue.isArray, someBadTag]
  | object => simp [validateTags, JSValue.truthy, JSValue.isArray, someBadTag]
  | bool b => cases b <;> simp [validateTags, JSValue.truthy, JSValue.isArray, someBadTag]
  | number n =>
    cases ht : n.truthy <;>
      simp [validateTags, JSValue.truthy, JSValue.isArray, someBadTag, ht]
  | string s =>
    cases ht : s.data.isEmpty <;>
      simp [validateTags, JSValue.truthy, JSValue.isArray, someBadTag, ht]


theorem validatorLength_pos_ne_empty {s : String} (h : 1 ≤ validatorLength s) : s ≠ "" := by
  intro he
  subst he
  simp [validatorLength] at h

theorem validateTask_some {isISO8601 : String → Bool} {body clean : TaskBody}
    (h : validateTask isISO8601 body = some clean) :
    clean = { body with title := some (jsTrim (fieldString body.title)),
                        description := some (jsTrim (fieldString body.description)) } ∧
      jsTrim (fieldString body.title) ≠ "" ∧ jsTrim (fieldString body.description) ≠ "" := by
  unfold validateTask at h
  simp only at h
  split_ifs at h with hc
  cases h
  simp only [Bool.and_eq_true, decide_eq_true_eq] at hc
  exact ⟨rfl, validatorLength_pos_ne_empty hc.1.1.1.1.1.1.1,
    validatorLength_pos_ne_empty hc.1.1.1.1.1.2.1⟩

theorem validateTask_blank {isISO8601 : String → Bool} {body : TaskBody}
    (h : jsTrim (fieldString body.title) = "" ∨ jsTrim (fieldString body.description) = "") :
    validateTask isISO8601 body = none := by
  cases hv : validateTask isISO8601 body with
  | none => rfl
  | some clean =>
    obtain ⟨-, h1, h2⟩ := validateTask_some hv
    rcases h with h | h
    · exact absurd h h1
    · exact absurd h h2

theorem fieldString_trim_ne {v : Option String} (h : jsTrim (fieldString v) ≠ "") :
    ∃ s, v = some s ∧ jsTrim s ≠ "" := by
  cases v with
  | none => exact absurd (by decide) h
  | some s => exact ⟨s, rfl, h⟩

/-- C18, counterexample: a create request whose title is three spaces, and one
whose title is missing, is answered 400 `Validation failed` by the validators
of the route and inserts nothing; the answer is not the 400 `Title and
description are required` of `postTask`, and no task is inserted. -/
theorem postTaskRoute_blank_title :
    postTaskRoute (fun _ => true) plainEngine 50 "dddddddddddddddddddddddd" sampleStore "u1"
        { emptyBody with title := some "   ", description := some "2% milk" } =
      (Response.error 400 "Validation failed", sampleStore) ∧
    postTaskRoute (fun _ => true) plainEngine 50 "dddddddddddddddddddddddd" sampleStore "u1"
        { emptyBody with description := some "2% milk" } =
      (Response.error 400 "Validation failed", sampleStore) ∧
    (Response.error 400 "Validation failed" : Response Task) ≠
      Response.error 400 "Title and description are required" := by
  decide

/-- C18, amended (create never stores an empty title or description): for every
body whose title and description are strings or missing, a create request
(`validateTask`, `handleValidationErrors`, then `postTask`) is answered 400
`Validation failed` and inserts nothing, or is answered 500 and inserts nothing
(`Task.create` throws), or is answered 201 and adds to the store one task of
the requester whose title and description are the trimmed inputs and are not
empty; a title or description that is missing or empty after trimming is
answered 400 `Validation failed`; and no create request is answered with the
400 `Title and description are required` of `postTask`. -/
theorem postTaskRoute_never_stores_empty (isISO8601 : String → Bool) (eng : Engine) (now : Nat)
    (newId : ObjectId) (store : Store) (user : UserId) (body : TaskBody) :
    ((postTaskRoute isISO8601 eng now newId store user body =
          (Response.error 400 "Validation failed", store)) ∨
      (postTaskRoute isISO8601 eng now newId store user body =
          (Response.error 500 "Internal Server Error", store)) ∨
      (∃ title description created, body.title = some title ∧
        body.description = some description ∧
        postTaskRoute isISO8601 eng now newId store user body =
          (Response.ok 201 "Task created successfully" created, store ++ [created]) ∧
        created.title = jsTrim title ∧ created.description = jsTrim description ∧
        created.title ≠ "" ∧ created.description ≠ "" ∧ created.user = user)) ∧
    ((jsTrim (fieldString body.title) = "" ∨ jsTrim (fieldString body.description) = "") →
      postTaskRoute isISO8601 eng now newId store user body =
        (Response.error 400 "Validation failed", store)) ∧
    (postTaskRoute isISO8601 eng now newId store user body).1 ≠
      Response.error 400 "Title and description are required" := by
  have hkey : (postTaskRoute isISO8601 eng now newId store user body =
          (Response.error 400 "Validation failed", store)) ∨
      (postTaskRoute isISO8601 eng now newId store user body =
          (Response.error 500 "Internal Server Error", store)) ∨
      (∃ title description created, body.title = some title ∧
        body.description = some description ∧
        postTaskRoute isISO8601 eng now newId store user body =
          (Response.ok 201 "Task created successfully" created, store ++ [created]) ∧
        created.title = jsTrim title ∧ created.description = jsTrim description ∧
        created.title ≠ "" ∧ created.description ≠ "" ∧ created.user = user) := by
    cases hv : validateTask isISO8601 body with
    | none => left; simp [postTaskRoute, hv]
    | some clean =>
      right
      obtain ⟨hclean, ht, hd⟩ := validateTask_some hv
      obtain ⟨title, hbt, -⟩ := fieldString_trim_ne ht
      obtain ⟨description, hbd, -⟩ := fieldString_trim_ne hd
      have hroute : postTaskRoute isISO8601 eng now newId store user body =
          postTask eng now newId store user clean := by simp [postTaskRoute, hv]
      have hct : clean.title = some (jsTrim title) := by rw [hclean, hbt]; rfl
      have hcd : clean.description = some (jsTrim description) := by rw [hclean, hbd]; rfl
      rw [hbt] at ht
      rw [hbd] at hd
      rcases postTask_handler_outcomes eng now newId store user clean with
        ⟨-, h⟩ | ⟨h, -⟩ | ⟨t1, d1, created, h1, h2, hpost, hti, hde, hne1, hne2, hu⟩
      · exfalso
        rw [hct, hcd] at h
        rcases h with h | h | h | h
        · cases h
        · exact ht (Option.some.inj h)
        · cases h
        · exact hd (Option.some.inj h)
      · left; rw [hroute]; exact h
      · right
        rw [hct] at h1
        rw [hcd] at h2
        cases h1
        cases h2
        refine ⟨title, description, created, hbt, hbd, hroute.trans hpost, ?_, ?_, hne1, hne2, hu⟩
        · rw [hti, jsTrim_idem]
        · rw [hde, jsTrim_idem]
  refine ⟨hkey, ?_, ?_⟩
  · intro hblank
    simp [postTaskRoute, validateTask_blank hblank]
  · rcases hkey with h | h | ⟨_, _, _, _, _, h, _⟩
    · rw [h]
      intro hc
      have h2 := Response.error.inj hc
      exact absurd h2.2 (by decide)
    · rw [h]
      intro hc
      have h2 := Response.error.inj hc
      exact absurd h2.1 (by decide)
    · rw [h]
      intro hc
      cases hc

theorem aggregate_uncast (eng : Engine) (store : Store) (userId : UserId) (key : Task → String)
    (hraw : ∀ o, eng.ownerEq o userId = false) :
    aggregate eng store userId key = [] := by
  have hf : store.filter (fun t => eng.ownerEq t.user userId) = [] := by
    rw [List.filter_eq_nil_iff]
    intro t _
    simp [hraw]
  unfold aggregate
  rw [hf]
  rfl

theorem countDue_owner (store : Store) (userId : UserId) :
    countDue store
        { user := userId, dueLt := none, dueGte := none, dueLte := none, statusNin := [] } =
      (store.filter (fun t => t.user == userId)).length := by
  unfold countDue
  congr 1
  congr 1
  funext t
  simp [DueFilter.holds, dueBound]

/-- C24 (grouped counts cover only present values), at its failing inputs: on a
store for which the owner written in the stage `$match`, the string
`req.user.id` that a pipeline carries uncast, equals no stored owner,
`getTaskStats` answers 200 with `byStatus`, `byPriority` and `byCategory`
empty, while `total` counts the tasks of the requester: no status of a task of
the requester has an entry. -/
theorem getTaskStats_grouped_uncast (eng : Engine) (now today tomorrow : Nat)
    (reads : StatsReads) (userId : UserId)
    (hraw : ∀ o, eng.ownerEq o userId = false) :
    ∃ stats : Stats,
      getTaskStats eng now today tomorrow reads userId =
        Response.ok 200 "Task statistics retrieved successfully" stats ∧
      stats.byStatus = [] ∧ stats.byPriority = [] ∧ stats.byCategory = [] ∧
      stats.total = (reads.atTotal.filter (fun t => t.user == userId)).length ∧
      (∀ t ∈ reads.atStatus, t.user = userId →
        t.status ∉ stats.byStatus.map (fun g => g._id)) := by
  refine ⟨_, rfl, aggregate_uncast eng _ userId _ hraw, aggregate_uncast eng _ userId _ hraw,
    aggregate_uncast eng _ userId _ hraw, countDue_owner _ _, ?_⟩
  intro t _ _
  show t.status ∉ (aggregate eng reads.atStatus userId (fun t => t.status)).map (fun g => g._id)
  rw [aggregate_uncast eng _ userId _ hraw]
  simp

/-- Witness of C24: on the sample store, where `u1` owns two tasks, one of them
pending, the statistics of `u1` have total 2 and no grouped entry. -/
theorem getTaskStats_grouped_uncast_witness :
    (∀ o, uncastEngine.ownerEq o "u1" = false) ∧
      taskMilk ∈ sampleStore ∧ taskMilk.user = "u1" ∧ taskMilk.status = "pending" ∧
      ∃ stats : Stats,
        getTaskStats uncastEngine 10 100 200 (StatsReads.snapshot sampleStore) "u1" =
          Response.ok 200 "Task statistics retrieved successfully" stats ∧
        stats.total = 2 ∧ stats.byStatus = [] ∧ stats.byPriority = [] ∧
        stats.byCategory = [] := by
  refine ⟨fun _ => rfl, by decide, rfl, rfl, ?_⟩
  obtain ⟨stats, hget, hs, hp, hc, ht, -⟩ :=
    getTaskStats_grouped_uncast uncastEngine 10 100 200 (StatsReads.snapshot sampleStore) "u1"
      (fun _ => rfl)
  exact ⟨stats, hget, ht.trans (by decide), hs, hp, hc⟩

/-- C28 (grouped counts sum to the total), at its failing inputs: on a store for
which the owner written in the stage `$match`, the string `req.user.id` that a
pipeline carries uncast, equals no stored owner, for a requester who owns a
task on the snapshot, the counts of `byStatus`, of `byPriority` and of
`byCategory` each sum to 0 while `total` is positive; `overdue` and `dueToday`
are at most `total`. -/
theorem getTaskStats_sums_uncast (eng : Engine) (now today tomorrow : Nat) (store : Store)
    (userId : UserId) (t : Task)
    (hraw : ∀ o, eng.ownerEq o userId = false)
    (ht : t ∈ store) (hu : t.user = userId) :
    ∃ stats : Stats,
      getTaskStats eng now today tomorrow (StatsReads.snapshot store) userId =
        Response.ok 200 "Task statistics retrieved successfully" stats ∧
      stats.total = (store.filter (fun t => t.user == userId)).length ∧
      0 < stats.total ∧
      (stats.byStatus.map (fun g => g.count)).sum = 0 ∧
      (stats.byPriority.map (fun g => g.count)).sum = 0 ∧
      (stats.byCategory.map (fun g => g.count)).sum = 0 ∧
      (stats.byStatus.map (fun g => g.count)).sum ≠ stats.total ∧
      stats.overdue ≤ stats.total ∧ stats.dueToday ≤ stats.total := by
  have htotal := countDue_owner store userId
  have hpos : 0 < (store.filter (fun t => t.user == userId)).length := by
    exact List.length_pos_of_mem (List.mem_filter.mpr ⟨ht, by simpa using hu⟩)
  have h1 : ((aggregate eng store userId (fun t => t.status)).map (fun g => g.count)).sum = 0 := by
    rw [aggregate_uncast eng _ userId _ hraw]; rfl
  have h2 : ((aggregate eng store userId (fun t => t.priority)).map (fun g => g.count)).sum = 0 := by
    rw [aggregate_uncast eng _ userId _ hraw]; rfl
  have h3 : ((aggregate eng store userId (fun t => t.category)).map (fun g => g.count)).sum = 0 := by
    rw [aggregate_uncast eng _ userId _ hraw]; rfl
  refine ⟨_, rfl, htotal, ?_, h1, h2, h3, ?_, ?_, ?_⟩
  · show 0 < countDue store _
    rw [htotal]; exact hpos
  · show ((aggregate eng store userId (fun t => t.status)).map (fun g => g.count)).sum ≠
      countDue store _
    rw [h1, htotal]; omega
  · exact countDue_le_total store
      { user := userId, dueLt := some now, dueGte := none, dueLte := none,
        statusNin := ["completed", "cancelled"] }
  · exact countDue_le_total store
      { user := userId, dueLt := none, dueGte := some today, dueLte := some tomorrow,
        statusNin := ["completed", "cancelled"] }

/-- Witness of C28: on the sample store the statistics of `u1` have total 2 and
grouped counts that sum to 0. -/
theorem getTaskStats_sums_uncast_witness :
    (∀ o, uncastEngine.ownerEq o "u1" = false) ∧ taskWalk ∈ sampleStore ∧
      taskWalk.user = "u1" ∧
      ∃ stats : Stats,
        getTaskStats uncastEngine 10 100 200 (StatsReads.snapshot sampleStore) "u1" =
          Response.ok 200 "Task statistics retrieved successfully" stats ∧
        stats.total = 2 ∧
        (stats.byStatus.map (fun g => g.count)).sum = 0 ∧
        (stats.byPriority.map (fun g => g.count)).sum = 0 ∧
        (stats.byCategory.map (fun g => g.count)).sum = 0 := by
  refine ⟨fun _ => rfl, by decide, rfl, ?_⟩
  obtain ⟨stats, hget, ht, -, hs, hp, hc, -⟩ :=
    getTaskStats_sums_uncast uncastEngine 10 100 200 sampleStore "u1" taskWalk
      (fun _ => rfl) (by decide) rfl
  exact ⟨stats, hget, ht.trans (by decide), hs, hp, hc⟩

set_option maxRecDepth 100000 in
/-- C4 (page slice), evaluated at a failing input: for the page `1` followed by
307 zeros and the limit 100, the normalised page is an integer and the
normalised limit is 100, and the offset `(pageNum - 1) * limitNum`, computed
in doubles, is `Infinity`; on a store that rejects this skip `getTasks`
answers 500 and not the slice of the two matching tasks, which page 1 returns
whole. (Where the offset is exact the slice is as claimed, see
`getTasks_page_slice_exact`.) -/
theorem getTasks_page_slice_overflow :
    (validatePagination (Raw.str page1e307) (Raw.str "100")).page.isInteger = true ∧
      (validatePagination (Raw.str page1e307) (Raw.str "100")).limit = fin 100 ∧
      ((validatePagination (Raw.str page1e307) (Raw.str "100")).page.sub (fin 1)).mul (fin 100) =
        inf false ∧
      getTasks strictEngine sampleStore sampleStore "u1"
          { emptyQuery with page := some page1e307, limit := some "100" } =
        Response.error 500 "Internal Server Error" ∧
      returnedTasks (getTasks strictEngine sampleStore sampleStore "u1"
          { emptyQuery with page := some "1", limit := some "100" }) = [taskWalk, taskMilk] := by
  decide

set_option maxRecDepth 100000 in
/-- C27 (pages partition the result), evaluated at a failing input: the listing
of `u1` on the sample store has 1 page; for the page `1` followed by 308
zeros, an integer greater than 1, the offset computed in doubles is `Infinity`
and, on a store that rejects this skip, `getTasks` answers 500 and not an empty
list with `hasNextPage` false. (For the pages whose offset is exact the pages
partition the result, see `getTasks_pages_partition_exact`.) -/
theorem getTasks_far_page_error :
    (getTasks strictEngine sampleStore sampleStore "u1" emptyQuery).data?.map
        (fun d => d.pagination.totalPages) = some (fin 1) ∧
      (fin 1).lt (validatePagination (Raw.str page1e308) (Raw.num 10)).page = true ∧
      (validatePagination (Raw.str page1e308) (Raw.num 10)).page.isInteger = true ∧
      ((validatePagination (Raw.str page1e308) (Raw.num 10)).page.sub (fin 1)).mul (fin 10) =
        inf false ∧
      getTasks strictEngine sampleStore sampleStore "u1"
          { emptyQuery with page := some page1e308 } =
        Response.error 500 "Internal Server Error" := by
  decide


end TaskManager
